import Mathlib

/-!
# Translation service: provider orchestration and response parsing

A shallow embedding of `src/server/services/translateService.js` and of the handlers of
`src/server/routes/translate.js`, with the 404 fallback of `src/server/index.js` and the
category enumeration of `src/server/models/Prompt.js`.

* JavaScript strings are sequences of UTF-16 code units (`JsString`); this is the
  representation on which `trim`, `substring` and `JSON.parse` are defined by ECMA-262.
  Strings that the service only compares or concatenates (provider names, error messages,
  language tags, prompt templates, timestamps) are kept as Lean `String`s.
* JSON values produced by `JSON.parse` are the inductive type `JsValue`.
* Remote providers are oracles of a `World`; every provider client logs the events it
  performs (entering the client, issuing the outbound request) in a chronological trace.
* A JavaScript `throw` is the `error` case of `Except`, with the `Error` object's message.
  `console.log` / `console.error` output is not modelled.
* A request handler maps the in-memory `translationHistory` and a request to a response, the
  history afterwards and the events the providers saw.
-/

namespace TranslateService

/-! ## JavaScript strings -/

/-- A JavaScript string: its sequence of UTF-16 code units. -/
abbrev JsString := List Nat

/-- UTF-16 encoding of one Unicode scalar value. -/
def utf16Char (c : Char) : List Nat :=
  let n := c.toNat
  if n < 65536 then [n] else [55296 + (n - 65536) / 1024, 56320 + (n - 65536) % 1024]

/-- The JavaScript string denoted by a source-text literal. -/
def utf16 (s : String) : JsString :=
  s.toList.flatMap utf16Char

/-- ECMA-262 `WhiteSpace` and `LineTerminator` code units, the set stripped by
`String.prototype.trim`. -/
def isTrimSpace (c : Nat) : Bool :=
  c == 9 || c == 10 || c == 11 || c == 12 || c == 13 || c == 32 || c == 160 ||
  c == 5760 || (8192 ≤ c && c ≤ 8202) || c == 8232 || c == 8233 || c == 8239 ||
  c == 8287 || c == 12288 || c == 65279

/-- Code units of `s` from the first one that is not trimmable. -/
def trimStart : JsString → JsString
  | [] => []
  | c :: cs => if isTrimSpace c then trimStart cs else c :: cs

/-- Embeds `String.prototype.trim`. -/
def trim (s : JsString) : JsString :=
  (trimStart (trimStart s).reverse).reverse

/-- Embeds `String.prototype.substring(start, end)` for non-negative integer arguments:
both are clamped to the length and swapped when `start > end`. -/
def substring (s : JsString) (a b : Nat) : JsString :=
  let a := min a s.length
  let b := min b s.length
  (s.drop (min a b)).take (max a b - min a b)

/-- JavaScript truthiness of a value that is either `undefined`/`null` (`none`) or a string. -/
def truthyStr : Option String → Bool
  | none => false
  | some s => s != ""

/-- The guard `!text || text.trim().length === 0` for a `text` that is missing (`none`) or a
string. -/
def isBlank : Option JsString → Bool
  | none => true
  | some s => s.isEmpty || (trim s).length == 0

/-! ## JSON values -/

/-- Values produced by `JSON.parse`. A number keeps the exact decimal it was written as,
`(-1)^neg * mant * 10^exp`; the double it denotes is determined by that decimal. An object is
its list of own properties in creation order, with pairwise distinct keys. -/
inductive JsValue where
  | null
  | bool (b : Bool)
  | num (neg : Bool) (mant : Nat) (exp : Int)
  | str (s : JsString)
  | arr (xs : List JsValue)
  | obj (ms : List (JsString × JsValue))

mutual
/-- Decidable equality of JSON values. -/
def JsValue.decEq : (a b : JsValue) → Decidable (a = b)
  | .null, .null => isTrue rfl
  | .bool a, .bool b =>
      if h : a = b then isTrue (by rw [h]) else isFalse (by intro h2; cases h2; exact h rfl)
  | .num a1 a2 a3, .num b1 b2 b3 =>
      if h : a1 = b1 ∧ a2 = b2 ∧ a3 = b3 then isTrue (by rcases h with ⟨rfl, rfl, rfl⟩; rfl)
      else isFalse (by intro h2; cases h2; exact h ⟨rfl, rfl, rfl⟩)
  | .str a, .str b =>
      if h : a = b then isTrue (by rw [h]) else isFalse (by intro h2; cases h2; exact h rfl)
  | .arr a, .arr b =>
      match JsValue.decEqList a b with
      | isTrue h => isTrue (by rw [h])
      | isFalse h => isFalse (by intro h2; cases h2; exact h rfl)
  | .obj a, .obj b =>
      match JsValue.decEqMembers a b with
      | isTrue h => isTrue (by rw [h])
      | isFalse h => isFalse (by intro h2; cases h2; exact h rfl)
  | .null, .bool _ | .null, .num _ _ _ | .null, .str _ | .null, .arr _ | .null, .obj _
  | .bool _, .null | .bool _, .num _ _ _ | .bool _, .str _ | .bool _, .arr _ | .bool _, .obj _
  | .num _ _ _, .null | .num _ _ _, .bool _ | .num _ _ _, .str _ | .num _ _ _, .arr _
  | .num _ _ _, .obj _
  | .str _, .null | .str _, .bool _ | .str _, .num _ _ _ | .str _, .arr _ | .str _, .obj _
  | .arr _, .null | .arr _, .bool _ | .arr _, .num _ _ _ | .arr _, .str _ | .arr _, .obj _
  | .obj _, .null | .obj _, .bool _ | .obj _, .num _ _ _ | .obj _, .str _ | .obj _, .arr _ =>
      isFalse (by intro h; cases h)
/-- Decidable equality of arrays of JSON values. -/
def JsValue.decEqList : (a b : List JsValue) → Decidable (a = b)
  | [], [] => isTrue rfl
  | [], _ :: _ | _ :: _, [] => isFalse (by intro h; cases h)
  | x :: xs, y :: ys =>
      match JsValue.decEq x y, JsValue.decEqList xs ys with
      | isTrue h1, isTrue h2 => isTrue (by rw [h1, h2])
      | isFalse h1, _ => isFalse (by intro h; cases h; exact h1 rfl)
      | _, isFalse h2 => isFalse (by intro h; cases h; exact h2 rfl)
/-- Decidable equality of property lists. -/
def JsValue.decEqMembers : (a b : List (JsString × JsValue)) → Decidable (a = b)
  | [], [] => isTrue rfl
  | [], _ :: _ | _ :: _, [] => isFalse (by intro h; cases h)
  | (k1, x) :: xs, (k2, y) :: ys =>
      if hk : k1 = k2 then
        match JsValue.decEq x y, JsValue.decEqMembers xs ys with
        | isTrue h1, isTrue h2 => isTrue (by rw [hk, h1, h2])
        | isFalse h1, _ => isFalse (by intro h; cases h; exact h1 rfl)
        | _, isFalse h2 => isFalse (by intro h; cases h; exact h2 rfl)
      else isFalse (by intro h; cases h; exact hk rfl)
end

instance : DecidableEq JsValue := JsValue.decEq

/-- Defines or overwrites the own property `k`: an existing property keeps its position and
gets the new value, a new one is added last. -/
def setProp : List (JsString × JsValue) → JsString → JsValue → List (JsString × JsValue)
  | [], k, v => [(k, v)]
  | (k1, v1) :: ms, k, v => if k1 = k then (k1, v) :: ms else (k1, v1) :: setProp ms k v

/-- Value of the own property `k` in a property list, `none` when there is none. -/
def getOwn : List (JsString × JsValue) → JsString → Option JsValue
  | [], _ => none
  | (k1, v1) :: ms, k => if k1 = k then some v1 else getOwn ms k

/-- The number value of a natural number, as produced by `index + 1`. -/
def JsValue.ofNat (n : Nat) : JsValue := .num false n 0

/-- Whether the double denoted by the decimal `mant * 10^exp` is non-zero: the decimal is
non-zero and does not round to zero, that is, exceeds `2^-1075`. -/
def numNonZero (mant : Nat) (exp : Int) : Bool :=
  mant != 0 && (0 ≤ exp || decide (10 ^ (-exp).toNat < mant * 2 ^ 1075))

/-- JavaScript `ToBoolean` of a property read: `none` is `undefined`. -/
def truthy : Option JsValue → Bool
  | none => false
  | some .null => false
  | some (.bool b) => b
  | some (.num _ mant exp) => numNonZero mant exp
  | some (.str s) => !s.isEmpty
  | some (.arr _) => true
  | some (.obj _) => true

/-- The property read `v.k` for a name `k` that is not an array index, not `length` and not a
member of a built-in prototype (this holds for `translated` and `keyPhrases`): reading from
`null` throws a TypeError, an object yields its own property, every other value `undefined`. -/
def getField (v : JsValue) (k : JsString) : Except String (Option JsValue) :=
  match v with
  | .null => .error "TypeError: Cannot read properties of null"
  | .obj ms => .ok (getOwn ms k)
  | _ => .ok none

/-- Decimal digits of an array index as a property key. -/
def indexKey (i : Nat) : JsString := utf16 (toString i)

/-- Own enumerable properties copied by the spread `...phrase`: none for `null`, booleans and
numbers; the indexed code units of a string; the indexed elements of an array; all own
properties of an object. -/
def spreadProps : JsValue → List (JsString × JsValue)
  | .null => []
  | .bool _ => []
  | .num _ _ _ => []
  | .str s => (List.range s.length).zipWith (fun i c => (indexKey i, JsValue.str [c])) s
  | .arr xs => (List.range xs.length).zipWith (fun i x => (indexKey i, x)) xs
  | .obj ms => ms

/-! ## `JSON.parse` -/

namespace JSON

/-- JSON insignificant whitespace: tab, line feed, carriage return, space. -/
def isWs (c : Nat) : Bool :=
  c == 9 || c == 10 || c == 13 || c == 32

/-- Drops leading JSON whitespace. -/
def skipWs : JsString → JsString
  | [] => []
  | c :: cs => if isWs c then skipWs cs else c :: cs

/-- Whether `c` is one of the digits `0` to `9`. -/
def isDigit (c : Nat) : Bool :=
  48 ≤ c && c ≤ 57

/-- Value of a hexadecimal digit. -/
def hexVal (c : Nat) : Option Nat :=
  if 48 ≤ c && c ≤ 57 then some (c - 48)
  else if 65 ≤ c && c ≤ 70 then some (c - 55)
  else if 97 ≤ c && c ≤ 102 then some (c - 87)
  else none

/-- Code unit denoted by a single-character escape `\c`. -/
def escapeVal (c : Nat) : Option Nat :=
  if c = 34 then some 34          -- \"
  else if c = 92 then some 92     -- \\
  else if c = 47 then some 47     -- \/
  else if c = 98 then some 8      -- \b
  else if c = 102 then some 12    -- \f
  else if c = 110 then some 10    -- \n
  else if c = 114 then some 13    -- \r
  else if c = 116 then some 9     -- \t
  else none

/-- Characters of a string literal after its opening quote: the string's value and the input
left after the closing quote. Control characters below U+0020 must be escaped. -/
def parseStringBody : JsString → Option (JsString × JsString)
  | [] => none
  | c :: rest =>
    if c = 34 then some ([], rest)
    else if c = 92 then
      match rest with
      | [] => none
      | e :: rest1 =>
        if e = 117 then
          match rest1 with
          | h1 :: h2 :: h3 :: h4 :: rest2 =>
            match hexVal h1, hexVal h2, hexVal h3, hexVal h4, parseStringBody rest2 with
            | some a, some b, some c, some d, some (s, r) =>
                some ((a * 4096 + b * 256 + c * 16 + d) :: s, r)
            | _, _, _, _, _ => none
          | _ => none
        else
          match escapeVal e, parseStringBody rest1 with
          | some u, some (s, r) => some (u :: s, r)
          | _, _ => none
    else if c < 32 then none
    else
      match parseStringBody rest with
      | some (s, r) => some (c :: s, r)
      | none => none

/-- Longest prefix of digits and the input after it. -/
def takeDigits : JsString → JsString × JsString
  | [] => ([], [])
  | c :: cs =>
    if isDigit c then ((takeDigits cs).1.cons c, (takeDigits cs).2) else ([], c :: cs)

/-- Natural number written by a sequence of digits. -/
def digitsVal (ds : JsString) : Nat :=
  ds.foldl (fun acc d => acc * 10 + (d - 48)) 0

/-- An optional sign of an exponent: whether it is a minus, and the input after it. -/
def exponentSign (input : JsString) : Bool × JsString :=
  match input with
  | [] => (false, [])
  | s :: rest =>
    if s = 45 then (true, rest) else if s = 43 then (false, rest) else (false, s :: rest)

/-- Optional exponent part `e`/`E`, optional sign, at least one digit. -/
def parseExponent (input : JsString) : Option (Int × JsString) :=
  match input with
  | [] => some (0, [])
  | c :: rest =>
    if c = 101 || c = 69 then
      if (takeDigits (exponentSign rest).2).1.isEmpty then none
      else if (exponentSign rest).1 then
        some (-(digitsVal (takeDigits (exponentSign rest).2).1 : Int),
          (takeDigits (exponentSign rest).2).2)
      else
        some ((digitsVal (takeDigits (exponentSign rest).2).1 : Int),
          (takeDigits (exponentSign rest).2).2)
    else some (0, c :: rest)

/-- Optional fraction part: a dot followed by at least one digit. -/
def parseFraction (input : JsString) : Option (JsString × JsString) :=
  match input with
  | [] => some ([], [])
  | c :: rest =>
    if c = 46 then
      if (takeDigits rest).1.isEmpty then none else some (takeDigits rest)
    else some ([], c :: rest)

/-- An optional minus sign of a number: whether it is there, and the input after it. -/
def minusSign (input : JsString) : Bool × JsString :=
  match input with
  | [] => (false, [])
  | c :: rest => if c = 45 then (true, rest) else (false, c :: rest)

/-- A JSON number: optional minus, integer part without a superfluous leading zero, optional
fraction, optional exponent. -/
def parseNumber (input : JsString) : Option (JsValue × JsString) :=
  let ids := (takeDigits (minusSign input).2).1
  if ids.isEmpty then none
  else if ids.length > 1 && ids.head? == some 48 then none
  else
    match parseFraction (takeDigits (minusSign input).2).2 with
    | none => none
    | some (fds, rest2) =>
      match parseExponent rest2 with
      | none => none
      | some (e, rest3) =>
        some (.num (minusSign input).1 (digitsVal (ids ++ fds)) (e - (fds.length : Int)), rest3)

/-- Consumes the keyword `kw` when the input starts with it. -/
def parseKeyword (kw : JsString) (v : JsValue) (input : JsString) : Option (JsValue × JsString) :=
  if kw.isPrefixOf input then some (v, input.drop kw.length) else none

mutual
/-- A JSON value, leading whitespace allowed; `fuel` bounds the depth of the calls. -/
def parseValue : Nat → JsString → Option (JsValue × JsString)
  | 0, _ => none
  | fuel + 1, input =>
    match skipWs input with
    | [] => none
    | c :: rest =>
      if c = 123 then            -- {
        match skipWs rest with
        | [] => none
        | d :: rest1 =>
          if d = 125 then some (.obj [], rest1)
          else
            match parseMembers fuel (d :: rest1) with
            | some (ms, r) => some (.obj (ms.foldl (fun o kv => setProp o kv.1 kv.2) []), r)
            | none => none
      else if c = 91 then        -- [
        match skipWs rest with
        | [] => none
        | d :: rest1 =>
          if d = 93 then some (.arr [], rest1)
          else
            match parseElements fuel (d :: rest1) with
            | some (xs, r) => some (.arr xs, r)
            | none => none
      else if c = 34 then        -- "
        match parseStringBody rest with
        | some (s, r) => some (.str s, r)
        | none => none
      else if c = 116 then parseKeyword (utf16 "true") (.bool true) (c :: rest)
      else if c = 102 then parseKeyword (utf16 "false") (.bool false) (c :: rest)
      else if c = 110 then parseKeyword (utf16 "null") .null (c :: rest)
      else parseNumber (c :: rest)
/-- One or more array elements separated by commas, up to and including the closing
bracket. -/
def parseElements : Nat → JsString → Option (List JsValue × JsString)
  | 0, _ => none
  | fuel + 1, input =>
    match parseValue fuel input with
    | none => none
    | some (v, rest) =>
      match skipWs rest with
      | [] => none
      | c :: rest1 =>
        if c = 93 then some ([v], rest1)
        else if c = 44 then
          match parseElements fuel rest1 with
          | some (vs, r) => some (v :: vs, r)
          | none => none
        else none
/-- One or more `"key": value` members separated by commas, up to and including the closing
brace. -/
def parseMembers : Nat → JsString → Option (List (JsString × JsValue) × JsString)
  | 0, _ => none
  | fuel + 1, input =>
    match skipWs input with
    | [] => none
    | q :: rest =>
      if q = 34 then
        match parseStringBody rest with
        | none => none
        | some (k, rest1) =>
          match skipWs rest1 with
          | [] => none
          | colon :: rest2 =>
            if colon = 58 then
              match parseValue fuel rest2 with
              | none => none
              | some (v, rest3) =>
                match skipWs rest3 with
                | [] => none
                | c :: rest4 =>
                  if c = 125 then some ([(k, v)], rest4)
                  else if c = 44 then
                    match parseMembers fuel rest4 with
                    | some (ms, r) => some ((k, v) :: ms, r)
                    | none => none
                  else none
            else none
      else none
end

/-- Embeds `JSON.parse(text)`: `none` is a thrown SyntaxError. The text must be one value
between optional whitespace. Every call below consumes a character before it makes a nested
call through at most one intermediate call, so a depth of `2 * length + 2` is never
exhausted. -/
def parse (text : JsString) : Option JsValue :=
  match parseValue (2 * text.length + 2) text with
  | some (v, rest) => if (skipWs rest).isEmpty then some v else none
  | none => none

end JSON

/-! ## Service state, providers and results -/

/-- Fields set by the constructor of `TranslateService`. A key is `none` when its environment
variable is unset; `geminiClient` is the key captured by the SDK client, `none` for `null`. -/
structure Service where
  deepseekApiKey : Option String
  deepseekApiUrl : String
  geminiApiKey : Option String
  geminiClient : Option String
  defaultProvider : String

/-- The environment variables read by the constructor. -/
structure Env where
  DEEPSEEK_API_KEY : Option String
  DEEPSEEK_API_URL : Option String
  GEMINI_API_KEY : Option String
  DEFAULT_TRANSLATE_PROVIDER : Option String

/-- Embeds `constructor()`. -/
def Service.new (env : Env) : Service :=
  { deepseekApiKey := env.DEEPSEEK_API_KEY
    deepseekApiUrl :=
      if truthyStr env.DEEPSEEK_API_URL then env.DEEPSEEK_API_URL.getD ""
      else "https://api.deepseek.com/v1/chat/completions"
    geminiApiKey := env.GEMINI_API_KEY
    geminiClient := if truthyStr env.GEMINI_API_KEY then env.GEMINI_API_KEY else none
    defaultProvider :=
      if truthyStr env.DEFAULT_TRANSLATE_PROVIDER then env.DEFAULT_TRANSLATE_PROVIDER.getD ""
      else "deepseek" }

/-- What a prompt-table lookup yields: one of the templates, or the member of
`Object.prototype` of that name, which the lookup `prompts[targetLanguage]` finds through the
prototype chain. -/
inductive PromptValue where
  | template (text : String)
  | inherited (name : String)
  deriving DecidableEq, Repr

/-- Body of the request posted to the DeepSeek chat-completion endpoint; the model name,
temperature, headers and timeout are constants of the source. -/
structure DeepSeekRequest where
  systemPrompt : PromptValue
  userPrompt : JsString
  max_tokens : Nat
  deriving DecidableEq, Repr

/-- Arguments of the Gemini `generateContent` call, which receives the system prompt, two line
feeds and the user prompt as one string. -/
structure GeminiRequest where
  systemPrompt : PromptValue
  userPrompt : JsString
  deriving DecidableEq, Repr

/-- Outcome of `axios.post`: a response, with `content` the string at
`response.data.choices[0].message.content` (`none` when evaluating that chain or its `trim`
throws), or a rejection carrying `error.response?.status` and `error.code`. -/
inductive AxiosOutcome where
  | response (content : Option JsString)
  | failure (status : Option Nat) (code : Option String)

/-- Outcome of the Gemini SDK calls: the string returned by `response.text()`, or any throw. -/
inductive GeminiOutcome where
  | text (raw : JsString)
  | failure

/-- Observable steps of a call, in chronological order. -/
inductive Event where
  | invoked (provider : String)
  | deepseekRequest (req : DeepSeekRequest)
  | geminiRequest (req : GeminiRequest)
  deriving DecidableEq, Repr

/-- Chronological log of events. -/
abbrev Trace := List Event

/-- The outside world: what each provider answers to a request and what the clock shows, each
possibly depending on everything that happened before. -/
structure World where
  deepseek : Trace → DeepSeekRequest → AxiosOutcome
  gemini : Trace → GeminiRequest → GeminiOutcome
  now : Trace → String

/-- Providers whose client was entered, in order: the provider attempts of a trace. -/
def attempts (tr : Trace) : List String :=
  tr.filterMap fun e => match e with
    | .invoked p => some p
    | _ => none

/-- Providers to which an outbound request was issued, in order. -/
def requests (tr : Trace) : List String :=
  tr.filterMap fun e => match e with
    | .invoked _ => none
    | .deepseekRequest _ => some "deepseek"
    | .geminiRequest _ => some "gemini"

/-- The object returned by the service. `keyPhrases` is `none` when the object has no such
property; `translated` is a JSON value because the interactive parser passes on whatever the
response holds there. -/
structure TranslationResult where
  original : JsString
  translated : JsValue
  keyPhrases : Option (List JsValue)
  language : String
  provider : String
  timestamp : String
  deriving DecidableEq

/-- Result of a service call: the outcome and the trace extended by the call's events. -/
abbrev Outcome := Except String TranslationResult × Trace

/-! ## Prompt builder -/

/-- The `zh-CN` entry of the `prompts` table of `getSystemPrompt`. -/
def promptZhCN : String :=
  "你是一个专业的Midjourney提示词翻译专家。请将英文提示词翻译成中文，要求：\n" ++
  "1. 保持专业术语的准确性（如：photorealistic, cinematic, octane render等）\n" ++
  "2. 保持提示词的结构和顺序\n" ++
  "3. 使用简洁明了的中文表达\n" ++
  "4. 保留重要的技术参数和风格描述\n" ++
  "5. 只返回翻译结果，不要添加解释或其他内容"

/-- The `en-US` entry of the `prompts` table of `getSystemPrompt`. -/
def promptEnUS : String :=
  "You are a professional Midjourney prompt translator. Please translate the Chinese prompt to English, requirements:\n" ++
  "1. Maintain accuracy of professional terms\n" ++
  "2. Keep the structure and order of the prompt\n" ++
  "3. Use clear and concise English expressions\n" ++
  "4. Preserve important technical parameters and style descriptions\n" ++
  "5. Only return the translation result, do not add explanations or other content"

/-- The `ja-JP` entry of the `prompts` table of `getSystemPrompt`. -/
def promptJaJP : String :=
  "あなたはプロのMidjourneyプロンプト翻訳者です。中国語のプロンプトを日本語に翻訳してください。要件：\n" ++
  "1. 専門用語の正確性を保持する\n" ++
  "2. プロンプトの構造と順序を保持する\n" ++
  "3. 明確で簡潔な日本語表現を使用する\n" ++
  "4. 重要な技術パラメータとスタイル記述を保持する\n" ++
  "5. 翻訳結果のみを返し、説明やその他の内容を追加しない"

/-- The `ko-KR` entry of the `prompts` table of `getSystemPrompt`. -/
def promptKoKR : String :=
  "당신은 전문 Midjourney 프롬프트 번역가입니다. 중국어 프롬프트를 한국어로 번역해 주세요. 요구사항:\n" ++
  "1. 전문 용어의 정확성 유지\n" ++
  "2. 프롬프트의 구조와 순서 유지\n" ++
  "3. 명확하고 간결한 한국어 표현 사용\n" ++
  "4. 중요한 기술 매개변수와 스타일 설명 보존\n" ++
  "5. 번역 결과만 반환하고 설명이나 기타 내용을 추가하지 않음"

/-- The template returned by `getInteractiveSystemPrompt`. -/
def interactiveTemplate : String :=
  "你是一个专业的Midjourney提示词翻译专家。请将英文提示词翻译成中文，并提取2-3个重要的关键词组对应关系。\n" ++
  "\n" ++
  "要求：\n" ++
  "1. 翻译要准确、自然\n" ++
  "2. 提取2-3个最重要的词组（名词、形容词或短语）\n" ++
  "3. 返回JSON格式，包含翻译和词组对应关系\n" ++
  "\n" ++
  "返回格式示例：\n" ++
  "\x7b\n" ++
  "  \"translated\": \"美丽的樱花在春天盛开\",\n" ++
  "  \"keyPhrases\": [\n" ++
  "    \x7b\n" ++
  "      \"en\": \"beautiful\",\n" ++
  "      \"zh\": \"美丽的\",\n" ++
  "      \"enStart\": 0,\n" ++
  "      \"enEnd\": 9,\n" ++
  "      \"zhStart\": 0,\n" ++
  "      \"zhEnd\": 3\n" ++
  "    \x7d,\n" ++
  "    \x7b\n" ++
  "      \"en\": \"sakura blossoms\",\n" ++
  "      \"zh\": \"樱花\",\n" ++
  "      \"enStart\": 10,\n" ++
  "      \"enEnd\": 25,\n" ++
  "      \"zhStart\": 4,\n" ++
  "      \"zhEnd\": 6\n" ++
  "    \x7d\n" ++
  "  ]\n" ++
  "\x7d\n" ++
  "\n" ++
  "注意：\n" ++
  "- 只返回JSON，不要其他内容\n" ++
  "- 确保位置索引准确\n" ++
  "- 选择最有学习价值的词组"

/-- The template returned by `getPhraseAnalysisPrompt`. -/
def phraseAnalysisTemplate : String :=
  "你是一个专业的英中文本词组对应分析专家。请分析给定的英文原文和中文译文，提取2-3个最重要的词组对应关系。\n" ++
  "\n" ++
  "要求：\n" ++
  "1. 提取2-3个最有学习价值的词组（名词、形容词或短语）\n" ++
  "2. 确保词组在原文和译文中都存在\n" ++
  "3. 返回JSON格式，包含词组对应关系和位置信息\n" ++
  "\n" ++
  "返回格式示例：\n" ++
  "\x7b\n" ++
  "  \"keyPhrases\": [\n" ++
  "    \x7b\n" ++
  "      \"en\": \"beautiful\",\n" ++
  "      \"zh\": \"美丽的\",\n" ++
  "      \"enStart\": 0,\n" ++
  "      \"enEnd\": 9,\n" ++
  "      \"zhStart\": 0,\n" ++
  "      \"zhEnd\": 3\n" ++
  "    \x7d,\n" ++
  "    \x7b\n" ++
  "      \"en\": \"sunset\",\n" ++
  "      \"zh\": \"日落\",\n" ++
  "      \"enStart\": 10,\n" ++
  "      \"enEnd\": 16,\n" ++
  "      \"zhStart\": 4,\n" ++
  "      \"zhEnd\": 6\n" ++
  "    \x7d\n" ++
  "  ]\n" ++
  "\x7d\n" ++
  "\n" ++
  "注意：\n" ++
  "- 只返回JSON，不要其他内容\n" ++
  "- 确保位置索引准确（基于字符位置）\n" ++
  "- 选择最有学习价值的词组"

/-- Names of the members of `Object.prototype`, all of them truthy. -/
def objectPrototypeMembers : List String :=
  ["constructor", "__defineGetter__", "__defineSetter__", "hasOwnProperty",
   "__lookupGetter__", "__lookupSetter__", "isPrototypeOf", "propertyIsEnumerable",
   "toString", "valueOf", "__proto__", "toLocaleString"]

/-- Embeds `getSystemPrompt`: `prompts[targetLanguage] || prompts['zh-CN']`. -/
def getSystemPrompt (targetLanguage : String) : PromptValue :=
  if targetLanguage = "zh-CN" then .template promptZhCN
  else if targetLanguage = "en-US" then .template promptEnUS
  else if targetLanguage = "ja-JP" then .template promptJaJP
  else if targetLanguage = "ko-KR" then .template promptKoKR
  else if targetLanguage ∈ objectPrototypeMembers then .inherited targetLanguage
  else .template promptZhCN

/-- Embeds `getInteractiveSystemPrompt`. -/
def getInteractiveSystemPrompt (_targetLanguage : String) : PromptValue :=
  .template interactiveTemplate

/-- Embeds `getPhraseAnalysisPrompt`. -/
def getPhraseAnalysisPrompt (_targetLanguage : String) : PromptValue :=
  .template phraseAnalysisTemplate

/-! ## Response parser -/

/-- Embeds `try { body } catch (error) { handler }`. -/
def tryCatch {ε α : Type} (body : Except ε α) (handler : ε → Except ε α) : Except ε α :=
  match body with
  | .ok a => .ok a
  | .error e => handler e

/-- The object literal `{ id: index + 1, ...phrase }`. -/
def withId (index : Nat) (phrase : JsValue) : JsValue :=
  .obj ((spreadProps phrase).foldl (fun o kv => setProp o kv.1 kv.2)
    [(utf16 "id", JsValue.ofNat (index + 1))])

/-- The call `keyPhrases.map((phrase, index) => ({ id: index + 1, ...phrase }))`: only an
array has a `map` method, on any other value the call throws a TypeError. -/
def mapWithId : Option JsValue → Except String (List JsValue)
  | some (.arr xs) => .ok ((List.range xs.length).zipWith withId xs)
  | _ => .error "TypeError: parsedResponse.keyPhrases.map is not a function"

/-- The `try` block of `parseInteractiveResponse`. -/
def parseInteractiveBody (svc : Service) (now : String) (responseText originalText : JsString) :
    Except String TranslationResult :=
  match JSON.parse responseText with
  | none => .error "SyntaxError"
  | some parsedResponse =>
    match getField parsedResponse (utf16 "translated") with
    | .error e => .error e
    | .ok translated =>
      if !truthy translated then .error "响应格式不正确"
      else
        match getField parsedResponse (utf16 "keyPhrases") with
        | .error e => .error e
        | .ok keyPhrases =>
          if !truthy keyPhrases then .error "响应格式不正确"
          else
            match mapWithId keyPhrases with
            | .error e => .error e
            | .ok keyPhrasesWithId =>
              .ok { original := originalText
                    translated := translated.getD .null
                    keyPhrases := some keyPhrasesWithId
                    language := "zh-CN"
                    provider := svc.defaultProvider
                    timestamp := now }

/-- The object returned by the `catch` block of `parseInteractiveResponse`. -/
def degradedInteractive (svc : Service) (now : String) (responseText originalText : JsString) :
    TranslationResult :=
  { original := originalText
    translated := .str responseText
    keyPhrases := some []
    language := "zh-CN"
    provider := svc.defaultProvider
    timestamp := now }

/-- Embeds `parseInteractiveResponse(responseText, originalText)`. -/
def parseInteractiveResponse (svc : Service) (now : String)
    (responseText originalText : JsString) : Except String TranslationResult :=
  tryCatch (parseInteractiveBody svc now responseText originalText)
    (fun _ => .ok (degradedInteractive svc now responseText originalText))

/-- The `try` block of `parsePhraseAnalysisResponse`. -/
def parsePhraseAnalysisBody (svc : Service) (now : String)
    (responseText originalText translatedText : JsString) : Except String TranslationResult :=
  match JSON.parse responseText with
  | none => .error "SyntaxError"
  | some parsedResponse =>
    match getField parsedResponse (utf16 "keyPhrases") with
    | .error e => .error e
    | .ok keyPhrases =>
      if !truthy keyPhrases then .error "响应格式不正确"
      else
        match mapWithId keyPhrases with
        | .error e => .error e
        | .ok keyPhrasesWithId =>
          .ok { original := originalText
                translated := .str translatedText
                keyPhrases := some keyPhrasesWithId
                language := "zh-CN"
                provider := svc.defaultProvider
                timestamp := now }

/-- The object returned by the `catch` block of `parsePhraseAnalysisResponse`. -/
def degradedAnalysis (svc : Service) (now : String) (originalText translatedText : JsString) :
    TranslationResult :=
  { original := originalText
    translated := .str translatedText
    keyPhrases := some []
    language := "zh-CN"
    provider := svc.defaultProvider
    timestamp := now }

/-- Embeds `parsePhraseAnalysisResponse(responseText, originalText, translatedText)`. -/
def parsePhraseAnalysisResponse (svc : Service) (now : String)
    (responseText originalText translatedText : JsString) : Except String TranslationResult :=
  tryCatch (parsePhraseAnalysisBody svc now responseText originalText translatedText)
    (fun _ => .ok (degradedAnalysis svc now originalText translatedText))

/-! ## Provider clients -/

/-- The `catch` block shared by the DeepSeek clients: the message thrown for a failure with
the given `error.response?.status` and `error.code`. -/
def deepSeekError (timeoutMsg unavailableMsg : String) (status : Option Nat)
    (code : Option String) : String :=
  if status = some 401 then "DeepSeek API密钥无效或已过期"
  else if status = some 429 then "DeepSeek API调用频率超限，请稍后再试"
  else if code = some "ECONNABORTED" then timeoutMsg
  else unavailableMsg

/-- Embeds `translateWithGemini(text, targetLanguage)`. -/
def translateWithGemini (svc : Service) (w : World) (tr : Trace) (text : JsString)
    (targetLanguage : String) : Outcome :=
  let tr1 := tr ++ [Event.invoked "gemini"]
  if svc.geminiClient.isNone then (.error "Gemini API密钥未配置", tr1)
  else
    let req : GeminiRequest :=
      { systemPrompt := getSystemPrompt targetLanguage
        userPrompt := utf16 "请翻译以下Midjourney提示词，保持专业术语的准确性：\n\n" ++ text }
    let tr2 := tr1 ++ [Event.geminiRequest req]
    match w.gemini tr1 req with
    | .text raw =>
      (.ok { original := text
             translated := .str (trim raw)
             keyPhrases := none
             language := targetLanguage
             provider := "gemini"
             timestamp := w.now tr2 }, tr2)
    | .failure => (.error "Gemini翻译服务暂时不可用，请稍后再试", tr2)

/-- Embeds `translateWithDeepSeek(text, targetLanguage)`. -/
def translateWithDeepSeek (svc : Service) (w : World) (tr : Trace) (text : JsString)
    (targetLanguage : String) : Outcome :=
  let tr1 := tr ++ [Event.invoked "deepseek"]
  if !truthyStr svc.deepseekApiKey then (.error "DeepSeek API密钥未配置", tr1)
  else
    let req : DeepSeekRequest :=
      { systemPrompt := getSystemPrompt targetLanguage
        userPrompt := utf16 "请翻译以下Midjourney提示词，保持专业术语的准确性：\n\n" ++ text
        max_tokens := 1000 }
    let tr2 := tr1 ++ [Event.deepseekRequest req]
    match w.deepseek tr1 req with
    | .response (some content) =>
      (.ok { original := text
             translated := .str (trim content)
             keyPhrases := none
             language := targetLanguage
             provider := "deepseek"
             timestamp := w.now tr2 }, tr2)
    | .response none =>
      (.error (deepSeekError "DeepSeek翻译服务超时，请稍后再试"
        "DeepSeek翻译服务暂时不可用，请稍后再试" none none), tr2)
    | .failure status code =>
      (.error (deepSeekError "DeepSeek翻译服务超时，请稍后再试"
        "DeepSeek翻译服务暂时不可用，请稍后再试" status code), tr2)

/-- Embeds `translateWithPhrasesGemini(text, targetLanguage)`. -/
def translateWithPhrasesGemini (svc : Service) (w : World) (tr : Trace) (text : JsString)
    (targetLanguage : String) : Outcome :=
  let tr1 := tr ++ [Event.invoked "gemini"]
  if svc.geminiClient.isNone then (.error "Gemini API密钥未配置", tr1)
  else
    let req : GeminiRequest :=
      { systemPrompt := getInteractiveSystemPrompt targetLanguage
        userPrompt := utf16 "请翻译以下Midjourney提示词并提取关键词组对应关系：\n\n" ++ text }
    let tr2 := tr1 ++ [Event.geminiRequest req]
    match w.gemini tr1 req with
    | .text raw =>
      match parseInteractiveResponse svc (w.now tr2) (trim raw) text with
      | .ok r => (.ok r, tr2)
      | .error _ => (.error "Gemini翻译服务暂时不可用，请稍后再试", tr2)
    | .failure => (.error "Gemini翻译服务暂时不可用，请稍后再试", tr2)

/-- Embeds `translateWithPhrasesDeepSeek(text, targetLanguage)`. -/
def translateWithPhrasesDeepSeek (svc : Service) (w : World) (tr : Trace) (text : JsString)
    (targetLanguage : String) : Outcome :=
  let tr1 := tr ++ [Event.invoked "deepseek"]
  if !truthyStr svc.deepseekApiKey then (.error "DeepSeek API密钥未配置", tr1)
  else
    let req : DeepSeekRequest :=
      { systemPrompt := getInteractiveSystemPrompt targetLanguage
        userPrompt := utf16 "请翻译以下Midjourney提示词并提取关键词组对应关系：\n\n" ++ text
        max_tokens := 1500 }
    let tr2 := tr1 ++ [Event.deepseekRequest req]
    match w.deepseek tr1 req with
    | .response (some content) =>
      match parseInteractiveResponse svc (w.now tr2) (trim content) text with
      | .ok r => (.ok r, tr2)
      | .error _ =>
        (.error (deepSeekError "DeepSeek翻译服务超时，请稍后再试"
          "DeepSeek翻译服务暂时不可用，请稍后再试" none none), tr2)
    | .response none =>
      (.error (deepSeekError "DeepSeek翻译服务超时，请稍后再试"
        "DeepSeek翻译服务暂时不可用，请稍后再试" none none), tr2)
    | .failure status code =>
      (.error (deepSeekError "DeepSeek翻译服务超时，请稍后再试"
        "DeepSeek翻译服务暂时不可用，请稍后再试" status code), tr2)

/-- The user prompt of the phrase-analysis clients. -/
def analysisUserPrompt (originalText translatedText : JsString) : JsString :=
  utf16 "请分析以下英中文本的词组对应关系：\n\n原文：" ++ originalText ++ utf16 "\n译文：" ++
    translatedText

/-- Embeds `analyzePhrasesGemini(originalText, translatedText, targetLanguage)`. -/
def analyzePhrasesGemini (svc : Service) (w : World) (tr : Trace)
    (originalText translatedText : JsString) (targetLanguage : String) : Outcome :=
  let tr1 := tr ++ [Event.invoked "gemini"]
  if svc.geminiClient.isNone then (.error "Gemini API密钥未配置", tr1)
  else
    let req : GeminiRequest :=
      { systemPrompt := getPhraseAnalysisPrompt targetLanguage
        userPrompt := analysisUserPrompt originalText translatedText }
    let tr2 := tr1 ++ [Event.geminiRequest req]
    match w.gemini tr1 req with
    | .text raw =>
      match parsePhraseAnalysisResponse svc (w.now tr2) (trim raw) originalText
          translatedText with
      | .ok r => (.ok r, tr2)
      | .error _ => (.error "Gemini词组分析服务暂时不可用，请稍后再试", tr2)
    | .failure => (.error "Gemini词组分析服务暂时不可用，请稍后再试", tr2)

/-- Embeds `analyzePhrasesDeepSeek(originalText, translatedText, targetLanguage)`. -/
def analyzePhrasesDeepSeek (svc : Service) (w : World) (tr : Trace)
    (originalText translatedText : JsString) (targetLanguage : String) : Outcome :=
  let tr1 := tr ++ [Event.invoked "deepseek"]
  if !truthyStr svc.deepseekApiKey then (.error "DeepSeek API密钥未配置", tr1)
  else
    let req : DeepSeekRequest :=
      { systemPrompt := getPhraseAnalysisPrompt targetLanguage
        userPrompt := analysisUserPrompt originalText translatedText
        max_tokens := 1000 }
    let tr2 := tr1 ++ [Event.deepseekRequest req]
    match w.deepseek tr1 req with
    | .response (some content) =>
      match parsePhraseAnalysisResponse svc (w.now tr2) (trim content) originalText
          translatedText with
      | .ok r => (.ok r, tr2)
      | .error _ =>
        (.error (deepSeekError "DeepSeek词组分析服务超时，请稍后再试"
          "DeepSeek词组分析服务暂时不可用，请稍后再试" none none), tr2)
    | .response none =>
      (.error (deepSeekError "DeepSeek词组分析服务超时，请稍后再试"
        "DeepSeek词组分析服务暂时不可用，请稍后再试" none none), tr2)
    | .failure status code =>
      (.error (deepSeekError "DeepSeek词组分析服务超时，请稍后再试"
        "DeepSeek词组分析服务暂时不可用，请稍后再试" status code), tr2)

/-! ## Orchestrator -/

/-- The expression `provider || this.defaultProvider`. -/
def selectProvider (svc : Service) (provider : Option String) : String :=
  if truthyStr provider then provider.getD "" else svc.defaultProvider

/-- The `try { switch ... } catch (error) { ... }` statement shared by the three entry points:
`viaGemini` and `viaDeepSeek` are the two client calls of the entry point, each taking the
trace at the moment it is called. -/
def dispatch (svc : Service) (selectedProvider : String) (viaGemini viaDeepSeek : Trace → Outcome)
    (tr : Trace) : Outcome :=
  let first : Outcome :=
    if selectedProvider = "gemini" then viaGemini tr
    else if selectedProvider = "deepseek" then viaDeepSeek tr
    else (.error ("不支持的翻译提供商: " ++ selectedProvider), tr)
  match first with
  | (.ok r, tr1) => (.ok r, tr1)
  | (.error error, tr1) =>
    if selectedProvider = "gemini" && truthyStr svc.deepseekApiKey then viaDeepSeek tr1
    else if selectedProvider = "deepseek" && truthyStr svc.geminiApiKey then viaGemini tr1
    else (.error error, tr1)

/-- Embeds `translatePrompt(text, targetLanguage = 'zh-CN', provider = null)`; `text` is
`none` when the argument is missing. -/
def translatePrompt (svc : Service) (w : World) (tr : Trace) (text : Option JsString)
    (targetLanguage : Option String) (provider : Option String) : Outcome :=
  if isBlank text then (.error "翻译文本不能为空", tr)
  else
    let lang := targetLanguage.getD "zh-CN"
    dispatch svc (selectProvider svc provider)
      (fun t => translateWithGemini svc w t (text.getD []) lang)
      (fun t => translateWithDeepSeek svc w t (text.getD []) lang) tr

/-- Embeds `translateWithPhrases(text, targetLanguage = 'zh-CN', provider = null)`. -/
def translateWithPhrases (svc : Service) (w : World) (tr : Trace) (text : Option JsString)
    (targetLanguage : Option String) (provider : Option String) : Outcome :=
  if isBlank text then (.error "翻译文本不能为空", tr)
  else
    let lang := targetLanguage.getD "zh-CN"
    dispatch svc (selectProvider svc provider)
      (fun t => translateWithPhrasesGemini svc w t (text.getD []) lang)
      (fun t => translateWithPhrasesDeepSeek svc w t (text.getD []) lang) tr

/-- Embeds `analyzePhrases(originalText, translatedText, targetLanguage = 'zh-CN',
provider = null)`. -/
def analyzePhrases (svc : Service) (w : World) (tr : Trace)
    (originalText translatedText : Option JsString) (targetLanguage : Option String)
    (provider : Option String) : Outcome :=
  if isBlank originalText then (.error "原文不能为空", tr)
  else if isBlank translatedText then (.error "译文不能为空", tr)
  else
    let lang := targetLanguage.getD "zh-CN"
    dispatch svc (selectProvider svc provider)
      (fun t => analyzePhrasesGemini svc w t (originalText.getD []) (translatedText.getD []) lang)
      (fun t => analyzePhrasesDeepSeek svc w t (originalText.getD []) (translatedText.getD [])
        lang) tr

/-! ## Batch translation -/

/-- Embeds the call `translatePrompt(text, ...)` for an argument that is any JSON value, or
missing (`none`): a falsy value fails the guard like a missing text, a string is handled as
above, and for any other truthy value the guard's `text.trim()` throws a TypeError. -/
def translatePromptAny (svc : Service) (w : World) (tr : Trace) (text : Option JsValue)
    (targetLanguage : Option String) (provider : Option String) : Outcome :=
  match text with
  | some (.str s) => translatePrompt svc w tr (some s) targetLanguage provider
  | other =>
    if truthy other then (.error "text.trim is not a function", tr)
    else translatePrompt svc w tr none targetLanguage provider

/-- An element of the array returned by `translateBatch`: the result of `translatePrompt`, or
the object pushed by the `catch` block, whose `translated` is `null`. -/
inductive BatchItem where
  | success (result : TranslationResult)
  | failure (original : JsValue) (error : String) (language : String) (timestamp : String)
  deriving DecidableEq

/-- Embeds `translateBatch(texts, targetLanguage = 'zh-CN')`: the loop over `texts`, with the
results pushed so far returned in order. The one-second pause after each item is not
modelled. -/
def translateBatch (svc : Service) (w : World) (tr : Trace) (texts : List JsValue)
    (targetLanguage : Option String) : List BatchItem × Trace :=
  match texts with
  | [] => ([], tr)
  | text :: rest =>
    let lang := targetLanguage.getD "zh-CN"
    match translatePromptAny svc w tr (some text) (some lang) none with
    | (.ok result, tr1) =>
      ((BatchItem.success result) :: (translateBatch svc w tr1 rest targetLanguage).1,
        (translateBatch svc w tr1 rest targetLanguage).2)
    | (.error message, tr1) =>
      ((BatchItem.failure text message lang (w.now tr1)) ::
          (translateBatch svc w tr1 rest targetLanguage).1,
        (translateBatch svc w tr1 rest targetLanguage).2)


/-! ## The translate routes (`src/server/routes/translate.js`) -/

/-- Embeds `Array.prototype.slice(start, end)` for integer arguments: a negative index counts
from the end, and both are clamped to the array. -/
def slice {α : Type} (xs : List α) (start stop : Int) : List α :=
  let len : Int := xs.length
  let k := if start < 0 then max (len + start) 0 else min start len
  let fin := if stop < 0 then max (len + stop) 0 else min stop len
  (xs.drop k.toNat).take (fin - k).toNat

/-- A record of the in-memory `translationHistory`. -/
structure HistoryRecord where
  id : String
  originalText : JsString
  translatedText : JsValue
  language : String
  category : String
  createdAt : String
  deriving DecidableEq

/-- The statements `translationHistory.unshift(newRecord)` and
`if (translationHistory.length > 10) translationHistory = translationHistory.slice(0, 10)`. -/
def pushHistory (translationHistory : List HistoryRecord) (newRecord : HistoryRecord) :
    List HistoryRecord :=
  let unshifted := newRecord :: translationHistory
  if unshifted.length > 10 then slice unshifted 0 10 else unshifted

/-- The `enum` of `category` in the schema of `models/Prompt.js`. -/
def promptCategories : List String :=
  ["general", "portrait", "landscape", "abstract", "character", "scene", "style", "other"]

/-- What a request handler reads from outside the process besides the providers: the clock at
the moment a history record is built (`Date.now()` and `new Date()`), the outcome of the
database write of a document that passes validation (its `_id`, or the error), and the
function `String.prototype.toLowerCase`, which is left uninterpreted. -/
structure RequestEnv where
  world : World
  dateNow : Nat
  newDate : String
  dbWrite : Except String String
  toLowerCase : JsString → JsString

/-- Embeds `new Prompt({ ..., category }).save()` as far as the routes depend on it: a
category outside the schema's `enum` fails validation before anything is written. -/
def promptSave (env : RequestEnv) (category : String) : Except String String :=
  if category ∈ promptCategories then env.dbWrite
  else .error "Prompt validation failed: category"

/-- Body of `POST /` and of `POST /interactive`. A field is `none` when the JSON body lacks
it; `targetLanguage`, when present, is a string. -/
structure TranslateBody where
  text : Option JsValue
  targetLanguage : Option String
  saveToDatabase : Option JsValue

/-- Body of `POST /analyze-phrases`. -/
structure AnalyzeBody where
  original : Option JsValue
  translated : Option JsValue
  targetLanguage : Option String

/-- Body of `POST /batch`. -/
structure BatchBody where
  texts : Option JsValue
  targetLanguage : Option String

/-- Query of `GET /history`: `page` and `limit`, when present, are decimal numerals of
natural numbers, on which `ToNumber` and `parseInt` agree. -/
structure HistoryQuery where
  page : Option Nat
  limit : Option Nat
  category : Option String

/-- Query of `GET /search`, with `page` and `limit` as in `HistoryQuery`. -/
structure SearchQuery where
  q : Option JsString
  page : Option Nat
  limit : Option Nat

/-- A request that reaches the application under `/api/translate`. `other` is any method and
path for which the router registers no handler, such as `DELETE /<id>`. -/
inductive Request where
  | translate (body : TranslateBody)
  | analyzePhrases (body : AnalyzeBody)
  | interactive (body : TranslateBody)
  | batch (body : BatchBody)
  | history (query : HistoryQuery)
  | search (query : SearchQuery)
  | other (method path : String)

/-- The `pagination` object of a listing; `pages` is `none` when `Math.ceil(total / limit)`
is not a finite number, that is, when `limit` is 0. -/
structure Pagination where
  page : Nat
  limit : Nat
  total : Nat
  pages : Option Nat
  deriving DecidableEq

/-- The JSON document sent by a handler. -/
inductive ResponseBody where
  | error (error : String)
  | failure (error : String)
  | translation (data : TranslationResult) (saved : Option Bool) (promptId : Option String)
      (message : Option String)
  | batch (data : List BatchItem)
  | listing (prompts : List HistoryRecord) (pagination : Pagination)
  deriving DecidableEq

/-- An HTTP response: status code and JSON body. -/
structure Response where
  status : Nat
  body : ResponseBody
  deriving DecidableEq

/-- What handling a request yields: the response, the `translationHistory` afterwards and the
events the providers saw. -/
structure Handled where
  response : Response
  history : List HistoryRecord
  trace : Trace

/-- The guard `!x || x.trim().length === 0` on a body field: `ok true` when the guard holds,
`ok false` when the field is a string that is not blank, and a thrown TypeError for a truthy
value without a `trim` method. -/
def blankGuard (name : String) (x : Option JsValue) : Except String Bool :=
  match x with
  | some (.str s) => .ok (isBlank (some s))
  | other => if truthy other then .error (name ++ ".trim is not a function") else .ok true

/-- The string in a body field that passed `blankGuard`. -/
def fieldText (x : Option JsValue) : JsString :=
  match x with
  | some (.str s) => s
  | _ => []


/-- Embeds the handler of `POST /`. -/
def postTranslate (svc : Service) (env : RequestEnv) (translationHistory : List HistoryRecord)
    (body : TranslateBody) : Handled :=
  match blankGuard "text" body.text with
  | .error message => ⟨⟨500, .failure message⟩, translationHistory, []⟩
  | .ok true => ⟨⟨400, .error "翻译文本不能为空"⟩, translationHistory, []⟩
  | .ok false =>
    match translatePrompt svc env.world [] (some (fieldText body.text))
        (some (body.targetLanguage.getD "zh-CN")) none with
    | (.error message, tr) => ⟨⟨500, .failure message⟩, translationHistory, tr⟩
    | (.ok translation, tr) =>
      if truthy body.saveToDatabase && truthy (some translation.translated) then
        let newRecord : HistoryRecord :=
          { id := toString env.dateNow
            originalText := translation.original
            translatedText := translation.translated
            language := "chinese"
            category := "general"
            createdAt := env.newDate }
        let history1 := pushHistory translationHistory newRecord
        ⟨⟨200, .translation translation (some true) (some newRecord.id)
            (some ("已保存，当前共" ++ toString history1.length ++ "条记录"))⟩, history1, tr⟩
      else ⟨⟨200, .translation translation none none none⟩, translationHistory, tr⟩

/-- Embeds the handler of `POST /analyze-phrases`. -/
def postAnalyzePhrases (svc : Service) (env : RequestEnv)
    (translationHistory : List HistoryRecord) (body : AnalyzeBody) : Handled :=
  match blankGuard "original" body.original with
  | .error message => ⟨⟨500, .failure message⟩, translationHistory, []⟩
  | .ok true => ⟨⟨400, .error "原文不能为空"⟩, translationHistory, []⟩
  | .ok false =>
    match blankGuard "translated" body.translated with
    | .error message => ⟨⟨500, .failure message⟩, translationHistory, []⟩
    | .ok true => ⟨⟨400, .error "译文不能为空"⟩, translationHistory, []⟩
    | .ok false =>
      match analyzePhrases svc env.world [] (some (fieldText body.original))
          (some (fieldText body.translated)) (some (body.targetLanguage.getD "zh-CN")) none with
      | (.error message, tr) => ⟨⟨500, .failure message⟩, translationHistory, tr⟩
      | (.ok analysis, tr) =>
        ⟨⟨200, .translation analysis none none none⟩, translationHistory, tr⟩

/-- Embeds the handler of `POST /interactive`. -/
def postInteractive (svc : Service) (env : RequestEnv)
    (translationHistory : List HistoryRecord) (body : TranslateBody) : Handled :=
  match blankGuard "text" body.text with
  | .error message => ⟨⟨500, .failure message⟩, translationHistory, []⟩
  | .ok true => ⟨⟨400, .error "翻译文本不能为空"⟩, translationHistory, []⟩
  | .ok false =>
    match translateWithPhrases svc env.world [] (some (fieldText body.text))
        (some (body.targetLanguage.getD "zh-CN")) none with
    | (.error message, tr) => ⟨⟨500, .failure message⟩, translationHistory, tr⟩
    | (.ok translation, tr) =>
      if truthy body.saveToDatabase && truthy (some translation.translated) then
        match promptSave env "interactive" with
        | .ok promptId =>
          ⟨⟨200, .translation translation (some true) (some promptId) none⟩,
            translationHistory, tr⟩
        | .error _ =>
          ⟨⟨200, .translation translation (some false) none none⟩, translationHistory, tr⟩
      else ⟨⟨200, .translation translation none none none⟩, translationHistory, tr⟩

/-- Embeds the handler of `POST /batch`. -/
def postBatch (svc : Service) (env : RequestEnv) (translationHistory : List HistoryRecord)
    (body : BatchBody) : Handled :=
  match body.texts with
  | some (.arr texts) =>
    if texts.length = 0 then ⟨⟨400, .error "请提供要翻译的文本数组"⟩, translationHistory, []⟩
    else if texts.length > 10 then
      ⟨⟨400, .error "批量翻译最多支持10个文本"⟩, translationHistory, []⟩
    else
      ⟨⟨200, .batch (translateBatch svc env.world [] texts
          (some (body.targetLanguage.getD "zh-CN"))).1⟩, translationHistory,
        (translateBatch svc env.world [] texts (some (body.targetLanguage.getD "zh-CN"))).2⟩
  | _ => ⟨⟨400, .error "请提供要翻译的文本数组"⟩, translationHistory, []⟩

/-- The number `Math.ceil(total / limit)`, `none` when `limit` is 0. -/
def pageCount (total limit : Nat) : Option Nat :=
  if limit = 0 then none else some ((total + limit - 1) / limit)

/-- The pagination shared by `GET /history` and `GET /search`: the page
`items.slice(skip, skip + parseInt(limit))` with `skip = (page - 1) * limit`, and the
`pagination` object. -/
def paginate (items : List HistoryRecord) (page limit : Nat) : ResponseBody :=
  let skip : Int := ((page : Int) - 1) * (limit : Int)
  .listing (slice items skip (skip + (limit : Int)))
    { page := page, limit := limit, total := items.length, pages := pageCount items.length limit }

/-- Embeds the handler of `GET /history`. -/
def getHistory (translationHistory : List HistoryRecord) (query : HistoryQuery) : Handled :=
  let page := query.page.getD 1
  let limit := query.limit.getD 20
  let filteredHistory :=
    if truthyStr query.category && query.category != some "all" then
      translationHistory.filter fun item => some item.category == query.category
    else translationHistory
  ⟨⟨200, paginate filteredHistory page limit⟩, translationHistory, []⟩

/-- Embeds `String.prototype.includes`: whether `t` occurs in `s` as a contiguous run. -/
def includes (s t : JsString) : Bool :=
  s.tails.any fun u => t.isPrefixOf u

/-- The `filter` callback of `GET /search` applied along the history: an item whose
`originalText` does not match and whose `translatedText` is not a string makes the call of
`toLowerCase` throw. -/
def searchFilter (env : RequestEnv) (searchTerm : JsString) :
    List HistoryRecord → Except String (List HistoryRecord)
  | [] => .ok []
  | item :: rest =>
    if includes (env.toLowerCase item.originalText) searchTerm then
      (searchFilter env searchTerm rest).map fun found => item :: found
    else
      match item.translatedText with
      | .str translatedText =>
        if includes (env.toLowerCase translatedText) searchTerm then
          (searchFilter env searchTerm rest).map fun found => item :: found
        else searchFilter env searchTerm rest
      | _ => .error "item.translatedText.toLowerCase is not a function"

/-- Embeds the handler of `GET /search`. -/
def getSearch (env : RequestEnv) (translationHistory : List HistoryRecord)
    (query : SearchQuery) : Handled :=
  if isBlank query.q then ⟨⟨400, .error "搜索关键词不能为空"⟩, translationHistory, []⟩
  else
    match searchFilter env (env.toLowerCase (query.q.getD [])) translationHistory with
    | .error message => ⟨⟨500, .failure message⟩, translationHistory, []⟩
    | .ok searchResults =>
      ⟨⟨200, paginate searchResults (query.page.getD 1) (query.limit.getD 20)⟩,
        translationHistory, []⟩

/-- The application's answer to a request under `/api/translate`: the router's handler for
the method and path, or the 404 handler of `index.js` when the router has none. -/
def handle (svc : Service) (env : RequestEnv) (translationHistory : List HistoryRecord) :
    Request → Handled
  | .translate body => postTranslate svc env translationHistory body
  | .analyzePhrases body => postAnalyzePhrases svc env translationHistory body
  | .interactive body => postInteractive svc env translationHistory body
  | .batch body => postBatch svc env translationHistory body
  | .history query => getHistory translationHistory query
  | .search query => getSearch env translationHistory query
  | .other _ _ => ⟨⟨404, .error "接口不存在"⟩, translationHistory, []⟩

/-- The `translationHistory` after a sequence of requests, each served in its own
environment, starting from `translationHistory`. -/
def runRequests (svc : Service) (translationHistory : List HistoryRecord) :
    List (RequestEnv × Request) → List HistoryRecord
  | [] => translationHistory
  | (env, req) :: rest => runRequests svc (handle svc env translationHistory req).history rest


/-! ## Error taxonomy of the DeepSeek clients -/

/-- The precedence by which a DeepSeek failure with the given status and transport code is
to be reported as the error message `e`: status 401 is the invalid-credentials error,
otherwise status 429 the rate-limited error, otherwise the code `ECONNABORTED` the timeout
error of the mode, and anything else the provider-unavailable error of the mode. -/
def ReportedAs (timeoutMsg unavailableMsg : String) (status : Option Nat)
    (code : Option String) (e : String) : Prop :=
  (status = some 401 → e = "DeepSeek API密钥无效或已过期") ∧
  (status ≠ some 401 → status = some 429 → e = "DeepSeek API调用频率超限，请稍后再试") ∧
  (status ≠ some 401 → status ≠ some 429 → code = some "ECONNABORTED" → e = timeoutMsg) ∧
  (status ≠ some 401 → status ≠ some 429 → code ≠ some "ECONNABORTED" → e = unavailableMsg)

/-- Status and transport code that an outcome of `axios.post` shows to the `catch` block; a
response whose body lacks the expected content makes the `try` block throw a TypeError, which
has neither. `none` for a response with content, which is no failure. -/
def failureOf : AxiosOutcome → Option (Option Nat × Option String)
  | .response (some _) => none
  | .response none => some (none, none)
  | .failure status code => some (status, code)


/-! ## Reading a listing -/

/-- The `prompts` array of a response, empty when the body is no listing. -/
def promptsOf (resp : Response) : List HistoryRecord :=
  match resp.body with
  | .listing prompts _ => prompts
  | _ => []

/-- The `pagination.pages` of a response. -/
def pagesOf (resp : Response) : Option Nat :=
  match resp.body with
  | .listing _ pagination => pagination.pages
  | _ => none

/-- The sequence that `GET /history` paginates for the category `c`. -/
def filteredBy (c : Option String) (h : List HistoryRecord) : List HistoryRecord :=
  match c with
  | none => h
  | some cat => if cat = "" ∨ cat = "all" then h else h.filter fun item => item.category == cat


/-! ## Objects with pairwise distinct keys -/

mutual
/-- Whether every object inside a value has pairwise distinct keys, as the objects built by
`JSON.parse` and by object literals have. -/
def distinctKeys : JsValue → Bool
  | .null => true
  | .bool _ => true
  | .num _ _ _ => true
  | .str _ => true
  | .arr xs => distinctKeysList xs
  | .obj ms => decide ((ms.map Prod.fst).Nodup) && distinctKeysMembers ms
/-- Whether `distinctKeys` holds of every element. -/
def distinctKeysList : List JsValue → Bool
  | [] => true
  | x :: xs => distinctKeys x && distinctKeysList xs
/-- Whether `distinctKeys` holds of every property value. -/
def distinctKeysMembers : List (JsString × JsValue) → Bool
  | [] => true
  | (_, v) :: ms => distinctKeys v && distinctKeysMembers ms
end


/-- The property read `phrase[k]` on an element of a result's `keyPhrases`, for a key given
as a JavaScript string. -/
def propOfKey (k : JsString) : JsValue → Option JsValue
  | .obj ps => getOwn ps k
  | _ => none


/-! ## Vocabulary of the statements -/

/-- Messages of the errors thrown by the Gemini clients. -/
def geminiMessages : List String :=
  ["Gemini API密钥未配置", "Gemini翻译服务暂时不可用，请稍后再试",
   "Gemini词组分析服务暂时不可用，请稍后再试"]

/-- Messages of the errors thrown by the DeepSeek clients. -/
def deepSeekMessages : List String :=
  ["DeepSeek API密钥未配置", "DeepSeek API密钥无效或已过期",
   "DeepSeek API调用频率超限，请稍后再试", "DeepSeek翻译服务超时，请稍后再试",
   "DeepSeek翻译服务暂时不可用，请稍后再试", "DeepSeek词组分析服务超时，请稍后再试",
   "DeepSeek词组分析服务暂时不可用，请稍后再试"]

/-- Messages of the errors that the clients of provider `p` can throw. -/
def messagesOf (p : String) : List String :=
  if p = "gemini" then geminiMessages else deepSeekMessages

/-- Whether the credential that gates failover to provider `p` is configured. -/
def credentialConfigured (svc : Service) (p : String) : Bool :=
  if p = "gemini" then truthyStr svc.geminiApiKey else truthyStr svc.deepseekApiKey

/-- The other one of the two providers. -/
def alternateOf (p : String) : String :=
  if p = "gemini" then "deepseek" else "gemini"

/-- The client call that `translatePrompt` makes for provider `p`. -/
def plainClient (svc : Service) (w : World) (text : JsString) (lang : String) (p : String) :
    Trace → Outcome :=
  fun t => if p = "gemini" then translateWithGemini svc w t text lang
           else translateWithDeepSeek svc w t text lang

/-- The client call that `translateWithPhrases` makes for provider `p`. -/
def interactiveClient (svc : Service) (w : World) (text : JsString) (lang : String)
    (p : String) : Trace → Outcome :=
  fun t => if p = "gemini" then translateWithPhrasesGemini svc w t text lang
           else translateWithPhrasesDeepSeek svc w t text lang

/-- The client call that `analyzePhrases` makes for provider `p`. -/
def analysisClient (svc : Service) (w : World) (original translated : JsString) (lang : String)
    (p : String) : Trace → Outcome :=
  fun t => if p = "gemini" then analyzePhrasesGemini svc w t original translated lang
           else analyzePhrasesDeepSeek svc w t original translated lang

/-- The property read `phrase.id` on an element of a result's `keyPhrases`. -/
def idOf : JsValue → Option JsValue
  | .obj ps => getOwn ps (utf16 "id")
  | _ => none

/-- The property read `phrase.k` on an element of a result's `keyPhrases`. -/
def propOf (k : String) : JsValue → Option JsValue
  | .obj ps => getOwn ps (utf16 k)
  | _ => none

/-- The ids `1, 2, ..., n` as number values. -/
def positions (n : Nat) : List (Option JsValue) :=
  (List.range n).map fun i => some (JsValue.ofNat (i + 1))

/-- The element that `translateBatch` pushes for `text` when the loop reaches it with the
trace `t`. -/
def batchItemAt (svc : Service) (w : World) (lang : String) (t : Trace) (text : JsValue) :
    BatchItem :=
  match translatePromptAny svc w t (some text) (some lang) none with
  | (.ok result, _) => .success result
  | (.error message, t1) => .failure text message lang (w.now t1)

/-- A world whose answers and clock do not depend on what happened before. -/
def TraceIndependent (w : World) : Prop :=
  ∀ t, w.deepseek t = w.deepseek [] ∧ w.gemini t = w.gemini [] ∧ w.now t = w.now []

/-- The result phrases `ks` carry the input phrases `xs` as given: there is one result phrase
per input phrase, in the same order, and the result phrase for an input object has every
property of that object with the same value and no other property except possibly `id`. -/
def PassedThrough (xs ks : List JsValue) : Prop :=
  ks.length = xs.length ∧
  ∀ (i : Nat) (ps : List (JsString × JsValue)), xs[i]? = some (JsValue.obj ps) →
    ∃ q, ks[i]? = some q ∧
      (∀ k v, getOwn ps k = some v → propOfKey k q = some v) ∧
      (∀ k, k ≠ utf16 "id" → propOfKey k q = getOwn ps k)

/-- The id of every result phrase follows the rule of the object literal: the own `id` of
the input phrase when it has one, otherwise the 1-based position. -/
def IdRule (xs ks : List JsValue) : Prop :=
  ∀ (i : Nat) (ps : List (JsString × JsValue)), xs[i]? = some (JsValue.obj ps) →
    ∃ q, ks[i]? = some q ∧
      idOf q = match getOwn ps (utf16 "id") with
        | some v => some v
        | none => some (JsValue.ofNat (i + 1))


/-! ## Concrete services and worlds used to instantiate the statements -/

/-- A service built from an environment that sets both keys and no default provider. -/
def svcBoth : Service :=
  Service.new { DEEPSEEK_API_KEY := some "sk-deepseek", DEEPSEEK_API_URL := none,
                GEMINI_API_KEY := some "gm-key", DEFAULT_TRANSLATE_PROVIDER := none }

/-- A service built from an environment that sets only the DeepSeek key. -/
def svcDeepSeekOnly : Service :=
  Service.new { DEEPSEEK_API_KEY := some "sk-deepseek", DEEPSEEK_API_URL := none,
                GEMINI_API_KEY := none, DEFAULT_TRANSLATE_PROVIDER := none }

/-- A world in which DeepSeek is rate limited and Gemini throws. -/
def worldAllDown : World :=
  { deepseek := fun _ _ => .failure (some 429) none
    gemini := fun _ _ => .failure
    now := fun _ => "2024-05-01T08:00:00.000Z" }

/-- A world in which DeepSeek times out and Gemini answers with plain text. -/
def worldGeminiUp : World :=
  { deepseek := fun _ _ => .failure none (some "ECONNABORTED")
    gemini := fun _ _ => .text (utf16 " 一只猫 ")
    now := fun _ => "2024-05-01T08:00:00.000Z" }

/-- The plain result that `worldGeminiUp` yields for the text `a cat`. -/
def catPlain : TranslationResult :=
  { original := utf16 "a cat"
    translated := .str (utf16 "一只猫")
    keyPhrases := none
    language := "zh-CN"
    provider := "gemini"
    timestamp := "2024-05-01T08:00:00.000Z" }

/-- The degraded interactive result that `worldGeminiUp` yields for the text `a cat`. -/
def catDegraded : TranslationResult :=
  { original := utf16 "a cat"
    translated := .str (utf16 "一只猫")
    keyPhrases := some []
    language := "zh-CN"
    provider := "deepseek"
    timestamp := "2024-05-01T08:00:00.000Z" }

/-- A response with two phrase objects, none of which has an `id`. -/
def rawTwoPhrases : JsString :=
  utf16 "\x7b\"translated\":\"X\",\"keyPhrases\":[\x7b\"en\":\"a\"\x7d,\x7b\"en\":\"b\"\x7d]\x7d"

/-- A response whose `translated` is the empty string. -/
def rawEmptyTranslated : JsString :=
  utf16 "\x7b\"translated\":\"\",\"keyPhrases\":[\x7b\"en\":\"a\"\x7d]\x7d"

/-- A response whose only phrase object has an `id` of its own. -/
def rawModelId : JsString :=
  utf16 "\x7b\"translated\":\"x\",\"keyPhrases\":[\x7b\"id\":7,\"en\":\"a\"\x7d]\x7d"

/-- A response with an empty `translated` string and an empty `keyPhrases` array. -/
def rawEmptyBoth : JsString :=
  utf16 "\x7b\"translated\":\"\",\"keyPhrases\":[]\x7d"

/-- The provider response of the interactive scenario. -/
def scenarioResponse : JsString :=
  utf16 "\x7b\"translated\":\"美丽的日落，逼真，电影感\",\"keyPhrases\":[\x7b\"en\":\"beautiful\",\"zh\":\"美丽的\",\"enStart\":0,\"enEnd\":9,\"zhStart\":0,\"zhEnd\":3\x7d]\x7d"

/-- The source text of the scenarios. -/
def scenarioOriginal : JsString :=
  utf16 "a beautiful sunset, photorealistic, cinematic"

/-- The clock reading used in the concrete instances. -/
def sampleNow : String := "2024-05-01T08:00:00.000Z"

/-- The translation carried by `scenarioResponse`. -/
def scenarioTranslated : JsString :=
  utf16 "美丽的日落，逼真，电影感"

/-- The key phrase that the interactive parser returns in the scenario. -/
def scenarioPhrase : JsValue :=
  .obj [(utf16 "id", JsValue.ofNat 1),
        (utf16 "en", .str (utf16 "beautiful")),
        (utf16 "zh", .str (utf16 "美丽的")),
        (utf16 "enStart", JsValue.ofNat 0),
        (utf16 "enEnd", JsValue.ofNat 9),
        (utf16 "zhStart", JsValue.ofNat 0),
        (utf16 "zhEnd", JsValue.ofNat 3)]

/-- A world in which DeepSeek times out and Gemini answers with `scenarioResponse`. -/
def worldGeminiJson : World :=
  { deepseek := fun _ _ => .failure none (some "ECONNABORTED")
    gemini := fun _ _ => .text scenarioResponse
    now := fun _ => "2024-05-01T08:00:00.000Z" }

/-- The interactive result that `worldGeminiJson` yields for `scenarioOriginal` when the
default provider is `deepseek`. -/
def scenarioInteractive : TranslationResult :=
  { original := scenarioOriginal
    translated := .str scenarioTranslated
    keyPhrases := some [scenarioPhrase]
    language := "zh-CN"
    provider := "deepseek"
    timestamp := "2024-05-01T08:00:00.000Z" }

/-- A request environment around `worldGeminiUp`. -/
def envGeminiUp : RequestEnv :=
  { world := worldGeminiUp
    dateNow := 1714550400000
    newDate := "2024-05-01T08:00:00.000Z"
    dbWrite := .ok "663200000000000000000001"
    toLowerCase := fun s => s }

/-- The body `{ text: "a cat", saveToDatabase: true }`. -/
def saveCatBody : TranslateBody :=
  { text := some (.str (utf16 "a cat"))
    targetLanguage := none
    saveToDatabase := some (.bool true) }

/-- The history record that `envGeminiUp` builds for `saveCatBody`. -/
def catRecord : HistoryRecord :=
  { id := "1714550400000"
    originalText := utf16 "a cat"
    translatedText := .str (utf16 "一只猫")
    language := "chinese"
    category := "general"
    createdAt := "2024-05-01T08:00:00.000Z" }

/-- A world in which DeepSeek answers 401 on a connection that also reports a timeout, and
Gemini throws. -/
def worldUnauthorized : World :=
  { deepseek := fun _ _ => .failure (some 401) (some "ECONNABORTED")
    gemini := fun _ _ => .failure
    now := fun _ => "2024-05-01T08:00:00.000Z" }

/-- A world in which DeepSeek answers with a text that is not JSON and Gemini answers with
the scenario response. -/
def worldDeepSeekGarbled : World :=
  { deepseek := fun _ _ => .response (some (utf16 " not json "))
    gemini := fun _ _ => .text scenarioResponse
    now := fun _ => "2024-05-01T08:00:00.000Z" }

/-- The phrase object that `scenarioResponse` carries. -/
def scenarioInputPhrase : JsValue :=
  .obj [(utf16 "en", .str (utf16 "beautiful")),
        (utf16 "zh", .str (utf16 "美丽的")),
        (utf16 "enStart", JsValue.ofNat 0),
        (utf16 "enEnd", JsValue.ofNat 9),
        (utf16 "zhStart", JsValue.ofNat 0),
        (utf16 "zhEnd", JsValue.ofNat 3)]

/-- The object that `JSON.parse` returns for `scenarioResponse`. -/
def scenarioParsed : List (JsString × JsValue) :=
  [(utf16 "translated", .str scenarioTranslated),
   (utf16 "keyPhrases", .arr [scenarioInputPhrase])]

/-- The object that `JSON.parse` returns for `rawModelId`. -/
def modelIdParsed : List (JsString × JsValue) :=
  [(utf16 "translated", .str (utf16 "x")),
   (utf16 "keyPhrases", .arr [.obj [(utf16 "id", .num false 7 0),
                                    (utf16 "en", .str (utf16 "a"))]])]

end TranslateService

namespace TranslateService

/-! ## Lemmas on the dispatch statement -/

theorem attempts_append (a b : Trace) : attempts (a ++ b) = attempts a ++ attempts b := by
  simp [attempts, List.filterMap_append]

theorem dispatch_ok (svc : Service) (sel : String) (vg vd : Trace → Outcome) (tr : Trace)
    (hsel : sel = "gemini" ∨ sel = "deepseek") (r : TranslationResult)
    (h : ((if sel = "gemini" then vg tr else vd tr)).1 = .ok r) :
    dispatch svc sel vg vd tr = (.ok r, (if sel = "gemini" then vg tr else vd tr).2) := by
  rcases hsel with rfl | rfl
  · simp only [dispatch, if_true] at h ⊢
    rcases hv : vg tr with ⟨res, t1⟩
    rw [hv] at h
    simp only at h
    subst h
    rfl
  · have hne : ¬ ("deepseek" = "gemini") := by decide
    simp only [dispatch, if_neg hne, if_true] at h ⊢
    rcases hv : vd tr with ⟨res, t1⟩
    rw [hv] at h
    simp only at h
    subst h
    rfl

theorem dispatch_error (svc : Service) (sel : String) (vg vd : Trace → Outcome) (tr : Trace)
    (hsel : sel = "gemini" ∨ sel = "deepseek") (e : String)
    (h : ((if sel = "gemini" then vg tr else vd tr)).1 = .error e) :
    dispatch svc sel vg vd tr =
      if credentialConfigured svc (alternateOf sel) then
        (if sel = "gemini" then vd else vg) (if sel = "gemini" then vg tr else vd tr).2
      else (.error e, (if sel = "gemini" then vg tr else vd tr).2) := by
  rcases hsel with rfl | rfl
  · simp only [dispatch, if_true] at h ⊢
    rcases hv : vg tr with ⟨res, t1⟩
    rw [hv] at h
    simp only at h
    subst h
    simp [credentialConfigured, alternateOf]
  · have hne : ¬ ("deepseek" = "gemini") := by decide
    simp only [dispatch, if_neg hne, if_true] at h ⊢
    rcases hv : vd tr with ⟨res, t1⟩
    rw [hv] at h
    simp only at h
    subst h
    simp [credentialConfigured, alternateOf]

theorem dispatch_source (svc : Service) (sel : String) (vg vd : Trace → Outcome) (tr : Trace)
    (r : TranslationResult) (h : (dispatch svc sel vg vd tr).1 = .ok r) :
    ∃ t, (vg t).1 = .ok r ∨ (vd t).1 = .ok r := by
  unfold dispatch at h
  by_cases hg : sel = "gemini"
  · simp only [hg, if_true] at h
    rcases hv : vg tr with ⟨res, t1⟩
    rw [hv] at h
    cases res with
    | ok r1 => exact ⟨tr, Or.inl (by rw [hv]; exact h)⟩
    | error e =>
      simp only at h
      split at h
      · exact ⟨t1, Or.inr h⟩
      · split at h
        · exact ⟨t1, Or.inl h⟩
        · cases h
  · by_cases hd : sel = "deepseek"
    · have hne : ¬ ("deepseek" = "gemini") := by decide
      simp only [hd, if_neg hne, if_true] at h
      rcases hv : vd tr with ⟨res, t1⟩
      rw [hv] at h
      cases res with
      | ok r1 => exact ⟨tr, Or.inr (by rw [hv]; exact h)⟩
      | error e =>
        simp only at h
        split at h
        · exact ⟨t1, Or.inr h⟩
        · split at h
          · exact ⟨t1, Or.inl h⟩
          · cases h
    · simp [hg, hd] at h

/-! ## Lemmas on the provider clients -/

theorem plainClient_attempts (svc : Service) (w : World) (text : JsString) (lang p : String)
    (tr : Trace) (hp : p = "gemini" ∨ p = "deepseek") :
    attempts (plainClient svc w text lang p tr).2 = attempts tr ++ [p] := by
  rcases hp with rfl | rfl
  · simp only [plainClient, if_true, translateWithGemini]
    split
    · simp [attempts]
    · split <;> simp [attempts]
  · have hne : ¬ ("deepseek" = "gemini") := by decide
    simp only [plainClient, if_neg hne, translateWithDeepSeek]
    split
    · simp [attempts]
    · split <;> simp [attempts]

theorem interactiveClient_attempts (svc : Service) (w : World) (text : JsString)
    (lang p : String) (tr : Trace) (hp : p = "gemini" ∨ p = "deepseek") :
    attempts (interactiveClient svc w text lang p tr).2 = attempts tr ++ [p] := by
  rcases hp with rfl | rfl
  · simp only [interactiveClient, if_true, translateWithPhrasesGemini]
    split
    · simp [attempts]
    · split
      · split <;> simp [attempts]
      · simp [attempts]
  · have hne : ¬ ("deepseek" = "gemini") := by decide
    simp only [interactiveClient, if_neg hne, translateWithPhrasesDeepSeek]
    split
    · simp [attempts]
    · split
      · split <;> simp [attempts]
      · simp [attempts]
      · simp [attempts]

theorem analysisClient_attempts (svc : Service) (w : World) (original translated : JsString)
    (lang p : String) (tr : Trace) (hp : p = "gemini" ∨ p = "deepseek") :
    attempts (analysisClient svc w original translated lang p tr).2 = attempts tr ++ [p] := by
  rcases hp with rfl | rfl
  · simp only [analysisClient, if_true, analyzePhrasesGemini]
    split
    · simp [attempts]
    · split
      · split <;> simp [attempts]
      · simp [attempts]
  · have hne : ¬ ("deepseek" = "gemini") := by decide
    simp only [analysisClient, if_neg hne, analyzePhrasesDeepSeek]
    split
    · simp [attempts]
    · split
      · split <;> simp [attempts]
      · simp [attempts]
      · simp [attempts]

theorem deepSeekError_mem (status : Option Nat) (code : Option String) :
    deepSeekError "DeepSeek翻译服务超时，请稍后再试" "DeepSeek翻译服务暂时不可用，请稍后再试"
      status code ∈ deepSeekMessages ∧
    deepSeekError "DeepSeek词组分析服务超时，请稍后再试" "DeepSeek词组分析服务暂时不可用，请稍后再试"
      status code ∈ deepSeekMessages := by
  unfold deepSeekError deepSeekMessages
  constructor <;> (split_ifs <;> simp)

theorem alternateOf_ne (p : String) : alternateOf p ≠ p := by
  unfold alternateOf
  split_ifs with h
  · rw [h]; decide
  · exact fun h2 => h h2.symm

theorem messages_disjoint (a b : String) (ha : a ∈ geminiMessages) (hb : b ∈ deepSeekMessages) :
    a ≠ b := by
  intro hab
  subst hab
  have : ∀ x ∈ geminiMessages, x ∉ deepSeekMessages := by decide
  exact this a ha hb

theorem plainClient_error_mem (svc : Service) (w : World) (text : JsString) (lang p : String)
    (tr : Trace) (e : String) (h : (plainClient svc w text lang p tr).1 = .error e) :
    e ∈ messagesOf p := by
  have hd := deepSeekError_mem
  unfold plainClient at h
  unfold messagesOf
  split_ifs at h ⊢ with hp
  · unfold translateWithGemini at h
    split_ifs at h
    · cases h; simp [geminiMessages]
    · simp only at h
      split at h
      · cases h
      · cases h; simp [geminiMessages]
  · unfold translateWithDeepSeek at h
    split_ifs at h
    · cases h; simp [deepSeekMessages]
    · simp only at h
      split at h
      · cases h
      · cases h; exact (hd none none).1
      · cases h; exact (hd _ _).1

theorem interactiveClient_error_mem (svc : Service) (w : World) (text : JsString)
    (lang p : String) (tr : Trace) (e : String)
    (h : (interactiveClient svc w text lang p tr).1 = .error e) : e ∈ messagesOf p := by
  have hd := deepSeekError_mem
  unfold interactiveClient at h
  unfold messagesOf
  split_ifs at h ⊢ with hp
  · unfold translateWithPhrasesGemini at h
    split_ifs at h
    · cases h; simp [geminiMessages]
    · simp only at h
      split at h
      · split at h
        · cases h
        · cases h; simp [geminiMessages]
      · cases h; simp [geminiMessages]
  · unfold translateWithPhrasesDeepSeek at h
    split_ifs at h
    · cases h; simp [deepSeekMessages]
    · simp only at h
      split at h
      · split at h
        · cases h
        · cases h; exact (hd none none).1
      · cases h; exact (hd none none).1
      · cases h; exact (hd _ _).1

theorem analysisClient_error_mem (svc : Service) (w : World) (original translated : JsString)
    (lang p : String) (tr : Trace) (e : String)
    (h : (analysisClient svc w original translated lang p tr).1 = .error e) :
    e ∈ messagesOf p := by
  have hd := deepSeekError_mem
  unfold analysisClient at h
  unfold messagesOf
  split_ifs at h ⊢ with hp
  · unfold analyzePhrasesGemini at h
    split_ifs at h
    · cases h; simp [geminiMessages]
    · simp only at h
      split at h
      · split at h
        · cases h
        · cases h; simp [geminiMessages]
      · cases h; simp [geminiMessages]
  · unfold analyzePhrasesDeepSeek at h
    split_ifs at h
    · cases h; simp [deepSeekMessages]
    · simp only at h
      split at h
      · split at h
        · cases h
        · cases h; exact (hd none none).2
      · cases h; exact (hd none none).2
      · cases h; exact (hd _ _).2

theorem messagesOf_alternate_ne (p a b : String) (hp : p = "gemini" ∨ p = "deepseek")
    (ha : a ∈ messagesOf p) (hb : b ∈ messagesOf (alternateOf p)) : a ≠ b := by
  rcases hp with rfl | rfl
  · have h1 : messagesOf "gemini" = geminiMessages := by decide
    have h2 : messagesOf (alternateOf "gemini") = deepSeekMessages := by decide
    rw [h1] at ha
    rw [h2] at hb
    exact messages_disjoint a b ha hb
  · have h1 : messagesOf "deepseek" = deepSeekMessages := by decide
    have h2 : messagesOf (alternateOf "deepseek") = geminiMessages := by decide
    rw [h1] at ha
    rw [h2] at hb
    exact fun h => messages_disjoint b a hb ha h.symm

/-! ## Lemmas on the entry points -/

theorem dispatch_family_error (svc : Service) (c : String → Trace → Outcome) (sel : String)
    (tr : Trace) (hsel : sel = "gemini" ∨ sel = "deepseek") (e : String)
    (he : (c sel tr).1 = .error e) :
    dispatch svc sel (c "gemini") (c "deepseek") tr =
      if credentialConfigured svc (alternateOf sel) then c (alternateOf sel) (c sel tr).2
      else (.error e, (c sel tr).2) := by
  have hne : ¬ ("deepseek" = "gemini") := by decide
  rcases hsel with rfl | rfl
  · rw [dispatch_error svc "gemini" (c "gemini") (c "deepseek") tr (Or.inl rfl) e
      (by simpa using he)]
    simp [alternateOf]
  · rw [dispatch_error svc "deepseek" (c "gemini") (c "deepseek") tr (Or.inr rfl) e
      (by simpa [hne] using he)]
    simp [alternateOf, hne]

theorem translatePrompt_eq (svc : Service) (w : World) (tr : Trace) (text : JsString)
    (targetLanguage provider : Option String) (h : isBlank (some text) = false) :
    translatePrompt svc w tr (some text) targetLanguage provider =
      dispatch svc (selectProvider svc provider)
        (plainClient svc w text (targetLanguage.getD "zh-CN") "gemini")
        (plainClient svc w text (targetLanguage.getD "zh-CN") "deepseek") tr := by
  have hg : plainClient svc w text (targetLanguage.getD "zh-CN") "gemini" =
      fun t => translateWithGemini svc w t text (targetLanguage.getD "zh-CN") := by
    funext t; simp [plainClient]
  have hd : plainClient svc w text (targetLanguage.getD "zh-CN") "deepseek" =
      fun t => translateWithDeepSeek svc w t text (targetLanguage.getD "zh-CN") := by
    funext t; simp [plainClient]
  rw [hg, hd]
  simp [translatePrompt, h]

theorem translateWithPhrases_eq (svc : Service) (w : World) (tr : Trace) (text : JsString)
    (targetLanguage provider : Option String) (h : isBlank (some text) = false) :
    translateWithPhrases svc w tr (some text) targetLanguage provider =
      dispatch svc (selectProvider svc provider)
        (interactiveClient svc w text (targetLanguage.getD "zh-CN") "gemini")
        (interactiveClient svc w text (targetLanguage.getD "zh-CN") "deepseek") tr := by
  have hg : interactiveClient svc w text (targetLanguage.getD "zh-CN") "gemini" =
      fun t => translateWithPhrasesGemini svc w t text (targetLanguage.getD "zh-CN") := by
    funext t; simp [interactiveClient]
  have hd : interactiveClient svc w text (targetLanguage.getD "zh-CN") "deepseek" =
      fun t => translateWithPhrasesDeepSeek svc w t text (targetLanguage.getD "zh-CN") := by
    funext t; simp [interactiveClient]
  rw [hg, hd]
  simp [translateWithPhrases, h]

theorem analyzePhrases_eq (svc : Service) (w : World) (tr : Trace)
    (original translated : JsString) (targetLanguage provider : Option String)
    (h1 : isBlank (some original) = false) (h2 : isBlank (some translated) = false) :
    analyzePhrases svc w tr (some original) (some translated) targetLanguage provider =
      dispatch svc (selectProvider svc provider)
        (analysisClient svc w original translated (targetLanguage.getD "zh-CN") "gemini")
        (analysisClient svc w original translated (targetLanguage.getD "zh-CN") "deepseek")
        tr := by
  have hg : analysisClient svc w original translated (targetLanguage.getD "zh-CN") "gemini" =
      fun t => analyzePhrasesGemini svc w t original translated
        (targetLanguage.getD "zh-CN") := by
    funext t; simp [analysisClient]
  have hd : analysisClient svc w original translated (targetLanguage.getD "zh-CN") "deepseek" =
      fun t => analyzePhrasesDeepSeek svc w t original translated
        (targetLanguage.getD "zh-CN") := by
    funext t; simp [analysisClient]
  rw [hg, hd]
  simp [analyzePhrases, h1, h2]

theorem alternateOf_supported (p : String) :
    alternateOf p = "gemini" ∨ alternateOf p = "deepseek" := by
  unfold alternateOf
  split_ifs <;> simp

/-! ## Failover -/

/-- C1. When the selected provider is `gemini` or `deepseek`, its attempt fails and the
credential of the alternate provider is configured, each of `translatePrompt`,
`translateWithPhrases` and `analyzePhrases` enters exactly two provider clients before it
returns: the primary once, then the alternate once. -/
theorem failover_attempts_exactly_once (svc : Service) (w : World) (tr : Trace)
    (text original translated : JsString) (targetLanguage provider : Option String)
    (hsel : selectProvider svc provider = "gemini" ∨ selectProvider svc provider = "deepseek")
    (halt : credentialConfigured svc (alternateOf (selectProvider svc provider)) = true) :
    (isBlank (some text) = false →
      (∃ e, (plainClient svc w text (targetLanguage.getD "zh-CN")
        (selectProvider svc provider) tr).1 = .error e) →
      attempts (translatePrompt svc w tr (some text) targetLanguage provider).2 =
        attempts tr ++ [selectProvider svc provider, alternateOf (selectProvider svc provider)]) ∧
    (isBlank (some text) = false →
      (∃ e, (interactiveClient svc w text (targetLanguage.getD "zh-CN")
        (selectProvider svc provider) tr).1 = .error e) →
      attempts (translateWithPhrases svc w tr (some text) targetLanguage provider).2 =
        attempts tr ++ [selectProvider svc provider, alternateOf (selectProvider svc provider)]) ∧
    (isBlank (some original) = false → isBlank (some translated) = false →
      (∃ e, (analysisClient svc w original translated (targetLanguage.getD "zh-CN")
        (selectProvider svc provider) tr).1 = .error e) →
      attempts (analyzePhrases svc w tr (some original) (some translated) targetLanguage
        provider).2 =
        attempts tr ++ [selectProvider svc provider, alternateOf (selectProvider svc provider)]) := by
  refine ⟨?_, ?_, ?_⟩
  · rintro hb ⟨e, he⟩
    rw [translatePrompt_eq svc w tr text targetLanguage provider hb,
      dispatch_family_error svc (plainClient svc w text (targetLanguage.getD "zh-CN")) _ tr hsel
        e he, if_pos halt,
      plainClient_attempts _ _ _ _ _ _ (alternateOf_supported _),
      plainClient_attempts _ _ _ _ _ _ hsel]
    simp
  · rintro hb ⟨e, he⟩
    rw [translateWithPhrases_eq svc w tr text targetLanguage provider hb,
      dispatch_family_error svc (interactiveClient svc w text (targetLanguage.getD "zh-CN")) _ tr
        hsel e he, if_pos halt,
      interactiveClient_attempts _ _ _ _ _ _ (alternateOf_supported _),
      interactiveClient_attempts _ _ _ _ _ _ hsel]
    simp
  · rintro hb1 hb2 ⟨e, he⟩
    rw [analyzePhrases_eq svc w tr original translated targetLanguage provider hb1 hb2,
      dispatch_family_error svc
        (analysisClient svc w original translated (targetLanguage.getD "zh-CN")) _ tr hsel e he,
      if_pos halt,
      analysisClient_attempts _ _ _ _ _ _ _ (alternateOf_supported _),
      analysisClient_attempts _ _ _ _ _ _ _ hsel]
    simp

/-- C2. When the primary provider's attempt fails, the alternate provider is configured and
the alternate's attempt fails too, each entry point returns the error thrown by the
alternate's attempt, which is a different error from the primary's. -/
theorem failover_error_is_alternates (svc : Service) (w : World) (tr : Trace)
    (text original translated : JsString) (targetLanguage provider : Option String)
    (e1 e2 : String)
    (hsel : selectProvider svc provider = "gemini" ∨ selectProvider svc provider = "deepseek")
    (halt : credentialConfigured svc (alternateOf (selectProvider svc provider)) = true) :
    (isBlank (some text) = false →
      (plainClient svc w text (targetLanguage.getD "zh-CN")
        (selectProvider svc provider) tr).1 = .error e1 →
      (plainClient svc w text (targetLanguage.getD "zh-CN")
        (alternateOf (selectProvider svc provider))
        (plainClient svc w text (targetLanguage.getD "zh-CN")
          (selectProvider svc provider) tr).2).1 = .error e2 →
      (translatePrompt svc w tr (some text) targetLanguage provider).1 = .error e2 ∧
        e2 ≠ e1) ∧
    (isBlank (some text) = false →
      (interactiveClient svc w text (targetLanguage.getD "zh-CN")
        (selectProvider svc provider) tr).1 = .error e1 →
      (interactiveClient svc w text (targetLanguage.getD "zh-CN")
        (alternateOf (selectProvider svc provider))
        (interactiveClient svc w text (targetLanguage.getD "zh-CN")
          (selectProvider svc provider) tr).2).1 = .error e2 →
      (translateWithPhrases svc w tr (some text) targetLanguage provider).1 = .error e2 ∧
        e2 ≠ e1) ∧
    (isBlank (some original) = false → isBlank (some translated) = false →
      (analysisClient svc w original translated (targetLanguage.getD "zh-CN")
        (selectProvider svc provider) tr).1 = .error e1 →
      (analysisClient svc w original translated (targetLanguage.getD "zh-CN")
        (alternateOf (selectProvider svc provider))
        (analysisClient svc w original translated (targetLanguage.getD "zh-CN")
          (selectProvider svc provider) tr).2).1 = .error e2 →
      (analyzePhrases svc w tr (some original) (some translated) targetLanguage provider).1 =
        .error e2 ∧ e2 ≠ e1) := by
  refine ⟨?_, ?_, ?_⟩
  · intro hb h1 h2
    rw [translatePrompt_eq svc w tr text targetLanguage provider hb,
      dispatch_family_error svc (plainClient svc w text (targetLanguage.getD "zh-CN")) _ tr hsel
        e1 h1, if_pos halt]
    exact ⟨h2, fun h => messagesOf_alternate_ne _ e1 e2 hsel
      (plainClient_error_mem _ _ _ _ _ _ _ h1) (plainClient_error_mem _ _ _ _ _ _ _ h2) h.symm⟩
  · intro hb h1 h2
    rw [translateWithPhrases_eq svc w tr text targetLanguage provider hb,
      dispatch_family_error svc (interactiveClient svc w text (targetLanguage.getD "zh-CN")) _ tr
        hsel e1 h1, if_pos halt]
    exact ⟨h2, fun h => messagesOf_alternate_ne _ e1 e2 hsel
      (interactiveClient_error_mem _ _ _ _ _ _ _ h1)
      (interactiveClient_error_mem _ _ _ _ _ _ _ h2) h.symm⟩
  · intro hb1 hb2 h1 h2
    rw [analyzePhrases_eq svc w tr original translated targetLanguage provider hb1 hb2,
      dispatch_family_error svc
        (analysisClient svc w original translated (targetLanguage.getD "zh-CN")) _ tr hsel e1 h1,
      if_pos halt]
    exact ⟨h2, fun h => messagesOf_alternate_ne _ e1 e2 hsel
      (analysisClient_error_mem _ _ _ _ _ _ _ _ h1)
      (analysisClient_error_mem _ _ _ _ _ _ _ _ h2) h.symm⟩

/-- C3. When the selected provider is `gemini` or `deepseek`, its attempt fails and the
credential of the alternate provider is not configured, each entry point fails with exactly
the primary's error, and the primary's client is the only one entered: the trace returned is
the one the primary's attempt left. -/
theorem no_alternate_surfaces_primary_error (svc : Service) (w : World) (tr : Trace)
    (text original translated : JsString) (targetLanguage provider : Option String)
    (e : String)
    (hsel : selectProvider svc provider = "gemini" ∨ selectProvider svc provider = "deepseek")
    (halt : credentialConfigured svc (alternateOf (selectProvider svc provider)) = false) :
    (isBlank (some text) = false →
      (plainClient svc w text (targetLanguage.getD "zh-CN")
        (selectProvider svc provider) tr).1 = .error e →
      translatePrompt svc w tr (some text) targetLanguage provider =
        (.error e, (plainClient svc w text (targetLanguage.getD "zh-CN")
          (selectProvider svc provider) tr).2) ∧
      attempts (translatePrompt svc w tr (some text) targetLanguage provider).2 =
        attempts tr ++ [selectProvider svc provider]) ∧
    (isBlank (some text) = false →
      (interactiveClient svc w text (targetLanguage.getD "zh-CN")
        (selectProvider svc provider) tr).1 = .error e →
      translateWithPhrases svc w tr (some text) targetLanguage provider =
        (.error e, (interactiveClient svc w text (targetLanguage.getD "zh-CN")
          (selectProvider svc provider) tr).2) ∧
      attempts (translateWithPhrases svc w tr (some text) targetLanguage provider).2 =
        attempts tr ++ [selectProvider svc provider]) ∧
    (isBlank (some original) = false → isBlank (some translated) = false →
      (analysisClient svc w original translated (targetLanguage.getD "zh-CN")
        (selectProvider svc provider) tr).1 = .error e →
      analyzePhrases svc w tr (some original) (some translated) targetLanguage provider =
        (.error e, (analysisClient svc w original translated (targetLanguage.getD "zh-CN")
          (selectProvider svc provider) tr).2) ∧
      attempts (analyzePhrases svc w tr (some original) (some translated) targetLanguage
        provider).2 = attempts tr ++ [selectProvider svc provider]) := by
  have hf : ¬ (credentialConfigured svc (alternateOf (selectProvider svc provider)) = true) := by
    rw [halt]; decide
  refine ⟨?_, ?_, ?_⟩
  · intro hb h1
    rw [translatePrompt_eq svc w tr text targetLanguage provider hb,
      dispatch_family_error svc (plainClient svc w text (targetLanguage.getD "zh-CN")) _ tr hsel
        e h1, if_neg hf]
    exact ⟨rfl, plainClient_attempts _ _ _ _ _ _ hsel⟩
  · intro hb h1
    rw [translateWithPhrases_eq svc w tr text targetLanguage provider hb,
      dispatch_family_error svc (interactiveClient svc w text (targetLanguage.getD "zh-CN")) _ tr
        hsel e h1, if_neg hf]
    exact ⟨rfl, interactiveClient_attempts _ _ _ _ _ _ hsel⟩
  · intro hb1 hb2 h1
    rw [analyzePhrases_eq svc w tr original translated targetLanguage provider hb1 hb2,
      dispatch_family_error svc
        (analysisClient svc w original translated (targetLanguage.getD "zh-CN")) _ tr hsel e h1,
      if_neg hf]
    exact ⟨rfl, analysisClient_attempts _ _ _ _ _ _ _ hsel⟩

/-- Instance of C1: both keys set, default provider `deepseek`, both providers down. -/
theorem failover_attempts_exactly_once_witness :
    selectProvider svcBoth none = "deepseek" ∧
    credentialConfigured svcBoth "gemini" = true ∧
    attempts (translatePrompt svcBoth worldAllDown [] (some (utf16 "a cat")) none none).2 =
      ["deepseek", "gemini"] ∧
    attempts (translateWithPhrases svcBoth worldAllDown [] (some (utf16 "a cat")) none none).2 =
      ["deepseek", "gemini"] ∧
    attempts (analyzePhrases svcBoth worldAllDown [] (some (utf16 "a cat"))
      (some (utf16 "一只猫")) none none).2 = ["deepseek", "gemini"] :=
  have h := failover_attempts_exactly_once svcBoth worldAllDown [] (utf16 "a cat")
    (utf16 "a cat") (utf16 "一只猫") none none (by decide) (by decide)
  ⟨by decide, by decide,
   h.1 (by decide) ⟨"DeepSeek API调用频率超限，请稍后再试", rfl⟩,
   h.2.1 (by decide) ⟨"DeepSeek API调用频率超限，请稍后再试", rfl⟩,
   h.2.2 (by decide) (by decide) ⟨"DeepSeek API调用频率超限，请稍后再试", rfl⟩⟩

/-- Instance of C2: both keys set, default provider `deepseek`, DeepSeek is rate limited and
Gemini throws; the caller sees Gemini's error. -/
theorem failover_error_is_alternates_witness :
    selectProvider svcBoth none = "deepseek" ∧
    credentialConfigured svcBoth "gemini" = true ∧
    (translatePrompt svcBoth worldAllDown [] (some (utf16 "a cat")) none none).1 =
      .error "Gemini翻译服务暂时不可用，请稍后再试" ∧
    (translateWithPhrases svcBoth worldAllDown [] (some (utf16 "a cat")) none none).1 =
      .error "Gemini翻译服务暂时不可用，请稍后再试" ∧
    (analyzePhrases svcBoth worldAllDown [] (some (utf16 "a cat")) (some (utf16 "一只猫"))
      none none).1 = .error "Gemini词组分析服务暂时不可用，请稍后再试" :=
  ⟨by decide, by decide,
   ((failover_error_is_alternates svcBoth worldAllDown [] (utf16 "a cat") (utf16 "a cat")
      (utf16 "一只猫") none none "DeepSeek API调用频率超限，请稍后再试"
      "Gemini翻译服务暂时不可用，请稍后再试" (by decide) (by decide)).1
        (by decide) rfl rfl).1,
   ((failover_error_is_alternates svcBoth worldAllDown [] (utf16 "a cat") (utf16 "a cat")
      (utf16 "一只猫") none none "DeepSeek API调用频率超限，请稍后再试"
      "Gemini翻译服务暂时不可用，请稍后再试" (by decide) (by decide)).2.1
        (by decide) rfl rfl).1,
   ((failover_error_is_alternates svcBoth worldAllDown [] (utf16 "a cat") (utf16 "a cat")
      (utf16 "一只猫") none none "DeepSeek API调用频率超限，请稍后再试"
      "Gemini词组分析服务暂时不可用，请稍后再试" (by decide) (by decide)).2.2
        (by decide) (by decide) rfl rfl).1⟩

/-- Instance of C3: only the DeepSeek key is set and DeepSeek is rate limited; the caller
sees DeepSeek's error after a single attempt. -/
theorem no_alternate_surfaces_primary_error_witness :
    selectProvider svcDeepSeekOnly none = "deepseek" ∧
    credentialConfigured svcDeepSeekOnly "gemini" = false ∧
    (translatePrompt svcDeepSeekOnly worldAllDown [] (some (utf16 "a cat")) none none).1 =
      .error "DeepSeek API调用频率超限，请稍后再试" ∧
    attempts (translatePrompt svcDeepSeekOnly worldAllDown [] (some (utf16 "a cat")) none
      none).2 = ["deepseek"] ∧
    attempts (translateWithPhrases svcDeepSeekOnly worldAllDown [] (some (utf16 "a cat")) none
      none).2 = ["deepseek"] ∧
    attempts (analyzePhrases svcDeepSeekOnly worldAllDown [] (some (utf16 "a cat"))
      (some (utf16 "一只猫")) none none).2 = ["deepseek"] :=
  have h := no_alternate_surfaces_primary_error svcDeepSeekOnly worldAllDown []
    (utf16 "a cat") (utf16 "a cat") (utf16 "一只猫") none none
    "DeepSeek API调用频率超限，请稍后再试" (by decide) (by decide)
  ⟨by decide, by decide,
   congrArg Prod.fst (h.1 (by decide) rfl).1,
   (h.1 (by decide) rfl).2,
   (h.2.1 (by decide) rfl).2,
   (h.2.2 (by decide) (by decide) rfl).2⟩

/-! ## Input validation -/

theorem trimStart_of_all_space (s : JsString) (h : ∀ c ∈ s, isTrimSpace c = true) :
    trimStart s = [] := by
  induction s with
  | nil => rfl
  | cons c cs ih =>
    have hc : isTrimSpace c = true := h c (List.mem_cons_self c cs)
    have hcs : ∀ d ∈ cs, isTrimSpace d = true := fun d hd => h d (List.mem_cons_of_mem c hd)
    simp [trimStart, hc, ih hcs]

theorem isBlank_of_all_space (text : Option JsString)
    (h : ∀ s, text = some s → ∀ c ∈ s, isTrimSpace c = true) : isBlank text = true := by
  cases text with
  | none => rfl
  | some s =>
    have hs := trimStart_of_all_space s (h s rfl)
    simp [isBlank, trim, hs, trimStart]

/-- C4. A text that is missing, empty or made only of whitespace makes `translatePrompt` and
`translateWithPhrases` fail with the empty-text error and leaves the trace as it was: no
provider client is entered and no request is issued, whatever the target language, the
provider override, the configuration and the world. -/
theorem blank_text_rejected_without_attempt (svc : Service) (w : World) (tr : Trace)
    (text : Option JsString) (targetLanguage provider : Option String)
    (h : ∀ s, text = some s → ∀ c ∈ s, isTrimSpace c = true) :
    translatePrompt svc w tr text targetLanguage provider = (.error "翻译文本不能为空", tr) ∧
    translateWithPhrases svc w tr text targetLanguage provider =
      (.error "翻译文本不能为空", tr) := by
  have hb := isBlank_of_all_space text h
  simp [translatePrompt, translateWithPhrases, hb]

/-- Instance of C4: a text of a space, a tab, a line feed and an ideographic space. -/
theorem blank_text_rejected_without_attempt_witness :
    translatePrompt svcBoth worldGeminiUp [] (some [32, 9, 10, 12288]) none (some "gemini") =
      (.error "翻译文本不能为空", []) ∧
    translateWithPhrases svcBoth worldGeminiUp [] (some [32, 9, 10, 12288]) none
      (some "gemini") = (.error "翻译文本不能为空", []) :=
  blank_text_rejected_without_attempt svcBoth worldGeminiUp [] (some [32, 9, 10, 12288]) none
    (some "gemini") (by
      intro s hs c hc
      cases hs
      revert c
      decide)

/-! ## The `original` field -/

theorem parseInteractiveBody_original (svc : Service) (now : String)
    (responseText originalText : JsString) (r : TranslationResult)
    (h : parseInteractiveBody svc now responseText originalText = .ok r) :
    r.original = originalText := by
  unfold parseInteractiveBody at h
  split at h
  · cases h
  · split at h
    · cases h
    · split at h
      · cases h
      · split at h
        · cases h
        · split at h
          · cases h
          · split at h
            · cases h
            · cases h; rfl

theorem parseInteractiveResponse_original (svc : Service) (now : String)
    (responseText originalText : JsString) (r : TranslationResult)
    (h : parseInteractiveResponse svc now responseText originalText = .ok r) :
    r.original = originalText := by
  unfold parseInteractiveResponse tryCatch at h
  split at h
  · next a hbody =>
    cases h
    exact parseInteractiveBody_original svc now responseText originalText _ hbody
  · cases h; rfl

theorem plainClient_original (svc : Service) (w : World) (text : JsString) (lang p : String)
    (tr : Trace) (r : TranslationResult) (h : (plainClient svc w text lang p tr).1 = .ok r) :
    r.original = text := by
  unfold plainClient at h
  split_ifs at h
  · unfold translateWithGemini at h
    split_ifs at h
    simp only at h
    split at h
    · cases h; rfl
    · cases h
  · unfold translateWithDeepSeek at h
    split_ifs at h
    simp only at h
    split at h
    · cases h; rfl
    · cases h
    · cases h

theorem interactiveClient_original (svc : Service) (w : World) (text : JsString)
    (lang p : String) (tr : Trace) (r : TranslationResult)
    (h : (interactiveClient svc w text lang p tr).1 = .ok r) : r.original = text := by
  unfold interactiveClient at h
  split_ifs at h
  · unfold translateWithPhrasesGemini at h
    split_ifs at h
    simp only at h
    split at h
    · split at h
      · next r1 hp =>
        cases h
        exact parseInteractiveResponse_original _ _ _ _ _ hp
      · cases h
    · cases h
  · unfold translateWithPhrasesDeepSeek at h
    split_ifs at h
    simp only at h
    split at h
    · split at h
      · next r1 hp =>
        cases h
        exact parseInteractiveResponse_original _ _ _ _ _ hp
      · cases h
    · cases h
    · cases h

theorem isBlank_none_or_some (text : Option JsString) (h : isBlank text = false) :
    ∃ s, text = some s := by
  cases text with
  | none => simp [isBlank] at h
  | some s => exact ⟨s, rfl⟩

/-- C5. Whenever `translatePrompt` or `translateWithPhrases` returns a result, through the
primary provider, after failover, or on the degraded parsing path, the result's `original`
is the caller's text, unchanged. -/
theorem result_original_is_source_text (svc : Service) (w : World) (tr : Trace)
    (text : Option JsString) (targetLanguage provider : Option String)
    (r : TranslationResult) :
    ((translatePrompt svc w tr text targetLanguage provider).1 = .ok r →
      text = some r.original) ∧
    ((translateWithPhrases svc w tr text targetLanguage provider).1 = .ok r →
      text = some r.original) := by
  constructor
  · intro h
    by_cases hb : isBlank text = true
    · simp [translatePrompt, hb] at h
    · have hb2 : isBlank text = false := by simpa using hb
      obtain ⟨s, rfl⟩ := isBlank_none_or_some text hb2
      rw [translatePrompt_eq svc w tr s targetLanguage provider hb2] at h
      obtain ⟨t, ht | ht⟩ := dispatch_source _ _ _ _ _ _ h
      · rw [plainClient_original _ _ _ _ _ _ _ ht]
      · rw [plainClient_original _ _ _ _ _ _ _ ht]
  · intro h
    by_cases hb : isBlank text = true
    · simp [translateWithPhrases, hb] at h
    · have hb2 : isBlank text = false := by simpa using hb
      obtain ⟨s, rfl⟩ := isBlank_none_or_some text hb2
      rw [translateWithPhrases_eq svc w tr s targetLanguage provider hb2] at h
      obtain ⟨t, ht | ht⟩ := dispatch_source _ _ _ _ _ _ h
      · rw [interactiveClient_original _ _ _ _ _ _ _ ht]
      · rw [interactiveClient_original _ _ _ _ _ _ _ ht]

/-- Instance of C5: DeepSeek times out and Gemini answers ` 一只猫 ` after failover; the plain
result and the degraded interactive result both carry the caller's text. -/
theorem result_original_is_source_text_witness :
    (translatePrompt svcBoth worldGeminiUp [] (some (utf16 "a cat")) none none).1 =
      .ok catPlain ∧
    some (utf16 "a cat") = some catPlain.original ∧
    (translateWithPhrases svcBoth worldGeminiUp [] (some (utf16 "a cat")) none none).1 =
      .ok catDegraded ∧
    some (utf16 "a cat") = some catDegraded.original :=
  have hp : (translatePrompt svcBoth worldGeminiUp [] (some (utf16 "a cat")) none none).1 =
      .ok catPlain := by rfl
  have hi : (translateWithPhrases svcBoth worldGeminiUp [] (some (utf16 "a cat")) none
      none).1 = .ok catDegraded := by rfl
  ⟨hp,
   (result_original_is_source_text svcBoth worldGeminiUp [] (some (utf16 "a cat")) none none
     catPlain).1 hp,
   hi,
   (result_original_is_source_text svcBoth worldGeminiUp [] (some (utf16 "a cat")) none none
     catDegraded).2 hi⟩

/-! ## Lemmas on property lists and on the id assignment -/

theorem getOwn_setProp (ms : List (JsString × JsValue)) (k k2 : JsString) (v : JsValue) :
    getOwn (setProp ms k v) k2 = if k = k2 then some v else getOwn ms k2 := by
  induction ms with
  | nil => simp [setProp, getOwn]
  | cons m ms ih =>
    obtain ⟨k1, v1⟩ := m
    by_cases h1 : k1 = k
    · subst h1
      by_cases h2 : k1 = k2
      · simp [setProp, getOwn, h2]
      · simp [setProp, getOwn, h2]
    · by_cases h2 : k1 = k2
      · subst h2
        have h3 : ¬ k = k1 := fun h => h1 h.symm
        simp [setProp, getOwn, h1, h3]
      · simp [setProp, getOwn, h1, h2, ih]

theorem getOwn_foldl_setProp (ps init : List (JsString × JsValue)) (k : JsString)
    (h : getOwn ps k = none) :
    getOwn (ps.foldl (fun o kv => setProp o kv.1 kv.2) init) k = getOwn init k := by
  induction ps generalizing init with
  | nil => rfl
  | cons p ps ih =>
    obtain ⟨k1, v1⟩ := p
    have hk : ¬ k1 = k := by
      intro hk
      simp [getOwn, hk] at h
    have hrest : getOwn ps k = none := by
      simpa [getOwn, hk] using h
    simp only [List.foldl_cons]
    rw [ih _ hrest, getOwn_setProp, if_neg hk]

theorem idOf_withId (i : Nat) (ps : List (JsString × JsValue))
    (h : getOwn ps (utf16 "id") = none) :
    idOf (withId i (.obj ps)) = some (JsValue.ofNat (i + 1)) := by
  simp only [idOf, withId, spreadProps]
  rw [getOwn_foldl_setProp ps _ _ h]
  simp [getOwn]

theorem zipWith_withId_ids (xs : List JsValue) (start : Nat)
    (h : ∀ x ∈ xs, ∃ ps, x = .obj ps ∧ getOwn ps (utf16 "id") = none) :
    (List.zipWith withId (List.range' start xs.length) xs).map idOf =
      (List.range' start xs.length).map fun i => some (JsValue.ofNat (i + 1)) := by
  induction xs generalizing start with
  | nil => rfl
  | cons x xs ih =>
    obtain ⟨ps, rfl, hps⟩ := h x (List.mem_cons_self x xs)
    have hrest : ∀ y ∈ xs, ∃ qs, y = .obj qs ∧ getOwn qs (utf16 "id") = none :=
      fun y hy => h y (List.mem_cons_of_mem _ hy)
    simp only [List.length_cons, List.range'_succ, List.zipWith_cons_cons, List.map_cons]
    rw [idOf_withId start ps hps, ih (start + 1) hrest]

theorem mapWithId_arr (xs : List JsValue) :
    mapWithId (some (.arr xs)) = .ok (List.zipWith withId (List.range xs.length) xs) := rfl

theorem mapWithId_length (xs : List JsValue) :
    (List.zipWith withId (List.range xs.length) xs).length = xs.length := by
  simp

theorem mapWithId_ids (xs : List JsValue)
    (h : ∀ x ∈ xs, ∃ ps, x = .obj ps ∧ getOwn ps (utf16 "id") = none) :
    (List.zipWith withId (List.range xs.length) xs).map idOf = positions xs.length := by
  have := zipWith_withId_ids xs 0 h
  rw [← List.range_eq_range'] at this
  exact this

/-! ## Lemmas on the two parsers -/

theorem parseInteractiveBody_success (svc : Service) (now : String)
    (raw originalText : JsString) (ms : List (JsString × JsValue)) (tv : JsValue)
    (xs : List JsValue) (hparse : JSON.parse raw = some (.obj ms))
    (ht : getOwn ms (utf16 "translated") = some tv) (htruthy : truthy (some tv) = true)
    (hk : getOwn ms (utf16 "keyPhrases") = some (.arr xs)) :
    parseInteractiveBody svc now raw originalText =
      .ok { original := originalText
            translated := tv
            keyPhrases := some (List.zipWith withId (List.range xs.length) xs)
            language := "zh-CN"
            provider := svc.defaultProvider
            timestamp := now } := by
  have hka : truthy (some (JsValue.arr xs)) = true := rfl
  simp [parseInteractiveBody, hparse, getField, ht, htruthy, hk, hka, mapWithId]

theorem parsePhraseAnalysisBody_success (svc : Service) (now : String)
    (raw originalText translatedText : JsString) (ms : List (JsString × JsValue))
    (xs : List JsValue) (hparse : JSON.parse raw = some (.obj ms))
    (hk : getOwn ms (utf16 "keyPhrases") = some (.arr xs)) :
    parsePhraseAnalysisBody svc now raw originalText translatedText =
      .ok { original := originalText
            translated := .str translatedText
            keyPhrases := some (List.zipWith withId (List.range xs.length) xs)
            language := "zh-CN"
            provider := svc.defaultProvider
            timestamp := now } := by
  have hka : truthy (some (JsValue.arr xs)) = true := rfl
  simp [parsePhraseAnalysisBody, hparse, getField, hk, hka, mapWithId]

theorem truthy_str_of_ne_nil (t : JsString) (h : t ≠ []) : truthy (some (.str t)) = true := by
  cases t with
  | nil => exact absurd rfl h
  | cons c cs => rfl

/-! ## Key-phrase ids -/

/-- C6, amended. For a response that parses as a JSON object whose `keyPhrases` is an array
of `n` phrase objects none of which has an `id` property of its own,
`parsePhraseAnalysisResponse` returns `n` key phrases with ids `1, ..., n` in input order,
and so does `parseInteractiveResponse` when in addition `translated` is a non-empty
string. -/
theorem ids_are_positions (svc : Service) (now : String)
    (raw originalText translatedText t : JsString) (ms : List (JsString × JsValue))
    (xs : List JsValue) (hparse : JSON.parse raw = some (.obj ms))
    (hk : getOwn ms (utf16 "keyPhrases") = some (.arr xs))
    (hobj : ∀ x ∈ xs, ∃ ps, x = .obj ps ∧ getOwn ps (utf16 "id") = none) :
    (getOwn ms (utf16 "translated") = some (.str t) → t ≠ [] →
      ∃ r ks, parseInteractiveResponse svc now raw originalText = .ok r ∧
        r.keyPhrases = some ks ∧ ks.length = xs.length ∧
        ks.map idOf = positions xs.length) ∧
    (∃ r ks, parsePhraseAnalysisResponse svc now raw originalText translatedText = .ok r ∧
        r.keyPhrases = some ks ∧ ks.length = xs.length ∧
        ks.map idOf = positions xs.length) := by
  constructor
  · intro ht hne
    refine ⟨{ original := originalText, translated := .str t,
              keyPhrases := some (List.zipWith withId (List.range xs.length) xs),
              language := "zh-CN", provider := svc.defaultProvider, timestamp := now },
      List.zipWith withId (List.range xs.length) xs, ?_, rfl, mapWithId_length xs,
      mapWithId_ids xs hobj⟩
    rw [parseInteractiveResponse,
      parseInteractiveBody_success svc now raw originalText ms (.str t) xs hparse ht
        (truthy_str_of_ne_nil t hne) hk]
    rfl
  · refine ⟨{ original := originalText, translated := .str translatedText,
              keyPhrases := some (List.zipWith withId (List.range xs.length) xs),
              language := "zh-CN", provider := svc.defaultProvider, timestamp := now },
      List.zipWith withId (List.range xs.length) xs, ?_, rfl, mapWithId_length xs,
      mapWithId_ids xs hobj⟩
    rw [parsePhraseAnalysisResponse,
      parsePhraseAnalysisBody_success svc now raw originalText translatedText ms xs hparse hk]
    rfl

set_option maxRecDepth 100000 in
/-- Instance of C6, amended: a response with two phrase objects without ids. -/
theorem ids_are_positions_witness :
    JSON.parse rawTwoPhrases = some (.obj
      [(utf16 "translated", .str (utf16 "X")),
       (utf16 "keyPhrases", .arr [.obj [(utf16 "en", .str (utf16 "a"))],
                                  .obj [(utf16 "en", .str (utf16 "b"))]])]) ∧
    (∃ r ks, parseInteractiveResponse svcBoth sampleNow rawTwoPhrases scenarioOriginal = .ok r ∧
      r.keyPhrases = some ks ∧ ks.length = 2 ∧
      ks.map idOf = [some (JsValue.ofNat 1), some (JsValue.ofNat 2)]) ∧
    (∃ r ks, parsePhraseAnalysisResponse svcBoth sampleNow rawTwoPhrases scenarioOriginal
        (utf16 "X") = .ok r ∧
      r.keyPhrases = some ks ∧ ks.length = 2 ∧
      ks.map idOf = [some (JsValue.ofNat 1), some (JsValue.ofNat 2)]) :=
  have hparse : JSON.parse rawTwoPhrases = some (.obj
      [(utf16 "translated", .str (utf16 "X")),
       (utf16 "keyPhrases", .arr [.obj [(utf16 "en", .str (utf16 "a"))],
                                  .obj [(utf16 "en", .str (utf16 "b"))]])]) := by decide
  have h := ids_are_positions svcBoth sampleNow rawTwoPhrases scenarioOriginal (utf16 "X")
    (utf16 "X")
    [(utf16 "translated", .str (utf16 "X")),
     (utf16 "keyPhrases", .arr [.obj [(utf16 "en", .str (utf16 "a"))],
                                .obj [(utf16 "en", .str (utf16 "b"))]])]
    [.obj [(utf16 "en", .str (utf16 "a"))], .obj [(utf16 "en", .str (utf16 "b"))]]
    hparse (by decide) (by
      intro x hx
      simp only [List.mem_cons, List.mem_singleton, List.not_mem_nil, or_false] at hx
      rcases hx with rfl | rfl
      · exact ⟨_, rfl, by decide⟩
      · exact ⟨_, rfl, by decide⟩)
  ⟨hparse, h.1 (by decide) (by decide), h.2⟩

set_option maxRecDepth 100000 in
/-- C6 as stated fails. A well-formed response with a `translated` string (the empty one) and
one phrase object yields no key phrase at all; and a response whose phrase object has an `id`
of its own yields that id, 7, not the position 1. -/
theorem ids_not_always_positions :
    JSON.parse rawEmptyTranslated = some (.obj
      [(utf16 "translated", .str []),
       (utf16 "keyPhrases", .arr [.obj [(utf16 "en", .str (utf16 "a"))]])]) ∧
    (parseInteractiveResponse svcBoth sampleNow rawEmptyTranslated scenarioOriginal).map
      (fun r => r.keyPhrases) = .ok (some []) ∧
    JSON.parse rawModelId = some (.obj
      [(utf16 "translated", .str (utf16 "x")),
       (utf16 "keyPhrases", .arr [.obj [(utf16 "id", .num false 7 0),
                                        (utf16 "en", .str (utf16 "a"))]])]) ∧
    (parseInteractiveResponse svcBoth sampleNow rawModelId scenarioOriginal).map
      (fun r => r.keyPhrases.map (List.map idOf)) = .ok (some [some (.num false 7 0)]) ∧
    (parsePhraseAnalysisResponse svcBoth sampleNow rawModelId scenarioOriginal
      (utf16 "x")).map (fun r => r.keyPhrases.map (List.map idOf)) =
      .ok (some [some (.num false 7 0)]) :=
  ⟨by decide, by rfl, by decide, by rfl, by rfl⟩

/-! ## The degraded path -/

theorem parseInteractiveBody_ok_inv (svc : Service) (now : String)
    (raw originalText : JsString) (r : TranslationResult)
    (h : parseInteractiveBody svc now raw originalText = .ok r) :
    ∃ ms tv xs, JSON.parse raw = some (.obj ms) ∧
      getOwn ms (utf16 "translated") = some tv ∧ truthy (some tv) = true ∧
      getOwn ms (utf16 "keyPhrases") = some (.arr xs) := by
  unfold parseInteractiveBody at h
  cases hp : JSON.parse raw with
  | none => simp [hp] at h
  | some v =>
    cases v with
    | obj ms =>
      simp only [hp, getField] at h
      cases ht : getOwn ms (utf16 "translated") with
      | none => simp [ht, truthy] at h
      | some tv =>
        cases hk : getOwn ms (utf16 "keyPhrases") with
        | none => simp [ht, hk, truthy] at h
        | some kv =>
          by_cases htt : truthy (some tv) = true
          · cases kv with
            | arr xs => exact ⟨ms, tv, xs, rfl, ht, htt, hk⟩
            | null => simp only [ht, hk, htt, mapWithId] at h; split_ifs at h
            | bool b => simp only [ht, hk, htt, mapWithId] at h; split_ifs at h
            | num n m e => simp only [ht, hk, htt, mapWithId] at h; split_ifs at h
            | str s1 => simp only [ht, hk, htt, mapWithId] at h; split_ifs at h
            | obj ps => simp only [ht, hk, htt, mapWithId] at h; split_ifs at h
          · simp [ht, htt] at h
    | null => simp [hp, getField] at h
    | bool b => simp [hp, getField, truthy] at h
    | num n m e => simp [hp, getField, truthy] at h
    | str s1 => simp [hp, getField, truthy] at h
    | arr ys => simp [hp, getField, truthy] at h

theorem parseInteractiveResponse_of_body_error (svc : Service) (now : String)
    (raw originalText : JsString) (e : String)
    (h : parseInteractiveBody svc now raw originalText = .error e) :
    parseInteractiveResponse svc now raw originalText =
      .ok (degradedInteractive svc now raw originalText) := by
  simp [parseInteractiveResponse, tryCatch, h]

theorem parseInteractiveResponse_of_body_ok (svc : Service) (now : String)
    (raw originalText : JsString) (r : TranslationResult)
    (h : parseInteractiveBody svc now raw originalText = .ok r) :
    parseInteractiveResponse svc now raw originalText = .ok r := by
  simp [parseInteractiveResponse, tryCatch, h]

theorem parsePhraseAnalysisResponse_of_body_error (svc : Service) (now : String)
    (raw originalText translatedText : JsString) (e : String)
    (h : parsePhraseAnalysisBody svc now raw originalText translatedText = .error e) :
    parsePhraseAnalysisResponse svc now raw originalText translatedText =
      .ok (degradedAnalysis svc now originalText translatedText) := by
  simp [parsePhraseAnalysisResponse, tryCatch, h]

theorem parsePhraseAnalysisResponse_of_body_ok (svc : Service) (now : String)
    (raw originalText translatedText : JsString) (r : TranslationResult)
    (h : parsePhraseAnalysisBody svc now raw originalText translatedText = .ok r) :
    parsePhraseAnalysisResponse svc now raw originalText translatedText = .ok r := by
  simp [parsePhraseAnalysisResponse, tryCatch, h]

/-- C7, amended. For a response text that is not valid JSON, or is JSON in which the read of
`translated` or of `keyPhrases` yields no value, `parseInteractiveResponse` returns a result
whose `translated` is the response text itself, hence non-empty whenever the response text is
non-empty, and whose `keyPhrases` is the empty list. -/
theorem degraded_result_carries_raw_text (svc : Service) (now : String)
    (raw originalText : JsString)
    (h : JSON.parse raw = none ∨
      ∃ v, JSON.parse raw = some v ∧
        ((∀ x, getField v (utf16 "translated") ≠ .ok (some x)) ∨
         (∀ x, getField v (utf16 "keyPhrases") ≠ .ok (some x)))) :
    ∃ r, parseInteractiveResponse svc now raw originalText = .ok r ∧
      r.translated = .str raw ∧ r.keyPhrases = some [] ∧
      (raw ≠ [] → r.translated ≠ .str []) := by
  have hdeg : parseInteractiveResponse svc now raw originalText =
      .ok (degradedInteractive svc now raw originalText) := by
    cases hb : parseInteractiveBody svc now raw originalText with
    | error e => exact parseInteractiveResponse_of_body_error svc now raw originalText e hb
    | ok r =>
      exfalso
      obtain ⟨ms, tv, xs, hparse, ht, _, hk⟩ :=
        parseInteractiveBody_ok_inv svc now raw originalText r hb
      rcases h with h | ⟨v, hv, h | h⟩
      · rw [hparse] at h; cases h
      · rw [hparse] at hv
        cases hv
        exact h tv (by simp [getField, ht])
      · rw [hparse] at hv
        cases hv
        exact h (.arr xs) (by simp [getField, hk])
  refine ⟨_, hdeg, rfl, rfl, ?_⟩
  intro hne heq
  simp only [degradedInteractive] at heq
  cases heq
  exact hne rfl

set_option maxRecDepth 100000 in
/-- Instance of C7, amended: a response that is an object without `keyPhrases`. -/
theorem degraded_result_carries_raw_text_witness :
    JSON.parse (utf16 "\x7b\"translated\":\"X\"\x7d") =
      some (.obj [(utf16 "translated", .str (utf16 "X"))]) ∧
    ∃ r, parseInteractiveResponse svcBoth sampleNow (utf16 "\x7b\"translated\":\"X\"\x7d")
        scenarioOriginal = .ok r ∧
      r.translated = .str (utf16 "\x7b\"translated\":\"X\"\x7d") ∧ r.keyPhrases = some [] ∧
      (utf16 "\x7b\"translated\":\"X\"\x7d" ≠ [] → r.translated ≠ .str []) :=
  have hparse : JSON.parse (utf16 "\x7b\"translated\":\"X\"\x7d") =
      some (.obj [(utf16 "translated", .str (utf16 "X"))]) := by decide
  ⟨hparse,
   degraded_result_carries_raw_text svcBoth sampleNow (utf16 "\x7b\"translated\":\"X\"\x7d")
     scenarioOriginal
     (Or.inr ⟨_, hparse, Or.inr (by
       intro x hx
       have hnone : getField (.obj [(utf16 "translated", .str (utf16 "X"))])
           (utf16 "keyPhrases") = .ok none := by rfl
       rw [hnone] at hx
       cases hx)⟩)⟩

/-- C7 as stated fails. The empty response text is not valid JSON, and the result that
`parseInteractiveResponse` returns for it has the empty string as `translated`. -/
theorem degraded_translated_can_be_empty :
    JSON.parse [] = none ∧
    (parseInteractiveResponse svcBoth sampleNow [] scenarioOriginal).map
      (fun r => (r.translated, r.keyPhrases)) = .ok (.str [], some []) :=
  ⟨by decide, by rfl⟩

/-! ## Totality of the parsers -/

/-- C8. Both parsers return a result for every response text. When every step of the `try`
block succeeds the result is the block's; when any step throws (the JSON parse, a property
read, the format check, the `map` call) the result is the degraded one. -/
theorem parsers_never_throw (svc : Service) (now : String)
    (raw originalText translatedText : JsString) :
    (∃ r, parseInteractiveResponse svc now raw originalText = .ok r ∧
      (parseInteractiveBody svc now raw originalText = .ok r ∨
       ((∃ e, parseInteractiveBody svc now raw originalText = .error e) ∧
         r = degradedInteractive svc now raw originalText))) ∧
    (∃ r, parsePhraseAnalysisResponse svc now raw originalText translatedText = .ok r ∧
      (parsePhraseAnalysisBody svc now raw originalText translatedText = .ok r ∨
       ((∃ e, parsePhraseAnalysisBody svc now raw originalText translatedText = .error e) ∧
         r = degradedAnalysis svc now originalText translatedText))) := by
  constructor
  · cases hb : parseInteractiveBody svc now raw originalText with
    | error e =>
      exact ⟨_, parseInteractiveResponse_of_body_error svc now raw originalText e hb,
        Or.inr ⟨⟨e, rfl⟩, rfl⟩⟩
    | ok r =>
      exact ⟨r, parseInteractiveResponse_of_body_ok svc now raw originalText r hb, Or.inl rfl⟩
  · cases hb : parsePhraseAnalysisBody svc now raw originalText translatedText with
    | error e =>
      exact ⟨_, parsePhraseAnalysisResponse_of_body_error svc now raw originalText
        translatedText e hb, Or.inr ⟨⟨e, rfl⟩, rfl⟩⟩
    | ok r =>
      exact ⟨r, parsePhraseAnalysisResponse_of_body_ok svc now raw originalText translatedText
        r hb, Or.inl rfl⟩

set_option maxRecDepth 100000 in
/-- The inputs singled out for the parsers: the empty text, JSON `null`, a number, a string,
an array and an object whose `keyPhrases` is not an array all end in the degraded result; an
array of elements that are not objects is mapped element by element. -/
theorem parsers_on_unusual_responses :
    (∀ raw ∈ [utf16 "", utf16 "null", utf16 "42", utf16 "\"text\"", utf16 "[1,2]",
        utf16 "\x7b\"translated\":\"X\",\"keyPhrases\":5\x7d",
        utf16 "\x7b\"translated\":\"X\",\"keyPhrases\":\x7b\"map\":1\x7d\x7d"],
      parseInteractiveResponse svcBoth sampleNow raw scenarioOriginal =
        .ok (degradedInteractive svcBoth sampleNow raw scenarioOriginal) ∧
      parsePhraseAnalysisResponse svcBoth sampleNow raw scenarioOriginal (utf16 "X") =
        .ok (degradedAnalysis svcBoth sampleNow scenarioOriginal (utf16 "X"))) ∧
    (parseInteractiveResponse svcBoth sampleNow
      (utf16 "\x7b\"translated\":\"X\",\"keyPhrases\":[null,7,\"ab\"]\x7d")
      scenarioOriginal).map (fun r => r.keyPhrases) =
      .ok (some [.obj [(utf16 "id", .num false 1 0)],
                 .obj [(utf16 "id", .num false 2 0)],
                 .obj [(utf16 "id", .num false 3 0), (utf16 "0", .str (utf16 "a")),
                       (utf16 "1", .str (utf16 "b"))]]) := by
  refine ⟨?_, by rfl⟩
  intro raw hraw
  simp only [List.mem_cons, List.mem_singleton, List.not_mem_nil, or_false] at hraw
  rcases hraw with rfl | rfl | rfl | rfl | rfl | rfl | rfl <;> exact ⟨by rfl, by rfl⟩

/-! ## The success path -/

/-- C9, amended. For a response that parses as a JSON object whose `translated` is a
non-empty string and whose `keyPhrases` is an array, possibly empty,
`parseInteractiveResponse` takes the success path: the result's `translated` is the JSON's
`translated` string and its `keyPhrases` has the length of the JSON's array. -/
theorem success_path_keeps_translated (svc : Service) (now : String)
    (raw originalText t : JsString) (ms : List (JsString × JsValue)) (xs : List JsValue)
    (hparse : JSON.parse raw = some (.obj ms))
    (ht : getOwn ms (utf16 "translated") = some (.str t)) (hne : t ≠ [])
    (hk : getOwn ms (utf16 "keyPhrases") = some (.arr xs)) :
    ∃ r ks, parseInteractiveResponse svc now raw originalText = .ok r ∧
      parseInteractiveBody svc now raw originalText = .ok r ∧
      r.translated = .str t ∧ r.keyPhrases = some ks ∧ ks.length = xs.length := by
  have hb := parseInteractiveBody_success svc now raw originalText ms (.str t) xs hparse ht
    (truthy_str_of_ne_nil t hne) hk
  exact ⟨_, _, parseInteractiveResponse_of_body_ok svc now raw originalText _ hb, hb, rfl, rfl,
    mapWithId_length xs⟩

set_option maxRecDepth 100000 in
/-- Instance of C9, amended: a response with a non-empty translation and no phrases. -/
theorem success_path_keeps_translated_witness :
    JSON.parse (utf16 "\x7b\"translated\":\"猫\",\"keyPhrases\":[]\x7d") =
      some (.obj [(utf16 "translated", .str (utf16 "猫")), (utf16 "keyPhrases", .arr [])]) ∧
    ∃ r ks, parseInteractiveResponse svcBoth sampleNow
        (utf16 "\x7b\"translated\":\"猫\",\"keyPhrases\":[]\x7d") scenarioOriginal = .ok r ∧
      parseInteractiveBody svcBoth sampleNow
        (utf16 "\x7b\"translated\":\"猫\",\"keyPhrases\":[]\x7d") scenarioOriginal = .ok r ∧
      r.translated = .str (utf16 "猫") ∧ r.keyPhrases = some ks ∧
      ks.length = ([] : List JsValue).length :=
  have hparse : JSON.parse (utf16 "\x7b\"translated\":\"猫\",\"keyPhrases\":[]\x7d") =
      some (.obj [(utf16 "translated", .str (utf16 "猫")), (utf16 "keyPhrases", .arr [])]) := by
    decide
  ⟨hparse,
   success_path_keeps_translated svcBoth sampleNow
     (utf16 "\x7b\"translated\":\"猫\",\"keyPhrases\":[]\x7d") scenarioOriginal (utf16 "猫")
     [(utf16 "translated", .str (utf16 "猫")), (utf16 "keyPhrases", .arr [])] []
     hparse (by decide) (by decide) (by decide)⟩

set_option maxRecDepth 100000 in
/-- C9 as stated fails. The response `rawEmptyBoth` is a JSON object with `translated`
present as a string, the empty one, and `keyPhrases` present as an array; the parser takes
the degraded path and returns the whole response text as `translated`. -/
theorem empty_translated_takes_degraded_path :
    JSON.parse rawEmptyBoth =
      some (.obj [(utf16 "translated", .str []), (utf16 "keyPhrases", .arr [])]) ∧
    parseInteractiveResponse svcBoth sampleNow rawEmptyBoth scenarioOriginal =
      .ok (degradedInteractive svcBoth sampleNow rawEmptyBoth scenarioOriginal) ∧
    (degradedInteractive svcBoth sampleNow rawEmptyBoth scenarioOriginal).translated ≠
      .str [] :=
  ⟨by decide, by rfl, by decide⟩

/-! ## The interactive scenario -/

set_option maxRecDepth 100000 in
/-- C10, amended. In the scenario `parseInteractiveResponse` returns the response's
translation and exactly one key phrase, with id 1 and with the response's `en`, `zh` and
four offsets unchanged. Its target text is `translated.substring(zhStart, zhEnd)`; its source
text `beautiful` is `original.substring(2, 11)`, whereas `original.substring(enStart, enEnd)`
is `a beautif`. -/
theorem scenario_result :
    parseInteractiveResponse svcBoth sampleNow scenarioResponse scenarioOriginal =
      .ok { original := scenarioOriginal
            translated := .str scenarioTranslated
            keyPhrases := some [scenarioPhrase]
            language := "zh-CN"
            provider := "deepseek"
            timestamp := sampleNow } ∧
    propOf "id" scenarioPhrase = some (JsValue.ofNat 1) ∧
    propOf "zh" scenarioPhrase = some (.str (substring scenarioTranslated 0 3)) ∧
    propOf "en" scenarioPhrase = some (.str (substring scenarioOriginal 2 11)) ∧
    substring scenarioOriginal 0 9 = utf16 "a beautif" :=
  ⟨by rfl, by decide, by decide, by decide, by decide⟩

set_option maxRecDepth 100000 in
/-- C10 as stated fails. The one key phrase returned in the scenario has `en` equal to
`beautiful`, `enStart` 0 and `enEnd` 9, and `original.substring(0, 9)` is a different
string. -/
theorem scenario_source_substring_differs :
    (parseInteractiveResponse svcBoth sampleNow scenarioResponse scenarioOriginal).map
      (fun r => r.keyPhrases.map
        (List.map fun p => (propOf "en" p, propOf "enStart" p, propOf "enEnd" p))) =
      .ok (some [(some (.str (utf16 "beautiful")), some (JsValue.ofNat 0),
        some (JsValue.ofNat 9))]) ∧
    substring scenarioOriginal 0 9 ≠ utf16 "beautiful" :=
  ⟨by rfl, by decide⟩

/-! ## The fuel of `JSON.parse` -/

namespace JSON

theorem skipWs_length_le (s : JsString) : (skipWs s).length ≤ s.length := by
  induction s with
  | nil => simp [skipWs]
  | cons c cs ih =>
    simp only [skipWs]
    split
    · simp only [List.length_cons]; omega
    · simp

theorem parseStringBody_length_aux (n : Nat) : ∀ (s v r : JsString), s.length ≤ n →
    parseStringBody s = some (v, r) → r.length < s.length := by
  induction n with
  | zero =>
    intro s v r hn h
    cases s with
    | nil => simp [parseStringBody] at h
    | cons c cs => simp at hn
  | succ n ih =>
    intro s v r hn h
    cases s with
    | nil => simp [parseStringBody] at h
    | cons c rest =>
      simp only [List.length_cons] at hn ⊢
      unfold parseStringBody at h
      split_ifs at h with h1 h2 h3
      · cases h; omega
      · split at h
        · cases h
        · next e rest1 =>
          split_ifs at h with h4
          · split at h
            · next a b c2 d rest2 =>
              split at h
              · next _ _ _ _ s1 r1 _ _ _ _ hrec =>
                cases h
                have := ih rest2 s1 r (by simp only [List.length_cons] at hn; omega) hrec
                simp only [List.length_cons]; omega
              · cases h
            · cases h
          · split at h
            · next u s1 r1 _ hrec =>
              cases h
              have := ih rest1 s1 r (by simp only [List.length_cons] at hn; omega) hrec
              simp only [List.length_cons]; omega
            · cases h
      · split at h
        · next s1 r1 hrec =>
          cases h
          have := ih rest s1 r (by omega) hrec
          omega
        · cases h

theorem parseStringBody_length (s v r : JsString) (h : parseStringBody s = some (v, r)) :
    r.length < s.length :=
  parseStringBody_length_aux s.length s v r (Nat.le_refl _) h

theorem takeDigits_length (s : JsString) :
    (takeDigits s).1.length + (takeDigits s).2.length = s.length := by
  induction s with
  | nil => simp [takeDigits]
  | cons c cs ih =>
    simp only [takeDigits]
    split
    · simp only [List.length_cons]; omega
    · simp

theorem parseFraction_length (s ds r : JsString) (h : parseFraction s = some (ds, r)) :
    r.length ≤ s.length := by
  unfold parseFraction at h
  split at h
  · cases h; simp
  · next c rest =>
    have := takeDigits_length rest
    split_ifs at h
    · simp only [Option.some.injEq] at h
      rw [h] at this
      simp only [List.length_cons]
      simp only at this
      omega
    · cases h; simp

theorem exponentSign_length (s : JsString) : (exponentSign s).2.length ≤ s.length := by
  unfold exponentSign
  split
  · simp
  · split_ifs <;> simp

theorem parseExponent_length (s r : JsString) (e : Int) (h : parseExponent s = some (e, r)) :
    r.length ≤ s.length := by
  unfold parseExponent at h
  split at h
  · cases h; simp
  · next c rest =>
    have h1 := takeDigits_length (exponentSign rest).2
    have h2 := exponentSign_length rest
    split_ifs at h
    · cases h
      simp only [List.length_cons]; omega
    · cases h
      simp only [List.length_cons]; omega
    · cases h; simp

theorem minusSign_length (s : JsString) : (minusSign s).2.length ≤ s.length := by
  unfold minusSign
  split
  · simp
  · split_ifs <;> simp

theorem parseNumber_length (s r : JsString) (v : JsValue) (h : parseNumber s = some (v, r)) :
    r.length < s.length := by
  unfold parseNumber at h
  have h1 := takeDigits_length (minusSign s).2
  have h2 := minusSign_length s
  simp only at h
  split_ifs at h with h3 h4
  split at h
  · cases h
  · next fds rest2 hf =>
    split at h
    · cases h
    · next e rest3 he =>
      cases h
      have h5 := parseFraction_length _ _ _ hf
      have h6 := parseExponent_length _ _ _ he
      have h7 : 0 < (takeDigits (minusSign s).2).1.length := by
        cases hd : (takeDigits (minusSign s).2).1 with
        | nil => simp [hd] at h3
        | cons a b => simp
      omega

theorem parseKeyword_length (kw s r : JsString) (v v2 : JsValue) (hkw : 0 < kw.length)
    (h : parseKeyword kw v s = some (v2, r)) : r.length < s.length := by
  unfold parseKeyword at h
  split_ifs at h with h1
  cases h
  have := (List.isPrefixOf_iff_prefix.mp h1).length_le
  simp only [List.length_drop]
  omega

theorem parseValue_stable_step (n : Nat)
    (ihE : ∀ s vs r, parseElements n s = some (vs, r) → r.length < s.length ∧
      ∀ m, 2 * (s.length - r.length) + 1 ≤ m → parseElements m s = some (vs, r))
    (ihM : ∀ s ms r, parseMembers n s = some (ms, r) → r.length < s.length ∧
      ∀ m, 2 * (s.length - r.length) + 1 ≤ m → parseMembers m s = some (ms, r))
    (s : JsString) (v : JsValue) (r : JsString) (h : parseValue (n + 1) s = some (v, r)) :
    r.length < s.length ∧
      ∀ m, 2 * (s.length - r.length) ≤ m → parseValue m s = some (v, r) := by
  have hws := skipWs_length_le s
  simp only [parseValue] at h
  split at h
  · cases h
  · next c rest heq =>
    rw [heq] at hws
    simp only [List.length_cons] at hws
    have hws2 := skipWs_length_le rest
    by_cases h123 : c = 123
    · simp only [h123, if_true] at h
      split at h
      · cases h
      · next d rest1 heq2 =>
        rw [heq2] at hws2
        simp only [List.length_cons] at hws2
        by_cases h125 : d = 125
        · simp only [h125, if_true] at h
          cases h
          refine ⟨by omega, ?_⟩
          intro m hm
          obtain ⟨m1, rfl⟩ : ∃ m1, m = m1 + 1 := ⟨m - 1, by omega⟩
          simp only [parseValue, heq, h123, if_true, heq2, h125]
        · simp only [h125, if_false] at h
          split at h
          · next ms r1 hrec =>
            cases h
            obtain ⟨hl, hst⟩ := ihM _ _ _ hrec
            simp only [List.length_cons] at hl hst
            refine ⟨by omega, ?_⟩
            intro m hm
            obtain ⟨m1, rfl⟩ : ∃ m1, m = m1 + 1 := ⟨m - 1, by omega⟩
            simp only [parseValue, heq, h123, if_true, heq2, h125, if_false]
            rw [hst m1 (by omega)]
          · cases h
    · simp only [h123, if_false] at h
      by_cases h91 : c = 91
      · simp only [h91, if_true] at h
        split at h
        · cases h
        · next d rest1 heq2 =>
          rw [heq2] at hws2
          simp only [List.length_cons] at hws2
          by_cases h93 : d = 93
          · simp only [h93, if_true] at h
            cases h
            refine ⟨by omega, ?_⟩
            intro m hm
            obtain ⟨m1, rfl⟩ : ∃ m1, m = m1 + 1 := ⟨m - 1, by omega⟩
            simp only [parseValue, heq, h91, if_true, heq2, h93]
            simp
          · simp only [h93, if_false] at h
            split at h
            · next xs r1 hrec =>
              cases h
              obtain ⟨hl, hst⟩ := ihE _ _ _ hrec
              simp only [List.length_cons] at hl hst
              refine ⟨by omega, ?_⟩
              intro m hm
              obtain ⟨m1, rfl⟩ : ∃ m1, m = m1 + 1 := ⟨m - 1, by omega⟩
              simp only [parseValue, heq, h91, if_true, heq2, h93, if_false]
              rw [hst m1 (by omega)]
              simp
            · cases h
      · simp only [h91, if_false] at h
        have hrest : r.length < (c :: rest).length := by
          split_ifs at h with h34 h116 h102 h110
          · split at h
            · next s1 r1 hrec =>
              cases h
              have := parseStringBody_length _ _ _ hrec
              simp only [List.length_cons]; omega
            · cases h
          · exact parseKeyword_length _ _ _ _ _ (by decide) h
          · exact parseKeyword_length _ _ _ _ _ (by decide) h
          · exact parseKeyword_length _ _ _ _ _ (by decide) h
          · exact parseNumber_length _ _ _ h
        simp only [List.length_cons] at hrest
        refine ⟨by omega, ?_⟩
        intro m hm
        obtain ⟨m1, rfl⟩ : ∃ m1, m = m1 + 1 := ⟨m - 1, by omega⟩
        simp only [parseValue, heq, h123, if_false, h91]
        exact h

theorem parseElements_stable_step (n : Nat)
    (ihV : ∀ s v r, parseValue n s = some (v, r) → r.length < s.length ∧
      ∀ m, 2 * (s.length - r.length) ≤ m → parseValue m s = some (v, r))
    (ihE : ∀ s vs r, parseElements n s = some (vs, r) → r.length < s.length ∧
      ∀ m, 2 * (s.length - r.length) + 1 ≤ m → parseElements m s = some (vs, r))
    (s : JsString) (vs : List JsValue) (r : JsString)
    (h : parseElements (n + 1) s = some (vs, r)) :
    r.length < s.length ∧
      ∀ m, 2 * (s.length - r.length) + 1 ≤ m → parseElements m s = some (vs, r) := by
  simp only [parseElements] at h
  split at h
  · cases h
  · next v rest hv =>
    obtain ⟨hl, hst⟩ := ihV _ _ _ hv
    have hws := skipWs_length_le rest
    split at h
    · cases h
    · next c rest1 heq =>
      rw [heq] at hws
      simp only [List.length_cons] at hws
      by_cases h93 : c = 93
      · simp only [h93, if_true] at h
        cases h
        refine ⟨by omega, ?_⟩
        intro m hm
        obtain ⟨m1, rfl⟩ : ∃ m1, m = m1 + 1 := ⟨m - 1, by omega⟩
        simp only [parseElements]
        rw [hst m1 (by omega)]
        simp only [heq, h93, if_true]
      · simp only [h93, if_false] at h
        by_cases h44 : c = 44
        · simp only [h44, if_true] at h
          split at h
          · next vs1 r1 hrec =>
            cases h
            obtain ⟨hl2, hst2⟩ := ihE _ _ _ hrec
            refine ⟨by omega, ?_⟩
            intro m hm
            obtain ⟨m1, rfl⟩ : ∃ m1, m = m1 + 1 := ⟨m - 1, by omega⟩
            simp only [parseElements]
            rw [hst m1 (by omega)]
            simp only [heq, h44, if_true]
            rw [hst2 m1 (by omega)]
            simp
          · cases h
        · simp only [h44, if_false] at h
          cases h

theorem parseMembers_stable_step (n : Nat)
    (ihV : ∀ s v r, parseValue n s = some (v, r) → r.length < s.length ∧
      ∀ m, 2 * (s.length - r.length) ≤ m → parseValue m s = some (v, r))
    (ihM : ∀ s ms r, parseMembers n s = some (ms, r) → r.length < s.length ∧
      ∀ m, 2 * (s.length - r.length) + 1 ≤ m → parseMembers m s = some (ms, r))
    (s : JsString) (ms : List (JsString × JsValue)) (r : JsString)
    (h : parseMembers (n + 1) s = some (ms, r)) :
    r.length < s.length ∧
      ∀ m, 2 * (s.length - r.length) + 1 ≤ m → parseMembers m s = some (ms, r) := by
  have hws := skipWs_length_le s
  simp only [parseMembers] at h
  split at h
  · cases h
  · next q rest heq =>
    rw [heq] at hws
    simp only [List.length_cons] at hws
    by_cases h34 : q = 34
    · simp only [h34, if_true] at h
      split at h
      · cases h
      · next k rest1 hk =>
        have hkl := parseStringBody_length _ _ _ hk
        have hws1 := skipWs_length_le rest1
        split at h
        · cases h
        · next colon rest2 heq1 =>
          rw [heq1] at hws1
          simp only [List.length_cons] at hws1
          by_cases h58 : colon = 58
          · simp only [h58, if_true] at h
            split at h
            · cases h
            · next v rest3 hv =>
              obtain ⟨hl, hst⟩ := ihV _ _ _ hv
              have hws3 := skipWs_length_le rest3
              split at h
              · cases h
              · next c rest4 heq3 =>
                rw [heq3] at hws3
                simp only [List.length_cons] at hws3
                by_cases h125 : c = 125
                · simp only [h125, if_true] at h
                  cases h
                  refine ⟨by omega, ?_⟩
                  intro m hm
                  obtain ⟨m1, rfl⟩ : ∃ m1, m = m1 + 1 := ⟨m - 1, by omega⟩
                  simp only [parseMembers, heq, h34, if_true, hk, heq1, h58]
                  rw [hst m1 (by omega)]
                  simp only [heq3, h125, if_true]
                · simp only [h125, if_false] at h
                  by_cases h44 : c = 44
                  · simp only [h44, if_true] at h
                    split at h
                    · next ms1 r1 hrec =>
                      cases h
                      obtain ⟨hl2, hst2⟩ := ihM _ _ _ hrec
                      refine ⟨by omega, ?_⟩
                      intro m hm
                      obtain ⟨m1, rfl⟩ : ∃ m1, m = m1 + 1 := ⟨m - 1, by omega⟩
                      simp only [parseMembers, heq, h34, if_true, hk, heq1, h58]
                      rw [hst m1 (by omega)]
                      simp only [heq3, h44, if_true]
                      rw [hst2 m1 (by omega)]
                      simp
                    · cases h
                  · simp only [h44, if_false] at h
                    cases h
          · simp only [h58, if_false] at h
            cases h
    · simp only [h34, if_false] at h
      cases h

/-- The three parsing functions do not depend on the fuel once it covers the input consumed:
a result obtained with some fuel is obtained with every fuel of at least twice the number of
characters consumed (plus one for the list parsers), and at least one character is
consumed. -/
theorem parse_stable (n : Nat) :
    (∀ s v r, parseValue n s = some (v, r) → r.length < s.length ∧
      ∀ m, 2 * (s.length - r.length) ≤ m → parseValue m s = some (v, r)) ∧
    (∀ s vs r, parseElements n s = some (vs, r) → r.length < s.length ∧
      ∀ m, 2 * (s.length - r.length) + 1 ≤ m → parseElements m s = some (vs, r)) ∧
    (∀ s ms r, parseMembers n s = some (ms, r) → r.length < s.length ∧
      ∀ m, 2 * (s.length - r.length) + 1 ≤ m → parseMembers m s = some (ms, r)) := by
  induction n with
  | zero =>
    refine ⟨?_, ?_, ?_⟩ <;> intro s v r h
    · simp [parseValue] at h
    · simp [parseElements] at h
    · simp [parseMembers] at h
  | succ n ih =>
    obtain ⟨ihV, ihE, ihM⟩ := ih
    exact ⟨parseValue_stable_step n ihE ihM, parseElements_stable_step n ihV ihE,
      parseMembers_stable_step n ihV ihM⟩

/-- The fuel that `JSON.parse` gives to `parseValue` is never exhausted: whatever value any
amount of fuel can parse from a text, the fuel `2 * length + 2` parses too. -/
theorem parseValue_fuel_adequate (n : Nat) (s : JsString) (v : JsValue) (r : JsString)
    (h : parseValue n s = some (v, r)) : parseValue (2 * s.length + 2) s = some (v, r) :=
  ((parse_stable n).1 s v r h).2 _ (by omega)

end JSON

/-! ## The phrase-analysis parser -/

theorem parsePhraseAnalysisBody_ok_inv (svc : Service) (now : String)
    (raw originalText translatedText : JsString) (r : TranslationResult)
    (h : parsePhraseAnalysisBody svc now raw originalText translatedText = .ok r) :
    r.original = originalText ∧ r.translated = .str translatedText ∧
      ∃ ms xs, JSON.parse raw = some (.obj ms) ∧
        getOwn ms (utf16 "keyPhrases") = some (.arr xs) := by
  unfold parsePhraseAnalysisBody at h
  cases hp : JSON.parse raw with
  | none => simp [hp] at h
  | some v =>
    cases v with
    | obj ms =>
      simp only [hp, getField] at h
      cases hk : getOwn ms (utf16 "keyPhrases") with
      | none => simp [hk, truthy] at h
      | some kv =>
        cases kv with
        | arr xs =>
          have hka : truthy (some (JsValue.arr xs)) = true := rfl
          simp only [hk, hka, mapWithId] at h
          simp only [Bool.not_true, Bool.false_eq_true, if_false] at h
          cases h
          exact ⟨rfl, rfl, ms, xs, rfl, hk⟩
        | null => simp only [hk, mapWithId] at h; split_ifs at h
        | bool b => simp only [hk, mapWithId] at h; split_ifs at h
        | num n m e => simp only [hk, mapWithId] at h; split_ifs at h
        | str s1 => simp only [hk, mapWithId] at h; split_ifs at h
        | obj ps => simp only [hk, mapWithId] at h; split_ifs at h
    | null => simp [hp, getField] at h
    | bool b => simp [hp, getField, truthy] at h
    | num n m e => simp [hp, getField, truthy] at h
    | str s1 => simp [hp, getField, truthy] at h
    | arr ys => simp [hp, getField, truthy] at h

/-- C11. For every response text `parsePhraseAnalysisResponse` returns a result whose
`original` is the given original text and whose `translated` is the given translated text;
when the response is not valid JSON, or is JSON in which the read of `keyPhrases` yields no
value, the result's `keyPhrases` is the empty list. -/
theorem analysis_result_keeps_given_texts (svc : Service) (now : String)
    (raw originalText translatedText : JsString) :
    ∃ r, parsePhraseAnalysisResponse svc now raw originalText translatedText = .ok r ∧
      r.original = originalText ∧ r.translated = .str translatedText ∧
      ((JSON.parse raw = none ∨
        ∃ v, JSON.parse raw = some v ∧
          ∀ x, getField v (utf16 "keyPhrases") ≠ .ok (some x)) →
        r.keyPhrases = some []) := by
  cases hb : parsePhraseAnalysisBody svc now raw originalText translatedText with
  | error e =>
    exact ⟨_, parsePhraseAnalysisResponse_of_body_error svc now raw originalText
      translatedText e hb, rfl, rfl, fun _ => rfl⟩
  | ok r =>
    obtain ⟨ho, ht, ms, xs, hparse, hk⟩ :=
      parsePhraseAnalysisBody_ok_inv svc now raw originalText translatedText r hb
    refine ⟨r, parsePhraseAnalysisResponse_of_body_ok svc now raw originalText
      translatedText r hb, ho, ht, ?_⟩
    intro h
    exfalso
    rcases h with h | ⟨v, hv, h⟩
    · rw [hparse] at h; cases h
    · rw [hparse] at hv
      cases hv
      exact h (.arr xs) (by simp [getField, hk])

set_option maxRecDepth 100000 in
/-- Instance of C11: a response that is an object without `keyPhrases`. -/
theorem analysis_result_keeps_given_texts_witness :
    JSON.parse (utf16 "\x7b\"phrases\":[]\x7d") = some (.obj [(utf16 "phrases", .arr [])]) ∧
    ∃ r, parsePhraseAnalysisResponse svcBoth sampleNow (utf16 "\x7b\"phrases\":[]\x7d")
        scenarioOriginal scenarioTranslated = .ok r ∧
      r.original = scenarioOriginal ∧ r.translated = .str scenarioTranslated ∧
      r.keyPhrases = some [] :=
  have hparse : JSON.parse (utf16 "\x7b\"phrases\":[]\x7d") =
      some (.obj [(utf16 "phrases", .arr [])]) := by decide
  have hlacks : ∀ x, getField (.obj [(utf16 "phrases", .arr [])]) (utf16 "keyPhrases") ≠
      .ok (some x) := by
    intro x hx
    have hnone : getField (.obj [(utf16 "phrases", .arr [])]) (utf16 "keyPhrases") =
        .ok none := by rfl
    rw [hnone] at hx
    cases hx
  ⟨hparse,
   (analysis_result_keeps_given_texts svcBoth sampleNow (utf16 "\x7b\"phrases\":[]\x7d")
      scenarioOriginal scenarioTranslated).elim fun r hr =>
        ⟨r, hr.1, hr.2.1, hr.2.2.1, hr.2.2.2 (Or.inr ⟨_, hparse, hlacks⟩)⟩⟩

/-! ## Fields of the plain result -/

theorem plainClient_keyPhrases (svc : Service) (w : World) (text : JsString) (lang p : String)
    (tr : Trace) (r : TranslationResult) (h : (plainClient svc w text lang p tr).1 = .ok r) :
    r.keyPhrases = none := by
  unfold plainClient at h
  split_ifs at h
  · unfold translateWithGemini at h
    split_ifs at h
    simp only at h
    split at h
    · cases h; rfl
    · cases h
  · unfold translateWithDeepSeek at h
    split_ifs at h
    simp only at h
    split at h
    · cases h; rfl
    · cases h
    · cases h

/-- C12, amended. Every result that `translatePrompt` returns, through DeepSeek or through
Gemini, has no `keyPhrases` property at all. -/
theorem plain_result_has_no_keyPhrases (svc : Service) (w : World) (tr : Trace)
    (text : Option JsString) (targetLanguage provider : Option String)
    (r : TranslationResult)
    (h : (translatePrompt svc w tr text targetLanguage provider).1 = .ok r) :
    r.keyPhrases = none := by
  by_cases hb : isBlank text = true
  · simp [translatePrompt, hb] at h
  · have hb2 : isBlank text = false := by simpa using hb
    obtain ⟨s, rfl⟩ := isBlank_none_or_some text hb2
    rw [translatePrompt_eq svc w tr s targetLanguage provider hb2] at h
    obtain ⟨t, ht | ht⟩ := dispatch_source _ _ _ _ _ _ h
    · exact plainClient_keyPhrases _ _ _ _ _ _ _ ht
    · exact plainClient_keyPhrases _ _ _ _ _ _ _ ht

/-- Instance of C12, amended: the plain translation of `a cat` obtained from Gemini after
DeepSeek timed out. -/
theorem plain_result_has_no_keyPhrases_witness :
    (translatePrompt svcBoth worldGeminiUp [] (some (utf16 "a cat")) none none).1 =
      .ok catPlain ∧ catPlain.keyPhrases = none :=
  have hp : (translatePrompt svcBoth worldGeminiUp [] (some (utf16 "a cat")) none none).1 =
      .ok catPlain := by rfl
  ⟨hp, plain_result_has_no_keyPhrases svcBoth worldGeminiUp [] (some (utf16 "a cat")) none
    none catPlain hp⟩

/-- C12 as stated fails. A successful plain translation through DeepSeek carries no
`keyPhrases` property, which is not the same as carrying the empty array. -/
theorem plain_result_keyPhrases_not_empty_array :
    (translatePrompt svcBoth
      { deepseek := fun _ _ => .response (some (utf16 "一只猫"))
        gemini := fun _ _ => .failure
        now := fun _ => sampleNow }
      [] (some (utf16 "a cat")) none none).1 =
      .ok { original := utf16 "a cat"
            translated := .str (utf16 "一只猫")
            keyPhrases := none
            language := "zh-CN"
            provider := "deepseek"
            timestamp := sampleNow } ∧
    (none : Option (List JsValue)) ≠ some [] :=
  ⟨by rfl, by decide⟩

/-! ## The `provider` field -/

set_option maxRecDepth 100000 in
/-- C13 at its failing inputs. With `deepseek` as default provider, an interactive translation
and a phrase analysis that Gemini answered, after DeepSeek timed out or because the caller
asked for `gemini`, are returned with `provider` equal to `deepseek`; the plain translation
obtained the same way names `gemini`. -/
theorem interactive_provider_field_names_default :
    translateWithPhrases svcBoth worldGeminiJson [] (some scenarioOriginal) none none =
      (.ok scenarioInteractive,
       [.invoked "deepseek",
        .deepseekRequest
          { systemPrompt := getInteractiveSystemPrompt "zh-CN"
            userPrompt := utf16 "请翻译以下Midjourney提示词并提取关键词组对应关系：\n\n" ++
              scenarioOriginal
            max_tokens := 1500 },
        .invoked "gemini",
        .geminiRequest
          { systemPrompt := getInteractiveSystemPrompt "zh-CN"
            userPrompt := utf16 "请翻译以下Midjourney提示词并提取关键词组对应关系：\n\n" ++
              scenarioOriginal }]) ∧
    scenarioInteractive.provider = "deepseek" ∧
    (translateWithPhrases svcBoth worldGeminiJson [] (some scenarioOriginal) none
      (some "gemini")).1 = .ok scenarioInteractive ∧
    requests (translateWithPhrases svcBoth worldGeminiJson [] (some scenarioOriginal) none
      (some "gemini")).2 = ["gemini"] ∧
    (analyzePhrases svcBoth worldGeminiJson [] (some scenarioOriginal)
      (some scenarioTranslated) none (some "gemini")).1 = .ok scenarioInteractive ∧
    (translatePrompt svcBoth worldGeminiJson [] (some scenarioOriginal) none none).1.map
      (fun r => r.provider) = .ok "gemini" :=
  ⟨by rfl, by rfl, by rfl, by rfl, by rfl, by rfl⟩

/-! ## The plain system prompt -/

set_option maxRecDepth 100000 in
/-- C20 at its failing input. For the target language `constructor`, which is none of the
four supported languages, `getSystemPrompt` returns the member of `Object.prototype` of that
name and not the Chinese-target template that it returns for `zh-CN`. -/
theorem getSystemPrompt_inherited_member :
    getSystemPrompt "constructor" = .inherited "constructor" ∧
    getSystemPrompt "zh-CN" = .template promptZhCN ∧
    getSystemPrompt "constructor" ≠ getSystemPrompt "zh-CN" :=
  ⟨by decide, by decide, by decide⟩

/-! ## The in-memory history -/

theorem slice_zero (xs : List HistoryRecord) (n : Nat) : slice xs 0 (n : Int) = xs.take n := by
  unfold slice
  have h1 : ¬ ((0 : Int) < 0) := by omega
  have h2 : ¬ ((n : Int) < 0) := by omega
  simp only [h1, h2, if_false]
  have h3 : min (0 : Int) (xs.length : Int) = 0 := by omega
  rw [h3]
  simp only [Int.toNat_zero, List.drop_zero, sub_zero]
  by_cases hn : n ≤ xs.length
  · have h4 : min (n : Int) (xs.length : Int) = n := by omega
    rw [h4]
    simp
  · have h4 : min (n : Int) (xs.length : Int) = xs.length := by omega
    rw [h4]
    simp only [Int.toNat_ofNat]
    rw [List.take_of_length_le (Nat.le_refl _), List.take_of_length_le (by omega)]

theorem pushHistory_eq (h : List HistoryRecord) (r : HistoryRecord) :
    pushHistory h r = (r :: h).take 10 := by
  unfold pushHistory
  simp only
  split_ifs with hlen
  · exact slice_zero (r :: h) 10
  · rw [List.take_of_length_le (by omega)]

theorem pushHistory_length (h : List HistoryRecord) (r : HistoryRecord) :
    (pushHistory h r).length ≤ 10 := by
  rw [pushHistory_eq]
  simp

theorem take_append_take (a b : List HistoryRecord) (n : Nat) :
    (a ++ b.take n).take n = (a ++ b).take n := by
  rw [List.take_append_eq_append_take, List.take_append_eq_append_take, List.take_take]
  congr 2
  omega

theorem foldl_pushHistory (rs h : List HistoryRecord) :
    rs.foldl pushHistory (h.take 10) = (rs.reverse ++ h).take 10 := by
  induction rs generalizing h with
  | nil => simp
  | cons r rs ih =>
    simp only [List.foldl_cons, List.reverse_cons, List.append_assoc, List.singleton_append]
    rw [pushHistory_eq]
    have h1 : (r :: h.take 10).take 10 = (r :: h).take 10 := by
      have := take_append_take [r] h 10
      simpa using this
    rw [h1, ih]

theorem postTranslate_saving (svc : Service) (env : RequestEnv) (h : List HistoryRecord)
    (body : TranslateBody) (translation : TranslationResult) (tr : Trace)
    (hguard : blankGuard "text" body.text = .ok false)
    (hcall : translatePrompt svc env.world [] (some (fieldText body.text))
      (some (body.targetLanguage.getD "zh-CN")) none = (.ok translation, tr))
    (hsave : truthy body.saveToDatabase = true)
    (hfull : truthy (some translation.translated) = true) :
    (postTranslate svc env h body).history =
      pushHistory h
        { id := toString env.dateNow
          originalText := translation.original
          translatedText := translation.translated
          language := "chinese"
          category := "general"
          createdAt := env.newDate } := by
  simp [postTranslate, hguard, hcall, hsave, hfull]

/-- C14. A `POST /` request that asks to save and whose translation succeeds with a non-empty
text leaves the history equal to the first 10 elements of the new record followed by the old
history. Consequently appending any records in order to the empty history leaves the first 10
of them in reverse order; for eleven records these are the eleventh down to the second. -/
theorem history_append_is_prepend_truncate (svc : Service) (env : RequestEnv)
    (h : List HistoryRecord) (body : TranslateBody) (translation : TranslationResult)
    (tr : Trace)
    (hguard : blankGuard "text" body.text = .ok false)
    (hcall : translatePrompt svc env.world [] (some (fieldText body.text))
      (some (body.targetLanguage.getD "zh-CN")) none = (.ok translation, tr))
    (hsave : truthy body.saveToDatabase = true)
    (hfull : truthy (some translation.translated) = true) :
    (postTranslate svc env h body).history =
      (({ id := toString env.dateNow
          originalText := translation.original
          translatedText := translation.translated
          language := "chinese"
          category := "general"
          createdAt := env.newDate } : HistoryRecord) :: h).take 10 ∧
    (∀ rs : List HistoryRecord, rs.foldl pushHistory [] = rs.reverse.take 10) ∧
    (∀ r1 r2 r3 r4 r5 r6 r7 r8 r9 r10 r11 : HistoryRecord,
      [r1, r2, r3, r4, r5, r6, r7, r8, r9, r10, r11].foldl pushHistory [] =
        [r11, r10, r9, r8, r7, r6, r5, r4, r3, r2]) := by
  have hfold : ∀ rs : List HistoryRecord, rs.foldl pushHistory [] = rs.reverse.take 10 := by
    intro rs
    have := foldl_pushHistory rs []
    simpa using this
  refine ⟨?_, hfold, ?_⟩
  · rw [postTranslate_saving svc env h body translation tr hguard hcall hsave hfull,
      pushHistory_eq]
  · intro r1 r2 r3 r4 r5 r6 r7 r8 r9 r10 r11
    rw [hfold]
    rfl

/-- Instance of C14: the request `saveCatBody` served around `worldGeminiUp` on a history that
already holds ten records. -/
theorem history_append_is_prepend_truncate_witness :
    (postTranslate svcBoth envGeminiUp (List.replicate 10 catRecord) saveCatBody).history =
      (catRecord :: List.replicate 10 catRecord).take 10 ∧
    (postTranslate svcBoth envGeminiUp [] saveCatBody).history = [catRecord] :=
  ⟨(history_append_is_prepend_truncate svcBoth envGeminiUp (List.replicate 10 catRecord)
      saveCatBody catPlain _ (by rfl) (by rfl) (by rfl) (by rfl)).1,
   (history_append_is_prepend_truncate svcBoth envGeminiUp [] saveCatBody catPlain _
      (by rfl) (by rfl) (by rfl) (by rfl)).1⟩

theorem handle_history (svc : Service) (env : RequestEnv) (h : List HistoryRecord)
    (req : Request) :
    (handle svc env h req).history = h ∨
      ∃ r, (handle svc env h req).history = pushHistory h r := by
  cases req with
  | translate body =>
    simp only [handle, postTranslate]
    split
    · exact Or.inl rfl
    · exact Or.inl rfl
    · split
      · exact Or.inl rfl
      · split
        · exact Or.inr ⟨_, rfl⟩
        · exact Or.inl rfl
  | analyzePhrases body =>
    left
    simp only [handle, postAnalyzePhrases]
    split
    · rfl
    · rfl
    · split
      · rfl
      · rfl
      · split <;> rfl
  | interactive body =>
    left
    simp only [handle, postInteractive]
    split
    · rfl
    · rfl
    · split
      · rfl
      · split
        · split <;> rfl
        · rfl
  | batch body =>
    left
    simp only [handle, postBatch]
    split
    · split_ifs <;> rfl
    · rfl
  | history query => exact Or.inl rfl
  | search query =>
    left
    simp only [handle, getSearch]
    split_ifs
    · rfl
    · split <;> rfl
  | other m p => exact Or.inl rfl

/-- C15. Starting from the empty history, after any finite sequence of requests to the
translate routes, each served in any environment, the history holds at most 10 records. -/
theorem history_never_exceeds_ten (svc : Service) (reqs : List (RequestEnv × Request)) :
    (runRequests svc [] reqs).length ≤ 10 := by
  have hgen : ∀ (rs : List (RequestEnv × Request)) (h : List HistoryRecord),
      h.length ≤ 10 → (runRequests svc h rs).length ≤ 10 := by
    intro rs
    induction rs with
    | nil => intro h hh; exact hh
    | cons p rs ih =>
      intro h hh
      obtain ⟨env, req⟩ := p
      simp only [runRequests]
      apply ih
      rcases handle_history svc env h req with heq | ⟨r, heq⟩
      · rw [heq]; exact hh
      · rw [heq]; exact pushHistory_length h r
  exact hgen reqs [] (by simp)

/-- Eleven saving requests in a row, each answered by Gemini after DeepSeek timed out, leave
exactly ten records. -/
theorem eleven_saves_leave_ten :
    runRequests svcBoth [] (List.replicate 11 (envGeminiUp, Request.translate saveCatBody)) =
      List.replicate 10 catRecord := by
  rfl

/-- C16 at its failing input. The router of `routes/translate.js` registers no `DELETE`
handler, so the request `DELETE /<id>` that the client sends is answered by the 404 handler
of `index.js` and the history stays as it was, the record with that id included. -/
theorem delete_request_leaves_history (svc : Service) (env : RequestEnv)
    (h : List HistoryRecord) (id : String) :
    (handle svc env h (.other "DELETE" ("/" ++ id))).response =
      ⟨404, .error "接口不存在"⟩ ∧
    (handle svc env h (.other "DELETE" ("/" ++ id))).history = h ∧
    (handle svcBoth envGeminiUp [catRecord] (.other "DELETE" ("/" ++ catRecord.id))).history =
      [catRecord] :=
  ⟨rfl, rfl, rfl⟩

/-! ## Listing the history -/

theorem slice_window (xs : List HistoryRecord) (a n : Nat) :
    slice xs (a : Int) ((a : Int) + (n : Int)) = (xs.drop a).take n := by
  unfold slice
  have h1 : ¬ ((a : Int) < 0) := by omega
  have h2 : ¬ ((a : Int) + (n : Int) < 0) := by omega
  simp only [h1, h2, if_false]
  by_cases ha : a ≤ xs.length
  · have h3 : min (a : Int) (xs.length : Int) = a := by omega
    rw [h3]
    simp only [Int.toNat_ofNat]
    by_cases hn : a + n ≤ xs.length
    · have h4 : min ((a : Int) + (n : Int)) (xs.length : Int) = (a : Int) + n := by omega
      rw [h4]
      have h5 : ((a : Int) + (n : Int) - (a : Int)).toNat = n := by omega
      rw [h5]
    · have h4 : min ((a : Int) + (n : Int)) (xs.length : Int) = xs.length := by omega
      rw [h4]
      have h5 : ((xs.length : Int) - (a : Int)).toNat = xs.length - a := by omega
      rw [h5]
      rw [List.take_of_length_le (by simp), List.take_of_length_le (by simp; omega)]
  · have h3 : min (a : Int) (xs.length : Int) = xs.length := by omega
    rw [h3]
    simp only [Int.toNat_ofNat]
    rw [List.drop_of_length_le (Nat.le_refl _), List.drop_of_length_le (by omega)]
    simp

/-- C17, amended. For every history, page `p ≥ 1`, page size `L` and optional category `c`, `GET /history` answers with the records at positions `(p-1)*L` up to but excluding `p*L`
of the filtered sequence in stored order, where the filtered sequence is the whole history
when `c` is absent, empty or `all` and otherwise the records whose category equals `c`;
`pagination.total` is the length of the filtered sequence, and the history is unchanged. -/
theorem history_listing_is_window (h : List HistoryRecord) (p L : Nat) (c : Option String)
    (hp : 1 ≤ p) :
    getHistory h { page := some p, limit := some L, category := c } =
      ⟨⟨200, .listing
          (((match c with
              | none => h
              | some cat =>
                if cat = "" ∨ cat = "all" then h
                else h.filter fun item => item.category == cat).drop ((p - 1) * L)).take L)
          { page := p
            limit := L
            total := (match c with
              | none => h
              | some cat =>
                if cat = "" ∨ cat = "all" then h
                else h.filter fun item => item.category == cat).length
            pages := pageCount (match c with
              | none => h
              | some cat =>
                if cat = "" ∨ cat = "all" then h
                else h.filter fun item => item.category == cat).length L }⟩, h, []⟩ := by
  have hskip : ((p : Int) - 1) * (L : Int) = (((p - 1) * L : Nat) : Int) := by
    have : ((p - 1 : Nat) : Int) = (p : Int) - 1 := by omega
    rw [Nat.cast_mul, this]
  have hfilter : (if truthyStr c && c != some "all" then
        h.filter fun item => some item.category == c else h) =
      (match c with
        | none => h
        | some cat =>
          if cat = "" ∨ cat = "all" then h
          else h.filter fun item => item.category == cat) := by
    cases c with
    | none => simp [truthyStr]
    | some cat =>
      by_cases h1 : cat = ""
      · simp [truthyStr, h1]
      · by_cases h2 : cat = "all"
        · simp [truthyStr, h2]
        · simp [truthyStr, h1, h2]
  simp only [getHistory, Option.getD_some, paginate, hfilter, hskip, slice_window]

/-- Instance of C17, amended: the second page of size 1 of a history of two records. -/
theorem history_listing_is_window_witness :
    getHistory [catRecord, { catRecord with id := "1" }]
        { page := some 2, limit := some 1, category := some "general" } =
      ⟨⟨200, .listing [{ catRecord with id := "1" }]
          { page := 2, limit := 1, total := 2, pages := some 2 }⟩,
        [catRecord, { catRecord with id := "1" }], []⟩ :=
  history_listing_is_window [catRecord, { catRecord with id := "1" }] 2 1 (some "general")
    (by decide)

/-- C17 as stated fails. With the empty string as category, `GET /history` lists the whole
history, although no record has the empty string as its category. -/
theorem history_listing_empty_category :
    (getHistory [catRecord] { page := some 1, limit := some 20, category := some "" }).response =
      ⟨200, .listing [catRecord] { page := 1, limit := 20, total := 1, pages := some 1 }⟩ ∧
    [catRecord].filter (fun item => item.category = "") = [] :=
  ⟨by rfl, by decide⟩

/-! ## Batch translation -/

theorem translatePrompt_original (svc : Service) (w : World) (tr : Trace)
    (text : Option JsString) (targetLanguage provider : Option String) (r : TranslationResult)
    (h : (translatePrompt svc w tr text targetLanguage provider).1 = .ok r) :
    text = some r.original := by
  by_cases hb : isBlank text = true
  · simp [translatePrompt, hb] at h
  · have hb2 : isBlank text = false := by simpa using hb
    obtain ⟨s, rfl⟩ := isBlank_none_or_some text hb2
    rw [translatePrompt_eq svc w tr s targetLanguage provider hb2] at h
    obtain ⟨t, ht | ht⟩ := dispatch_source _ _ _ _ _ _ h
    · rw [plainClient_original _ _ _ _ _ _ _ ht]
    · rw [plainClient_original _ _ _ _ _ _ _ ht]

theorem translatePromptAny_original (svc : Service) (w : World) (tr : Trace)
    (text : Option JsValue) (targetLanguage provider : Option String) (r : TranslationResult)
    (h : (translatePromptAny svc w tr text targetLanguage provider).1 = .ok r) :
    text = some (.str r.original) := by
  unfold translatePromptAny at h
  split at h
  · next s =>
    have := translatePrompt_original svc w tr (some s) targetLanguage provider r h
    simp only [Option.some.injEq] at this
    rw [this]
  · split_ifs at h
    have := translatePrompt_original svc w tr none targetLanguage provider r h
    cases this

theorem batchItemAt_success (svc : Service) (w : World) (lang : String) (t : Trace)
    (text : JsValue) (r : TranslationResult) (h : batchItemAt svc w lang t text = .success r) :
    text = .str r.original := by
  unfold batchItemAt at h
  split at h
  · next result t1 heq =>
    cases h
    have := translatePromptAny_original svc w t (some text) (some lang) none r
      (by rw [heq])
    simpa using this
  · cases h

theorem batchItemAt_cases (svc : Service) (w : World) (lang : String) (t : Trace)
    (text : JsValue) :
    (∃ r, batchItemAt svc w lang t text = .success r) ∨
      ∃ message timestamp,
        batchItemAt svc w lang t text = .failure text message lang timestamp := by
  unfold batchItemAt
  split
  · exact Or.inl ⟨_, rfl⟩
  · exact Or.inr ⟨_, _, rfl⟩

theorem translateBatch_cons (svc : Service) (w : World) (tr : Trace) (text : JsValue)
    (rest : List JsValue) (targetLanguage : Option String) :
    (translateBatch svc w tr (text :: rest) targetLanguage).1 =
      batchItemAt svc w (targetLanguage.getD "zh-CN") tr text ::
        (translateBatch svc w
          (translatePromptAny svc w tr (some text) (some (targetLanguage.getD "zh-CN")) none).2
          rest targetLanguage).1 := by
  rcases hv : translatePromptAny svc w tr (some text) (some (targetLanguage.getD "zh-CN"))
    none with ⟨res, t1⟩
  cases res <;> simp [translateBatch, batchItemAt, hv]

theorem translateBatch_forall₂ (svc : Service) (w : World) (texts : List JsValue)
    (targetLanguage : Option String) (tr : Trace) :
    List.Forall₂
      (fun text item => ∃ t, item = batchItemAt svc w (targetLanguage.getD "zh-CN") t text)
      texts (translateBatch svc w tr texts targetLanguage).1 := by
  induction texts generalizing tr with
  | nil => simp [translateBatch]
  | cons text rest ih =>
    rw [translateBatch_cons]
    exact List.Forall₂.cons ⟨tr, rfl⟩ (ih _)

theorem plainClient_fst_independent (svc : Service) (w : World) (text : JsString)
    (lang p : String) (t : Trace) (hw : TraceIndependent w) :
    (plainClient svc w text lang p t).1 = (plainClient svc w text lang p []).1 := by
  have hd : ∀ u, w.deepseek u = w.deepseek [] := fun u => (hw u).1
  have hg : ∀ u, w.gemini u = w.gemini [] := fun u => (hw u).2.1
  have hn : ∀ u, w.now u = w.now [] := fun u => (hw u).2.2
  unfold plainClient
  split_ifs
  · unfold translateWithGemini
    split_ifs
    · rfl
    · simp only
      rw [hg (t ++ _), hg ([] ++ _), hn (t ++ _ ++ _), hn ([] ++ _ ++ _)]
      split <;> rfl
  · unfold translateWithDeepSeek
    split_ifs
    · rfl
    · simp only
      rw [hd (t ++ _), hd ([] ++ _), hn (t ++ _ ++ _), hn ([] ++ _ ++ _)]
      split <;> rfl

theorem dispatch_fst_independent (svc : Service) (sel : String) (vg vd : Trace → Outcome)
    (t : Trace) (hg : ∀ u, (vg u).1 = (vg []).1) (hd : ∀ u, (vd u).1 = (vd []).1) :
    (dispatch svc sel vg vd t).1 = (dispatch svc sel vg vd []).1 := by
  unfold dispatch
  by_cases h1 : sel = "gemini"
  · simp only [h1, if_true]
    rcases hv : vg t with ⟨a, t1⟩
    rcases hv0 : vg [] with ⟨a0, t0⟩
    have ha : a = a0 := by
      have := hg t
      rw [hv, hv0] at this
      exact this
    subst ha
    cases a with
    | ok r => rfl
    | error e =>
      simp only
      split_ifs
      · rw [hd t1, hd t0]
      · rw [hg t1, hg t0]
      · rfl
  · by_cases h2 : sel = "deepseek"
    · have hne : ¬ ("deepseek" = "gemini") := by decide
      simp only [h2, if_neg hne, if_true]
      rcases hv : vd t with ⟨a, t1⟩
      rcases hv0 : vd [] with ⟨a0, t0⟩
      have ha : a = a0 := by
        have := hd t
        rw [hv, hv0] at this
        exact this
      subst ha
      cases a with
      | ok r => rfl
      | error e =>
        simp only
        split_ifs
        · rw [hd t1, hd t0]
        · rw [hg t1, hg t0]
        · rfl
    · simp [h1, h2]

theorem translatePromptAny_independent (svc : Service) (w : World) (t : Trace)
    (text : Option JsValue) (targetLanguage provider : Option String)
    (hw : TraceIndependent w) :
    (translatePromptAny svc w t text targetLanguage provider).1 =
      (translatePromptAny svc w [] text targetLanguage provider).1 := by
  have hplain : ∀ (s : Option JsString),
      (translatePrompt svc w t s targetLanguage provider).1 =
        (translatePrompt svc w [] s targetLanguage provider).1 := by
    intro s
    by_cases hb : isBlank s = true
    · simp [translatePrompt, hb]
    · have hb2 : isBlank s = false := by simpa using hb
      obtain ⟨x, rfl⟩ := isBlank_none_or_some s hb2
      rw [translatePrompt_eq svc w t x targetLanguage provider hb2,
        translatePrompt_eq svc w [] x targetLanguage provider hb2]
      exact dispatch_fst_independent svc _ _ _ t
        (fun u => plainClient_fst_independent svc w x _ "gemini" u hw)
        (fun u => plainClient_fst_independent svc w x _ "deepseek" u hw)
  unfold translatePromptAny
  split
  · exact hplain _
  · split_ifs
    · rfl
    · exact hplain none

theorem batchItemAt_independent (svc : Service) (w : World) (lang : String) (t : Trace)
    (text : JsValue) (hw : TraceIndependent w) :
    batchItemAt svc w lang t text = batchItemAt svc w lang [] text := by
  have h := translatePromptAny_independent svc w t (some text) (some lang) none hw
  have hn : ∀ u, w.now u = w.now [] := fun u => (hw u).2.2
  unfold batchItemAt
  rcases hv : translatePromptAny svc w t (some text) (some lang) none with ⟨a, t1⟩
  rcases hv0 : translatePromptAny svc w [] (some text) (some lang) none with ⟨a0, t0⟩
  rw [hv, hv0] at h
  simp only at h
  subst h
  cases a with
  | ok r => rfl
  | error e =>
    simp only
    rw [hn t1, hn t0]

theorem translateBatch_independent (svc : Service) (w : World) (texts : List JsValue)
    (targetLanguage : Option String) (tr : Trace) (hw : TraceIndependent w) :
    (translateBatch svc w tr texts targetLanguage).1 =
      texts.map (batchItemAt svc w (targetLanguage.getD "zh-CN") []) := by
  induction texts generalizing tr with
  | nil => simp [translateBatch]
  | cons text rest ih =>
    rw [translateBatch_cons, ih, batchItemAt_independent svc w _ tr text hw]
    rfl

/-- C18. For every list of texts and every world, `translateBatch` returns one element per
text, in input order: the element for a text is the successful translation of that text,
whose `original` is the text, or the error record for that text with the message thrown and
the requested language. When the providers' answers do not depend on earlier calls, each
element is what the text yields on its own, whatever the other items are and whether they
fail. -/
theorem batch_returns_one_item_per_text (svc : Service) (w : World) (tr : Trace)
    (texts : List JsValue) (targetLanguage : Option String) :
    (translateBatch svc w tr texts targetLanguage).1.length = texts.length ∧
    List.Forall₂
      (fun text item =>
        (∃ t, item = batchItemAt svc w (targetLanguage.getD "zh-CN") t text) ∧
        ((∃ r, item = .success r ∧ text = .str r.original) ∨
          ∃ message timestamp,
            item = .failure text message (targetLanguage.getD "zh-CN") timestamp))
      texts (translateBatch svc w tr texts targetLanguage).1 ∧
    (TraceIndependent w →
      (translateBatch svc w tr texts targetLanguage).1 =
        texts.map (batchItemAt svc w (targetLanguage.getD "zh-CN") [])) := by
  have hall := translateBatch_forall₂ svc w texts targetLanguage tr
  refine ⟨hall.length_eq.symm, ?_, translateBatch_independent svc w texts targetLanguage tr⟩
  refine hall.imp ?_
  rintro text item ⟨t, rfl⟩
  refine ⟨⟨t, rfl⟩, ?_⟩
  rcases batchItemAt_cases svc w (targetLanguage.getD "zh-CN") t text with ⟨r, hr⟩ | h
  · exact Or.inl ⟨r, hr, batchItemAt_success svc w _ t text r hr⟩
  · exact Or.inr h

/-- Instance of C18: a batch of a text, an empty text, a number and the first text again,
with DeepSeek timing out and Gemini answering. -/
theorem batch_returns_one_item_per_text_witness :
    TraceIndependent worldGeminiUp ∧
    (translateBatch svcBoth worldGeminiUp []
      [.str (utf16 "a cat"), .str [], .num false 5 0, .str (utf16 "a cat")] none).1 =
      [.success catPlain,
       .failure (.str []) "翻译文本不能为空" "zh-CN" "2024-05-01T08:00:00.000Z",
       .failure (.num false 5 0) "text.trim is not a function" "zh-CN"
         "2024-05-01T08:00:00.000Z",
       .success catPlain] :=
  have hw : TraceIndependent worldGeminiUp := fun _ => ⟨rfl, rfl, rfl⟩
  ⟨hw,
   ((batch_returns_one_item_per_text svcBoth worldGeminiUp []
      [.str (utf16 "a cat"), .str [], .num false 5 0, .str (utf16 "a cat")] none).2.2
      hw).trans (by rfl)⟩

/-! ## The batch route -/

/-- C19. A batch request whose `texts` is missing, is not an array, is empty or has more than
10 items is answered with status 400 and one of the two messages of the route; no provider
client is entered, no request is issued and the history is unchanged. -/
theorem batch_route_rejects_before_any_call (svc : Service) (env : RequestEnv)
    (h : List HistoryRecord) (body : BatchBody)
    (hbad : ∀ xs, body.texts = some (.arr xs) → xs.length = 0 ∨ 10 < xs.length) :
    (postBatch svc env h body).response.status = 400 ∧
    ((postBatch svc env h body).response.body = .error "请提供要翻译的文本数组" ∨
      (postBatch svc env h body).response.body = .error "批量翻译最多支持10个文本") ∧
    (∀ xs, body.texts = some (.arr xs) → 10 < xs.length →
      (postBatch svc env h body).response.body = .error "批量翻译最多支持10个文本") ∧
    (postBatch svc env h body).trace = [] ∧
    (postBatch svc env h body).history = h := by
  have hcases : (postBatch svc env h body = ⟨⟨400, .error "请提供要翻译的文本数组"⟩, h, []⟩ ∧
        ∀ xs, body.texts = some (.arr xs) → ¬ 10 < xs.length) ∨
      postBatch svc env h body = ⟨⟨400, .error "批量翻译最多支持10个文本"⟩, h, []⟩ := by
    unfold postBatch
    split
    · next texts htexts =>
      rcases hbad texts htexts with h0 | h10
      · left
        refine ⟨by rw [if_pos h0], ?_⟩
        intro xs hxs
        rw [htexts] at hxs
        cases hxs
        omega
      · right
        have hne : ¬ texts.length = 0 := by omega
        rw [if_neg hne, if_pos h10]
    · next hnot =>
      left
      exact ⟨rfl, fun xs hxs => absurd hxs (hnot xs)⟩
  rcases hcases with ⟨heq, hshort⟩ | heq
  · rw [heq]
    exact ⟨rfl, Or.inl rfl, fun xs hxs hlen => absurd hlen (hshort xs hxs), rfl, rfl⟩
  · rw [heq]
    exact ⟨rfl, Or.inr rfl, fun _ _ _ => rfl, rfl, rfl⟩

/-- Instance of C19: a batch of eleven texts. -/
theorem batch_route_rejects_before_any_call_witness :
    (postBatch svcBoth envGeminiUp [catRecord]
      { texts := some (.arr (List.replicate 11 (.str (utf16 "a cat")))),
        targetLanguage := none }).response = ⟨400, .error "批量翻译最多支持10个文本"⟩ ∧
    (postBatch svcBoth envGeminiUp [catRecord]
      { texts := some (.arr (List.replicate 11 (.str (utf16 "a cat")))),
        targetLanguage := none }).trace = [] :=
  have h := batch_route_rejects_before_any_call svcBoth envGeminiUp [catRecord]
    { texts := some (.arr (List.replicate 11 (.str (utf16 "a cat")))), targetLanguage := none }
    (by
      intro xs hxs
      simp only [Option.some.injEq, JsValue.arr.injEq] at hxs
      subst hxs
      right
      decide)
  ⟨by rfl, h.2.2.2.1⟩

/-! ## Errors of the provider clients -/

theorem deepSeekError_reportedAs (timeoutMsg unavailableMsg : String) (status : Option Nat)
    (code : Option String) :
    ReportedAs timeoutMsg unavailableMsg status code
      (deepSeekError timeoutMsg unavailableMsg status code) := by
  unfold ReportedAs deepSeekError
  refine ⟨?_, ?_, ?_, ?_⟩
  · intro h; simp [h]
  · intro h1 h2; simp [h2]
  · intro h1 h2 h3; simp [h1, h2, h3]
  · intro h1 h2 h3; simp [h1, h2, h3]

/-- C21. Whenever a request of a DeepSeek client fails, by a rejected call or by a response
without the expected content, the client throws the error that the precedence 401, 429,
`ECONNABORTED`, anything else assigns to the failure's status and transport code, with the
timeout and unavailable messages of its mode. -/
theorem deepseek_failure_mapping (svc : Service) (w : World) (tr : Trace)
    (text original translated : JsString) (lang : String) (o : AxiosOutcome)
    (status : Option Nat) (code : Option String)
    (hkey : truthyStr svc.deepseekApiKey = true)
    (hw : ∀ req, w.deepseek (tr ++ [Event.invoked "deepseek"]) req = o)
    (hfail : failureOf o = some (status, code)) :
    (∃ e, (translateWithDeepSeek svc w tr text lang).1 = .error e ∧
      ReportedAs "DeepSeek翻译服务超时，请稍后再试" "DeepSeek翻译服务暂时不可用，请稍后再试"
        status code e) ∧
    (∃ e, (translateWithPhrasesDeepSeek svc w tr text lang).1 = .error e ∧
      ReportedAs "DeepSeek翻译服务超时，请稍后再试" "DeepSeek翻译服务暂时不可用，请稍后再试"
        status code e) ∧
    (∃ e, (analyzePhrasesDeepSeek svc w tr original translated lang).1 = .error e ∧
      ReportedAs "DeepSeek词组分析服务超时，请稍后再试"
        "DeepSeek词组分析服务暂时不可用，请稍后再试" status code e) := by
  cases o with
  | response content =>
    cases content with
    | some c => simp [failureOf] at hfail
    | none =>
      simp only [failureOf, Option.some.injEq, Prod.mk.injEq] at hfail
      obtain ⟨rfl, rfl⟩ := hfail
      refine ⟨⟨_, ?_, deepSeekError_reportedAs _ _ none none⟩,
        ⟨_, ?_, deepSeekError_reportedAs _ _ none none⟩,
        ⟨_, ?_, deepSeekError_reportedAs _ _ none none⟩⟩
      · simp [translateWithDeepSeek, hkey, hw]
      · simp [translateWithPhrasesDeepSeek, hkey, hw]
      · simp [analyzePhrasesDeepSeek, hkey, hw]
  | failure st cd =>
    simp only [failureOf, Option.some.injEq, Prod.mk.injEq] at hfail
    obtain ⟨rfl, rfl⟩ := hfail
    refine ⟨⟨_, ?_, deepSeekError_reportedAs _ _ st cd⟩,
      ⟨_, ?_, deepSeekError_reportedAs _ _ st cd⟩,
      ⟨_, ?_, deepSeekError_reportedAs _ _ st cd⟩⟩
    · simp [translateWithDeepSeek, hkey, hw]
    · simp [translateWithPhrasesDeepSeek, hkey, hw]
    · simp [analyzePhrasesDeepSeek, hkey, hw]

/-- Instance of C21: a failure with status 401 and code `ECONNABORTED` is reported as invalid
credentials by the three DeepSeek clients. -/
theorem deepseek_failure_mapping_witness :
    (∃ e, (translateWithDeepSeek svcBoth worldUnauthorized [] (utf16 "a cat") "zh-CN").1 =
      .error e ∧ e = "DeepSeek API密钥无效或已过期") ∧
    (∃ e, (translateWithPhrasesDeepSeek svcBoth worldUnauthorized [] (utf16 "a cat")
      "zh-CN").1 = .error e ∧ e = "DeepSeek API密钥无效或已过期") ∧
    (∃ e, (analyzePhrasesDeepSeek svcBoth worldUnauthorized [] (utf16 "a cat")
      (utf16 "一只猫") "zh-CN").1 = .error e ∧ e = "DeepSeek API密钥无效或已过期") :=
  have h := deepseek_failure_mapping svcBoth worldUnauthorized [] (utf16 "a cat")
    (utf16 "a cat") (utf16 "一只猫") "zh-CN" (.failure (some 401) (some "ECONNABORTED"))
    (some 401) (some "ECONNABORTED") (by decide) (fun _ => rfl) rfl
  ⟨h.1.elim fun e he => ⟨e, he.1, he.2.1 rfl⟩,
   h.2.1.elim fun e he => ⟨e, he.1, he.2.1 rfl⟩,
   h.2.2.elim fun e he => ⟨e, he.1, he.2.1 rfl⟩⟩

/-- C22. In a service built by the constructor from an environment without the DeepSeek key,
the three DeepSeek clients throw the not-configured error of DeepSeek; without the Gemini key,
the three Gemini clients throw the not-configured error of Gemini. In each case the client
logs only that it was entered: no outbound request is issued, and the error thrown is this
one, not the provider-unavailable error. -/
theorem missing_credential_fails_fast (env : Env) (w : World) (tr : Trace)
    (text original translated : JsString) (lang : String) :
    (truthyStr env.DEEPSEEK_API_KEY = false →
      translateWithDeepSeek (Service.new env) w tr text lang =
        (.error "DeepSeek API密钥未配置", tr ++ [.invoked "deepseek"]) ∧
      translateWithPhrasesDeepSeek (Service.new env) w tr text lang =
        (.error "DeepSeek API密钥未配置", tr ++ [.invoked "deepseek"]) ∧
      analyzePhrasesDeepSeek (Service.new env) w tr original translated lang =
        (.error "DeepSeek API密钥未配置", tr ++ [.invoked "deepseek"]) ∧
      requests (tr ++ [.invoked "deepseek"]) = requests tr) ∧
    (truthyStr env.GEMINI_API_KEY = false →
      translateWithGemini (Service.new env) w tr text lang =
        (.error "Gemini API密钥未配置", tr ++ [.invoked "gemini"]) ∧
      translateWithPhrasesGemini (Service.new env) w tr text lang =
        (.error "Gemini API密钥未配置", tr ++ [.invoked "gemini"]) ∧
      analyzePhrasesGemini (Service.new env) w tr original translated lang =
        (.error "Gemini API密钥未配置", tr ++ [.invoked "gemini"]) ∧
      requests (tr ++ [.invoked "gemini"]) = requests tr) := by
  constructor
  · intro hkey
    have hk : truthyStr (Service.new env).deepseekApiKey = false := hkey
    refine ⟨?_, ?_, ?_, ?_⟩
    · simp [translateWithDeepSeek, hk]
    · simp [translateWithPhrasesDeepSeek, hk]
    · simp [analyzePhrasesDeepSeek, hk]
    · simp [requests, List.filterMap_append]
  · intro hkey
    have hk : (Service.new env).geminiClient = none := by
      simp [Service.new, hkey]
    refine ⟨?_, ?_, ?_, ?_⟩
    · simp [translateWithGemini, hk]
    · simp [translateWithPhrasesGemini, hk]
    · simp [analyzePhrasesGemini, hk]
    · simp [requests, List.filterMap_append]

/-- Instance of C22: the service built from an environment with only the DeepSeek key. -/
theorem missing_credential_fails_fast_witness :
    translateWithGemini svcDeepSeekOnly worldGeminiUp [] (utf16 "a cat") "zh-CN" =
      (.error "Gemini API密钥未配置", [.invoked "gemini"]) ∧
    translateWithPhrasesGemini svcDeepSeekOnly worldGeminiUp [] (utf16 "a cat") "zh-CN" =
      (.error "Gemini API密钥未配置", [.invoked "gemini"]) ∧
    analyzePhrasesGemini svcDeepSeekOnly worldGeminiUp [] (utf16 "a cat") (utf16 "一只猫")
      "zh-CN" = (.error "Gemini API密钥未配置", [.invoked "gemini"]) ∧
    requests [Event.invoked "gemini"] = [] :=
  (missing_credential_fails_fast
    { DEEPSEEK_API_KEY := some "sk-deepseek", DEEPSEEK_API_URL := none,
      GEMINI_API_KEY := none, DEFAULT_TRANSLATE_PROVIDER := none }
    worldGeminiUp [] (utf16 "a cat") (utf16 "a cat") (utf16 "一只猫") "zh-CN").2 rfl

/-! ## Provider selection -/

theorem dispatch_family_ok (svc : Service) (c : String → Trace → Outcome) (sel : String)
    (tr : Trace) (hsel : sel = "gemini" ∨ sel = "deepseek") (r : TranslationResult)
    (hr : (c sel tr).1 = .ok r) :
    dispatch svc sel (c "gemini") (c "deepseek") tr = (.ok r, (c sel tr).2) := by
  have hne : ¬ ("deepseek" = "gemini") := by decide
  rcases hsel with rfl | rfl
  · rw [dispatch_ok svc "gemini" (c "gemini") (c "deepseek") tr (Or.inl rfl) r
      (by simpa using hr)]
    simp
  · rw [dispatch_ok svc "deepseek" (c "gemini") (c "deepseek") tr (Or.inr rfl) r
      (by simpa [hne] using hr)]
    simp [hne]

theorem dispatch_family_attempts (svc : Service) (c : String → Trace → Outcome) (sel : String)
    (tr : Trace) (hsel : sel = "gemini" ∨ sel = "deepseek")
    (hc : ∀ p t, (p = "gemini" ∨ p = "deepseek") → attempts (c p t).2 = attempts t ++ [p]) :
    ∃ rest, attempts (dispatch svc sel (c "gemini") (c "deepseek") tr).2 =
      attempts tr ++ sel :: rest := by
  cases hr : (c sel tr).1 with
  | ok r =>
    rw [dispatch_family_ok svc c sel tr hsel r hr]
    exact ⟨[], hc sel tr hsel⟩
  | error e =>
    rw [dispatch_family_error svc c sel tr hsel e hr]
    split_ifs
    · refine ⟨[alternateOf sel], ?_⟩
      rw [hc _ _ (alternateOf_supported sel), hc sel tr hsel]
      simp
    · exact ⟨[], hc sel tr hsel⟩

theorem dispatch_unsupported (svc : Service) (sel : String) (vg vd : Trace → Outcome)
    (tr : Trace) (h1 : sel ≠ "gemini") (h2 : sel ≠ "deepseek") :
    dispatch svc sel vg vd tr = (.error ("不支持的翻译提供商: " ++ sel), tr) := by
  simp [dispatch, h1, h2]

/-- C23, amended. The provider selected is the caller's override when it is a non-empty
string and otherwise, for no override or the empty string, the configured default, which is
`DEFAULT_TRANSLATE_PROVIDER` when that is set and non-empty and `deepseek` otherwise. For a
text that passes validation: when the selected name is `gemini` or `deepseek` its client is
the first one entered; when it is neither, each entry point fails with the
unsupported-provider error and the trace is unchanged, so no client is entered, not even as
failover, whatever credentials are configured. -/
theorem provider_selection (env : Env) (w : World) (tr : Trace)
    (text original translated : JsString) (targetLanguage provider : Option String)
    (hb : isBlank (some text) = false) (hbo : isBlank (some original) = false)
    (hbt : isBlank (some translated) = false) :
    selectProvider (Service.new env) provider =
      (match provider with
        | some p => if p = "" then (Service.new env).defaultProvider else p
        | none => (Service.new env).defaultProvider) ∧
    (Service.new env).defaultProvider =
      (match env.DEFAULT_TRANSLATE_PROVIDER with
        | some d => if d = "" then "deepseek" else d
        | none => "deepseek") ∧
    ((selectProvider (Service.new env) provider = "gemini" ∨
        selectProvider (Service.new env) provider = "deepseek") →
      (∃ rest, attempts (translatePrompt (Service.new env) w tr (some text) targetLanguage
          provider).2 = attempts tr ++ selectProvider (Service.new env) provider :: rest) ∧
      (∃ rest, attempts (translateWithPhrases (Service.new env) w tr (some text)
          targetLanguage provider).2 =
          attempts tr ++ selectProvider (Service.new env) provider :: rest) ∧
      (∃ rest, attempts (analyzePhrases (Service.new env) w tr (some original)
          (some translated) targetLanguage provider).2 =
          attempts tr ++ selectProvider (Service.new env) provider :: rest)) ∧
    (selectProvider (Service.new env) provider ≠ "gemini" →
      selectProvider (Service.new env) provider ≠ "deepseek" →
      translatePrompt (Service.new env) w tr (some text) targetLanguage provider =
        (.error ("不支持的翻译提供商: " ++ selectProvider (Service.new env) provider), tr) ∧
      translateWithPhrases (Service.new env) w tr (some text) targetLanguage provider =
        (.error ("不支持的翻译提供商: " ++ selectProvider (Service.new env) provider), tr) ∧
      analyzePhrases (Service.new env) w tr (some original) (some translated) targetLanguage
          provider =
        (.error ("不支持的翻译提供商: " ++ selectProvider (Service.new env) provider), tr)) := by
  refine ⟨?_, ?_, ?_, ?_⟩
  · cases provider with
    | none => simp [selectProvider, truthyStr]
    | some p =>
      by_cases hp : p = ""
      · simp [selectProvider, truthyStr, hp]
      · simp [selectProvider, truthyStr, hp]
  · cases hd : env.DEFAULT_TRANSLATE_PROVIDER with
    | none => simp [Service.new, truthyStr, hd]
    | some d =>
      by_cases hdd : d = ""
      · simp [Service.new, truthyStr, hd, hdd]
      · simp [Service.new, truthyStr, hd, hdd]
  · intro hsel
    refine ⟨?_, ?_, ?_⟩
    · rw [translatePrompt_eq _ w tr text targetLanguage provider hb]
      exact dispatch_family_attempts _ (plainClient _ w text _) _ tr hsel
        (fun p t hp => plainClient_attempts _ w text _ p t hp)
    · rw [translateWithPhrases_eq _ w tr text targetLanguage provider hb]
      exact dispatch_family_attempts _ (interactiveClient _ w text _) _ tr hsel
        (fun p t hp => interactiveClient_attempts _ w text _ p t hp)
    · rw [analyzePhrases_eq _ w tr original translated targetLanguage provider hbo hbt]
      exact dispatch_family_attempts _ (analysisClient _ w original translated _) _ tr hsel
        (fun p t hp => analysisClient_attempts _ w original translated _ p t hp)
  · intro h1 h2
    refine ⟨?_, ?_, ?_⟩
    · rw [translatePrompt_eq _ w tr text targetLanguage provider hb]
      exact dispatch_unsupported _ _ _ _ tr h1 h2
    · rw [translateWithPhrases_eq _ w tr text targetLanguage provider hb]
      exact dispatch_unsupported _ _ _ _ tr h1 h2
    · rw [analyzePhrases_eq _ w tr original translated targetLanguage provider hbo hbt]
      exact dispatch_unsupported _ _ _ _ tr h1 h2

/-- Instance of C23, amended: with both keys configured, the override `openai` makes the three
entry points fail with the unsupported-provider error without any event. -/
theorem provider_selection_witness :
    selectProvider svcBoth (some "openai") = "openai" ∧
    translatePrompt svcBoth worldGeminiUp [] (some (utf16 "a cat")) none (some "openai") =
      (.error "不支持的翻译提供商: openai", []) ∧
    translateWithPhrases svcBoth worldGeminiUp [] (some (utf16 "a cat")) none
      (some "openai") = (.error "不支持的翻译提供商: openai", []) ∧
    analyzePhrases svcBoth worldGeminiUp [] (some (utf16 "a cat")) (some (utf16 "一只猫")) none
      (some "openai") = (.error "不支持的翻译提供商: openai", []) :=
  have h := (provider_selection
    { DEEPSEEK_API_KEY := some "sk-deepseek", DEEPSEEK_API_URL := none,
      GEMINI_API_KEY := some "gm-key", DEFAULT_TRANSLATE_PROVIDER := none }
    worldGeminiUp [] (utf16 "a cat") (utf16 "a cat") (utf16 "一只猫") none (some "openai")
    (by decide) (by decide) (by decide)).2.2.2 (by decide) (by decide)
  ⟨by decide, h.1, h.2.1, h.2.2⟩

/-- C23 as stated fails. With the empty string supplied as override, which is neither
`deepseek` nor `gemini`, `translatePrompt` does not fail with the unsupported-provider error:
it selects the default `deepseek`, enters its client first and returns a translation. -/
theorem empty_override_selects_default :
    selectProvider svcBoth (some "") = "deepseek" ∧
    (translatePrompt svcBoth worldGeminiUp [] (some (utf16 "a cat")) none (some "")).1 =
      .ok catPlain ∧
    attempts (translatePrompt svcBoth worldGeminiUp [] (some (utf16 "a cat")) none
      (some "")).2 = ["deepseek", "gemini"] :=
  ⟨by decide, by rfl, by rfl⟩

/-! ## Malformed responses do not trigger failover -/

theorem parseInteractiveResponse_total (svc : Service) (now : String)
    (raw originalText : JsString) :
    ∃ r, parseInteractiveResponse svc now raw originalText = .ok r := by
  cases hb : parseInteractiveBody svc now raw originalText with
  | error e => exact ⟨_, parseInteractiveResponse_of_body_error svc now raw originalText e hb⟩
  | ok r => exact ⟨r, parseInteractiveResponse_of_body_ok svc now raw originalText r hb⟩

theorem parsePhraseAnalysisResponse_total (svc : Service) (now : String)
    (raw originalText translatedText : JsString) :
    ∃ r, parsePhraseAnalysisResponse svc now raw originalText translatedText = .ok r := by
  cases hb : parsePhraseAnalysisBody svc now raw originalText translatedText with
  | error e =>
    exact ⟨_, parsePhraseAnalysisResponse_of_body_error svc now raw originalText
      translatedText e hb⟩
  | ok r =>
    exact ⟨r, parsePhraseAnalysisResponse_of_body_ok svc now raw originalText translatedText
      r hb⟩

theorem translateWithPhrasesGemini_text (svc : Service) (w : World) (tr : Trace)
    (text raw : JsString) (lang : String) (hc : svc.geminiClient.isNone = false)
    (hw : ∀ req, w.gemini (tr ++ [Event.invoked "gemini"]) req = .text raw) :
    ∃ r tr2, translateWithPhrasesGemini svc w tr text lang = (.ok r, tr2) ∧
      parseInteractiveResponse svc (w.now tr2) (trim raw) text = .ok r ∧
      attempts tr2 = attempts tr ++ ["gemini"] ∧ requests tr2 = requests tr ++ ["gemini"] := by
  obtain ⟨r, hr⟩ := parseInteractiveResponse_total svc
    (w.now (tr ++ [Event.invoked "gemini"] ++
      [Event.geminiRequest
        { systemPrompt := getInteractiveSystemPrompt lang
          userPrompt := utf16 "请翻译以下Midjourney提示词并提取关键词组对应关系：\n\n" ++ text }]))
    (trim raw) text
  refine ⟨r, _, ?_, hr, ?_, ?_⟩
  · simp only [translateWithPhrasesGemini, hc, hw, hr]
    simp
  · simp [attempts, List.filterMap_append]
  · simp [requests, List.filterMap_append]

theorem translateWithPhrasesDeepSeek_text (svc : Service) (w : World) (tr : Trace)
    (text raw : JsString) (lang : String) (hk : truthyStr svc.deepseekApiKey = true)
    (hw : ∀ req, w.deepseek (tr ++ [Event.invoked "deepseek"]) req = .response (some raw)) :
    ∃ r tr2, translateWithPhrasesDeepSeek svc w tr text lang = (.ok r, tr2) ∧
      parseInteractiveResponse svc (w.now tr2) (trim raw) text = .ok r ∧
      attempts tr2 = attempts tr ++ ["deepseek"] ∧
      requests tr2 = requests tr ++ ["deepseek"] := by
  obtain ⟨r, hr⟩ := parseInteractiveResponse_total svc
    (w.now (tr ++ [Event.invoked "deepseek"] ++
      [Event.deepseekRequest
        { systemPrompt := getInteractiveSystemPrompt lang
          userPrompt := utf16 "请翻译以下Midjourney提示词并提取关键词组对应关系：\n\n" ++ text
          max_tokens := 1500 }]))
    (trim raw) text
  refine ⟨r, _, ?_, hr, ?_, ?_⟩
  · simp only [translateWithPhrasesDeepSeek, hk, hw, hr]
    simp
  · simp [attempts, List.filterMap_append]
  · simp [requests, List.filterMap_append]

theorem analyzePhrasesGemini_text (svc : Service) (w : World) (tr : Trace)
    (original translated raw : JsString) (lang : String)
    (hc : svc.geminiClient.isNone = false)
    (hw : ∀ req, w.gemini (tr ++ [Event.invoked "gemini"]) req = .text raw) :
    ∃ r tr2, analyzePhrasesGemini svc w tr original translated lang = (.ok r, tr2) ∧
      parsePhraseAnalysisResponse svc (w.now tr2) (trim raw) original translated = .ok r ∧
      attempts tr2 = attempts tr ++ ["gemini"] ∧ requests tr2 = requests tr ++ ["gemini"] := by
  obtain ⟨r, hr⟩ := parsePhraseAnalysisResponse_total svc
    (w.now (tr ++ [Event.invoked "gemini"] ++
      [Event.geminiRequest
        { systemPrompt := getPhraseAnalysisPrompt lang
          userPrompt := analysisUserPrompt original translated }]))
    (trim raw) original translated
  refine ⟨r, _, ?_, hr, ?_, ?_⟩
  · simp only [analyzePhrasesGemini, hc, hw, hr]
    simp
  · simp [attempts, List.filterMap_append]
  · simp [requests, List.filterMap_append]

theorem analyzePhrasesDeepSeek_text (svc : Service) (w : World) (tr : Trace)
    (original translated raw : JsString) (lang : String)
    (hk : truthyStr svc.deepseekApiKey = true)
    (hw : ∀ req, w.deepseek (tr ++ [Event.invoked "deepseek"]) req = .response (some raw)) :
    ∃ r tr2, analyzePhrasesDeepSeek svc w tr original translated lang = (.ok r, tr2) ∧
      parsePhraseAnalysisResponse svc (w.now tr2) (trim raw) original translated = .ok r ∧
      attempts tr2 = attempts tr ++ ["deepseek"] ∧
      requests tr2 = requests tr ++ ["deepseek"] := by
  obtain ⟨r, hr⟩ := parsePhraseAnalysisResponse_total svc
    (w.now (tr ++ [Event.invoked "deepseek"] ++
      [Event.deepseekRequest
        { systemPrompt := getPhraseAnalysisPrompt lang
          userPrompt := analysisUserPrompt original translated
          max_tokens := 1000 }]))
    (trim raw) original translated
  refine ⟨r, _, ?_, hr, ?_, ?_⟩
  · simp only [analyzePhrasesDeepSeek, hk, hw, hr]
    simp
  · simp [attempts, List.filterMap_append]
  · simp [requests, List.filterMap_append]

/-- C24. In interactive and phrase-analysis modes, when the selected provider is configured
and its request returns a text, whatever the text is, `translateWithPhrases` and
`analyzePhrases` return the result that the parser builds from the trimmed text, and the
selected provider's client is the only one entered: the alternate is not attempted. -/
theorem malformed_response_never_fails_over (svc : Service) (w : World) (tr : Trace)
    (text original translated raw : JsString) (targetLanguage provider : Option String)
    (hb : isBlank (some text) = false) (hbo : isBlank (some original) = false)
    (hbt : isBlank (some translated) = false) :
    (selectProvider svc provider = "gemini" → svc.geminiClient.isNone = false →
      (∀ req, w.gemini (tr ++ [Event.invoked "gemini"]) req = .text raw) →
      (∃ r tr2, translateWithPhrases svc w tr (some text) targetLanguage provider =
          (.ok r, tr2) ∧
        parseInteractiveResponse svc (w.now tr2) (trim raw) text = .ok r ∧
        attempts tr2 = attempts tr ++ ["gemini"] ∧
        requests tr2 = requests tr ++ ["gemini"]) ∧
      (∃ r tr2, analyzePhrases svc w tr (some original) (some translated) targetLanguage
          provider = (.ok r, tr2) ∧
        parsePhraseAnalysisResponse svc (w.now tr2) (trim raw) original translated = .ok r ∧
        attempts tr2 = attempts tr ++ ["gemini"] ∧
        requests tr2 = requests tr ++ ["gemini"])) ∧
    (selectProvider svc provider = "deepseek" → truthyStr svc.deepseekApiKey = true →
      (∀ req, w.deepseek (tr ++ [Event.invoked "deepseek"]) req = .response (some raw)) →
      (∃ r tr2, translateWithPhrases svc w tr (some text) targetLanguage provider =
          (.ok r, tr2) ∧
        parseInteractiveResponse svc (w.now tr2) (trim raw) text = .ok r ∧
        attempts tr2 = attempts tr ++ ["deepseek"] ∧
        requests tr2 = requests tr ++ ["deepseek"]) ∧
      (∃ r tr2, analyzePhrases svc w tr (some original) (some translated) targetLanguage
          provider = (.ok r, tr2) ∧
        parsePhraseAnalysisResponse svc (w.now tr2) (trim raw) original translated = .ok r ∧
        attempts tr2 = attempts tr ++ ["deepseek"] ∧
        requests tr2 = requests tr ++ ["deepseek"])) := by
  have hne : ¬ ("deepseek" = "gemini") := by decide
  constructor
  · intro hsel hc hw
    constructor
    · obtain ⟨r, tr2, hcall, hparse, ha, hq⟩ :=
        translateWithPhrasesGemini_text svc w tr text raw (targetLanguage.getD "zh-CN") hc hw
      refine ⟨r, tr2, ?_, hparse, ha, hq⟩
      have hcl : interactiveClient svc w text (targetLanguage.getD "zh-CN") "gemini" tr =
          (.ok r, tr2) := by simp [interactiveClient, hcall]
      rw [translateWithPhrases_eq svc w tr text targetLanguage provider hb, hsel,
        dispatch_family_ok svc (interactiveClient svc w text (targetLanguage.getD "zh-CN"))
          "gemini" tr (Or.inl rfl) r (by rw [hcl]), hcl]
    · obtain ⟨r, tr2, hcall, hparse, ha, hq⟩ :=
        analyzePhrasesGemini_text svc w tr original translated raw
          (targetLanguage.getD "zh-CN") hc hw
      refine ⟨r, tr2, ?_, hparse, ha, hq⟩
      have hcl : analysisClient svc w original translated (targetLanguage.getD "zh-CN")
          "gemini" tr = (.ok r, tr2) := by simp [analysisClient, hcall]
      rw [analyzePhrases_eq svc w tr original translated targetLanguage provider hbo hbt, hsel,
        dispatch_family_ok svc
          (analysisClient svc w original translated (targetLanguage.getD "zh-CN"))
          "gemini" tr (Or.inl rfl) r (by rw [hcl]), hcl]
  · intro hsel hk hw
    constructor
    · obtain ⟨r, tr2, hcall, hparse, ha, hq⟩ :=
        translateWithPhrasesDeepSeek_text svc w tr text raw (targetLanguage.getD "zh-CN") hk hw
      refine ⟨r, tr2, ?_, hparse, ha, hq⟩
      have hcl : interactiveClient svc w text (targetLanguage.getD "zh-CN") "deepseek" tr =
          (.ok r, tr2) := by simp [interactiveClient, hne, hcall]
      rw [translateWithPhrases_eq svc w tr text targetLanguage provider hb, hsel,
        dispatch_family_ok svc (interactiveClient svc w text (targetLanguage.getD "zh-CN"))
          "deepseek" tr (Or.inr rfl) r (by rw [hcl]), hcl]
    · obtain ⟨r, tr2, hcall, hparse, ha, hq⟩ :=
        analyzePhrasesDeepSeek_text svc w tr original translated raw
          (targetLanguage.getD "zh-CN") hk hw
      refine ⟨r, tr2, ?_, hparse, ha, hq⟩
      have hcl : analysisClient svc w original translated (targetLanguage.getD "zh-CN")
          "deepseek" tr = (.ok r, tr2) := by simp [analysisClient, hne, hcall]
      rw [analyzePhrases_eq svc w tr original translated targetLanguage provider hbo hbt, hsel,
        dispatch_family_ok svc
          (analysisClient svc w original translated (targetLanguage.getD "zh-CN"))
          "deepseek" tr (Or.inr rfl) r (by rw [hcl]), hcl]

/-- Instance of C24: DeepSeek, the default provider, answers ` not json `; both entry points
return a result after the single attempt at DeepSeek. -/
theorem malformed_response_never_fails_over_witness :
    (∃ r tr2, translateWithPhrases svcBoth worldDeepSeekGarbled [] (some (utf16 "a cat")) none
        none = (.ok r, tr2) ∧
      parseInteractiveResponse svcBoth (worldDeepSeekGarbled.now tr2)
        (trim (utf16 " not json ")) (utf16 "a cat") = .ok r ∧
      attempts tr2 = ["deepseek"] ∧ requests tr2 = ["deepseek"]) ∧
    (∃ r tr2, analyzePhrases svcBoth worldDeepSeekGarbled [] (some (utf16 "a cat"))
        (some (utf16 "一只猫")) none none = (.ok r, tr2) ∧
      parsePhraseAnalysisResponse svcBoth (worldDeepSeekGarbled.now tr2)
        (trim (utf16 " not json ")) (utf16 "a cat") (utf16 "一只猫") = .ok r ∧
      attempts tr2 = ["deepseek"] ∧ requests tr2 = ["deepseek"]) :=
  (malformed_response_never_fails_over svcBoth worldDeepSeekGarbled [] (utf16 "a cat")
    (utf16 "a cat") (utf16 "一只猫") (utf16 " not json ") none none
    (by decide) (by decide) (by decide)).2 (by decide) (by decide) (fun _ => rfl)

/-! ## The target language -/

theorem plainClient_language (svc : Service) (w : World) (text : JsString) (lang p : String)
    (tr : Trace) (r : TranslationResult) (h : (plainClient svc w text lang p tr).1 = .ok r) :
    r.language = lang := by
  unfold plainClient at h
  split_ifs at h
  · unfold translateWithGemini at h
    split_ifs at h
    simp only at h
    split at h
    · cases h; rfl
    · cases h
  · unfold translateWithDeepSeek at h
    split_ifs at h
    simp only at h
    split at h
    · cases h; rfl
    · cases h
    · cases h

theorem parseInteractiveResponse_language (svc : Service) (now : String)
    (raw originalText : JsString) (r : TranslationResult)
    (h : parseInteractiveResponse svc now raw originalText = .ok r) : r.language = "zh-CN" := by
  cases hb : parseInteractiveBody svc now raw originalText with
  | error e =>
    rw [parseInteractiveResponse_of_body_error svc now raw originalText e hb] at h
    cases h
    rfl
  | ok r1 =>
    rw [parseInteractiveResponse_of_body_ok svc now raw originalText r1 hb] at h
    cases h
    obtain ⟨ms, tv, xs, hparse, ht, htt, hk⟩ :=
      parseInteractiveBody_ok_inv svc now raw originalText r hb
    rw [parseInteractiveBody_success svc now raw originalText ms tv xs hparse ht htt hk] at hb
    cases hb
    rfl

theorem parsePhraseAnalysisResponse_language (svc : Service) (now : String)
    (raw originalText translatedText : JsString) (r : TranslationResult)
    (h : parsePhraseAnalysisResponse svc now raw originalText translatedText = .ok r) :
    r.language = "zh-CN" := by
  cases hb : parsePhraseAnalysisBody svc now raw originalText translatedText with
  | error e =>
    rw [parsePhraseAnalysisResponse_of_body_error svc now raw originalText translatedText e
      hb] at h
    cases h
    rfl
  | ok r1 =>
    rw [parsePhraseAnalysisResponse_of_body_ok svc now raw originalText translatedText r1
      hb] at h
    cases h
    obtain ⟨_, _, ms, xs, hparse, hk⟩ :=
      parsePhraseAnalysisBody_ok_inv svc now raw originalText translatedText r hb
    rw [parsePhraseAnalysisBody_success svc now raw originalText translatedText ms xs hparse
      hk] at hb
    cases hb
    rfl

/-- C29. The interactive and the phrase-analysis prompt are the same for every target
language, the two parsers return only results with language `zh-CN`, and
`translateWithPhrases` and `analyzePhrases` return the same outcome and log the same events
for any two target languages. In plain mode the result's language is the requested target
language as given, `zh-CN` when none is given. -/
theorem target_language_effect (svc : Service) (w : World) (tr : Trace) (now : String)
    (raw originalText translatedText : JsString) (text original translated : Option JsString)
    (l1 l2 : String) (t1 t2 targetLanguage provider : Option String)
    (r : TranslationResult) :
    getInteractiveSystemPrompt l1 = getInteractiveSystemPrompt l2 ∧
    getPhraseAnalysisPrompt l1 = getPhraseAnalysisPrompt l2 ∧
    (parseInteractiveResponse svc now raw originalText = .ok r → r.language = "zh-CN") ∧
    (parsePhraseAnalysisResponse svc now raw originalText translatedText = .ok r →
      r.language = "zh-CN") ∧
    translateWithPhrases svc w tr text t1 provider =
      translateWithPhrases svc w tr text t2 provider ∧
    analyzePhrases svc w tr original translated t1 provider =
      analyzePhrases svc w tr original translated t2 provider ∧
    ((translatePrompt svc w tr text targetLanguage provider).1 = .ok r →
      r.language = targetLanguage.getD "zh-CN") := by
  refine ⟨rfl, rfl, parseInteractiveResponse_language svc now raw originalText r,
    parsePhraseAnalysisResponse_language svc now raw originalText translatedText r,
    rfl, rfl, ?_⟩
  intro h
  by_cases hb : isBlank text = true
  · simp [translatePrompt, hb] at h
  · have hb2 : isBlank text = false := by simpa using hb
    obtain ⟨s, rfl⟩ := isBlank_none_or_some text hb2
    rw [translatePrompt_eq svc w tr s targetLanguage provider hb2] at h
    obtain ⟨t, ht | ht⟩ := dispatch_source _ _ _ _ _ _ h
    · exact plainClient_language _ _ _ _ _ _ _ ht
    · exact plainClient_language _ _ _ _ _ _ _ ht

/-- Instance of C29: with the unrecognized target language `tlh`, the plain result has
language `tlh` and the interactive result has language `zh-CN`. -/
theorem target_language_effect_witness :
    (translatePrompt svcBoth worldGeminiUp [] (some (utf16 "a cat")) (some "tlh") none).1 =
      .ok { catPlain with language := "tlh" } ∧
    ({ catPlain with language := "tlh" } : TranslationResult).language = "tlh" ∧
    parseInteractiveResponse svcBoth sampleNow (utf16 "一只猫") (utf16 "a cat") =
      .ok { catDegraded with timestamp := sampleNow } ∧
    ({ catDegraded with timestamp := sampleNow } : TranslationResult).language = "zh-CN" :=
  have hp : (translatePrompt svcBoth worldGeminiUp [] (some (utf16 "a cat")) (some "tlh")
      none).1 = .ok { catPlain with language := "tlh" } := by rfl
  have hi : parseInteractiveResponse svcBoth sampleNow (utf16 "一只猫") (utf16 "a cat") =
      .ok { catDegraded with timestamp := sampleNow } := by rfl
  have h := target_language_effect svcBoth worldGeminiUp [] sampleNow (utf16 "一只猫")
    (utf16 "a cat") (utf16 "一只猫") (some (utf16 "a cat")) none none "ja-JP" "ko-KR" none none
    (some "tlh") none { catPlain with language := "tlh" }
  have h2 := target_language_effect svcBoth worldGeminiUp [] sampleNow (utf16 "一只猫")
    (utf16 "a cat") (utf16 "一只猫") (some (utf16 "a cat")) none none "ja-JP" "ko-KR" none none
    (some "tlh") none { catDegraded with timestamp := sampleNow }
  ⟨hp, h.2.2.2.2.2.2 hp, hi, h2.2.2.1 hi⟩

/-! ## Saving an interactive translation -/

set_option maxRecDepth 100000 in
/-- C26 at its failing input. The interactive route builds its prompt document with the
category `interactive`, which the schema's enumeration does not contain, so saving throws and
the response reports `saved: false`; no interactive request is ever reported as saved. The
records that `POST /` writes to the history have the category `general`. -/
theorem interactive_save_is_rejected (svc : Service) (env : RequestEnv)
    (h : List HistoryRecord) (body : TranslateBody) (data : TranslationResult)
    (promptId message : Option String) :
    "interactive" ∉ promptCategories ∧ "general" ∈ promptCategories ∧
    promptSave env "interactive" = .error "Prompt validation failed: category" ∧
    (postInteractive svc env h body).response.body ≠
      .translation data (some true) promptId message ∧
    (postInteractive svcBoth { envGeminiUp with world := worldGeminiJson } []
      { text := some (.str scenarioOriginal), targetLanguage := none,
        saveToDatabase := some (.bool true) }).response =
      ⟨200, .translation scenarioInteractive (some false) none none⟩ := by
  have hsave : promptSave env "interactive" = .error "Prompt validation failed: category" := by
    unfold promptSave
    rw [if_neg (by decide)]
  refine ⟨by decide, by decide, hsave, ?_, by rfl⟩
  unfold postInteractive
  rw [hsave]
  split
  · simp
  · simp
  · split
    · simp
    · split <;> simp

/-! ## Frame of the history -/

theorem postTranslate_frame (svc : Service) (env : RequestEnv) (h : List HistoryRecord)
    (body : TranslateBody) :
    (postTranslate svc env h body).history = h ∨
    ∃ translation tr,
      truthy body.saveToDatabase = true ∧
      blankGuard "text" body.text = .ok false ∧
      translatePrompt svc env.world [] (some (fieldText body.text))
        (some (body.targetLanguage.getD "zh-CN")) none = (.ok translation, tr) ∧
      truthy (some translation.translated) = true ∧
      (postTranslate svc env h body).response.status = 200 ∧
      (postTranslate svc env h body).history =
        pushHistory h
          { id := toString env.dateNow
            originalText := translation.original
            translatedText := translation.translated
            language := "chinese"
            category := "general"
            createdAt := env.newDate } := by
  cases hg : blankGuard "text" body.text with
  | error e => left; simp [postTranslate, hg]
  | ok b =>
    cases b with
    | true => left; simp [postTranslate, hg]
    | false =>
      rcases hc : translatePrompt svc env.world [] (some (fieldText body.text))
        (some (body.targetLanguage.getD "zh-CN")) none with ⟨res, tr⟩
      cases res with
      | error e => left; simp [postTranslate, hg, hc]
      | ok translation =>
        by_cases hs : truthy body.saveToDatabase = true
        · by_cases hf : truthy (some translation.translated) = true
          · right
            refine ⟨translation, tr, hs, rfl, rfl, hf, ?_, ?_⟩
            · simp [postTranslate, hg, hc, hs, hf]
            · simp [postTranslate, hg, hc, hs, hf]
          · left; simp [postTranslate, hg, hc, hs, hf]
        · left; simp [postTranslate, hg, hc, hs]

theorem handle_frame_other (svc : Service) (env : RequestEnv) (h : List HistoryRecord)
    (req : Request) (hreq : ∀ body, req ≠ .translate body) :
    (handle svc env h req).history = h := by
  cases req with
  | translate body => exact absurd rfl (hreq body)
  | analyzePhrases body =>
    simp only [handle, postAnalyzePhrases]
    split
    · rfl
    · rfl
    · split
      · rfl
      · rfl
      · split <;> rfl
  | interactive body =>
    simp only [handle, postInteractive]
    split
    · rfl
    · rfl
    · split
      · rfl
      · split
        · split <;> rfl
        · rfl
  | batch body =>
    simp only [handle, postBatch]
    split
    · split_ifs <;> rfl
    · rfl
  | history query => rfl
  | search query =>
    simp only [handle, getSearch]
    split_ifs
    · rfl
    · split <;> rfl
  | other m p => rfl

/-- C28. Handling a request leaves the history exactly as it was, unless the request is a
`POST /` whose body passes the guard, asks to save, and whose translation succeeds with a
non-empty translated text; in that case the response has status 200 and the history becomes
the prepend-and-truncate of the new record. In particular the history is unchanged by every
request answered with another status than 200, by a `POST /` without the save flag or with an
empty translation, and by every request that is not a `POST /`. -/
theorem history_changes_only_on_saved_translation (svc : Service) (env : RequestEnv)
    (h : List HistoryRecord) (req : Request) :
    ((handle svc env h req).history = h ∨
      ∃ body translation tr,
        req = .translate body ∧
        truthy body.saveToDatabase = true ∧
        blankGuard "text" body.text = .ok false ∧
        translatePrompt svc env.world [] (some (fieldText body.text))
          (some (body.targetLanguage.getD "zh-CN")) none = (.ok translation, tr) ∧
        truthy (some translation.translated) = true ∧
        (handle svc env h req).response.status = 200 ∧
        (handle svc env h req).history =
          pushHistory h
            { id := toString env.dateNow
              originalText := translation.original
              translatedText := translation.translated
              language := "chinese"
              category := "general"
              createdAt := env.newDate }) ∧
    ((handle svc env h req).response.status ≠ 200 → (handle svc env h req).history = h) ∧
    (∀ body, req = .translate body → truthy body.saveToDatabase = false →
      (handle svc env h req).history = h) ∧
    (∀ body translation tr, req = .translate body →
      translatePrompt svc env.world [] (some (fieldText body.text))
        (some (body.targetLanguage.getD "zh-CN")) none = (.ok translation, tr) →
      truthy (some translation.translated) = false → (handle svc env h req).history = h) ∧
    ((∀ body, req ≠ .translate body) → (handle svc env h req).history = h) := by
  have hmain : (handle svc env h req).history = h ∨
      ∃ body translation tr,
        req = .translate body ∧
        truthy body.saveToDatabase = true ∧
        blankGuard "text" body.text = .ok false ∧
        translatePrompt svc env.world [] (some (fieldText body.text))
          (some (body.targetLanguage.getD "zh-CN")) none = (.ok translation, tr) ∧
        truthy (some translation.translated) = true ∧
        (handle svc env h req).response.status = 200 ∧
        (handle svc env h req).history =
          pushHistory h
            { id := toString env.dateNow
              originalText := translation.original
              translatedText := translation.translated
              language := "chinese"
              category := "general"
              createdAt := env.newDate } := by
    by_cases hreq : ∃ body, req = .translate body
    · obtain ⟨body, rfl⟩ := hreq
      rcases postTranslate_frame svc env h body with hf | ⟨translation, tr, h1, h2, h3, h4, h5, h6⟩
      · exact Or.inl hf
      · exact Or.inr ⟨body, translation, tr, rfl, h1, h2, h3, h4, h5, h6⟩
    · left
      exact handle_frame_other svc env h req (fun body hb => hreq ⟨body, hb⟩)
  refine ⟨hmain, ?_, ?_, ?_, ?_⟩
  · intro hstatus
    rcases hmain with hf | ⟨_, _, _, _, _, _, _, _, h200, _⟩
    · exact hf
    · exact absurd h200 hstatus
  · intro body hb hsave
    rcases hmain with hf | ⟨body2, _, _, hb2, hs2, _, _, _, _, _⟩
    · exact hf
    · rw [hb] at hb2
      cases hb2
      rw [hsave] at hs2
      cases hs2
  · intro body translation tr hb hcall hempty
    rcases hmain with hf | ⟨body2, translation2, tr2, hb2, _, _, hcall2, hfull2, _, _⟩
    · exact hf
    · rw [hb] at hb2
      cases hb2
      rw [hcall] at hcall2
      cases hcall2
      rw [hempty] at hfull2
      cases hfull2
  · intro hreq
    exact handle_frame_other svc env h req hreq

/-- Instance of C28: a `POST /` without text is answered with status 400 and leaves a history
of one record as it was. -/
theorem history_changes_only_on_saved_translation_witness :
    (handle svcBoth envGeminiUp [catRecord]
      (.translate { text := none, targetLanguage := none,
                    saveToDatabase := some (.bool true) })).response.status = 400 ∧
    (handle svcBoth envGeminiUp [catRecord]
      (.translate { text := none, targetLanguage := none,
                    saveToDatabase := some (.bool true) })).history = [catRecord] :=
  ⟨by rfl,
   (history_changes_only_on_saved_translation svcBoth envGeminiUp [catRecord]
      (.translate { text := none, targetLanguage := none,
                    saveToDatabase := some (.bool true) })).2.1 (by decide)⟩

/-! ## Pagination -/

theorem getHistory_eq (h : List HistoryRecord) (p L : Nat) (c : Option String) :
    getHistory h { page := some p, limit := some L, category := c } =
      ⟨⟨200, paginate (filteredBy c h) p L⟩, h, []⟩ := by
  have hfilter : (if truthyStr c && c != some "all" then
        h.filter fun item => some item.category == c else h) = filteredBy c h := by
    unfold filteredBy
    cases c with
    | none => simp [truthyStr]
    | some cat =>
      by_cases h1 : cat = ""
      · simp [truthyStr, h1]
      · by_cases h2 : cat = "all"
        · simp [truthyStr, h2]
        · simp [truthyStr, h1, h2]
  simp only [getHistory, Option.getD_some, hfilter]

theorem paginate_prompts (items : List HistoryRecord) (p L : Nat) (hp : 1 ≤ p) :
    promptsOf ⟨200, paginate items p L⟩ = (items.drop ((p - 1) * L)).take L := by
  have hskip : ((p : Int) - 1) * (L : Int) = (((p - 1) * L : Nat) : Int) := by
    have : ((p - 1 : Nat) : Int) = (p : Int) - 1 := by omega
    rw [Nat.cast_mul, this]
  simp only [promptsOf, paginate, hskip, slice_window]

theorem paginate_pages (items : List HistoryRecord) (p L : Nat) :
    pagesOf ⟨200, paginate items p L⟩ = pageCount items.length L := rfl

theorem windows_concat (items : List HistoryRecord) (L k : Nat) :
    (List.range k).flatMap (fun i => (items.drop (i * L)).take L) = items.take (k * L) := by
  induction k with
  | zero => simp
  | succ k ih =>
    rw [List.range_succ, List.flatMap_append, ih]
    simp only [List.flatMap_cons, List.flatMap_nil, List.append_nil]
    rw [Nat.succ_mul, List.take_add]

theorem ceil_mul_ge (N L : Nat) (hL : 1 ≤ L) : N ≤ (N + L - 1) / L * L := by
  have h1 := Nat.div_add_mod (N + L - 1) L
  have h2 := Nat.mod_lt (N + L - 1) (show 0 < L by omega)
  have h3 : L * ((N + L - 1) / L) = (N + L - 1) / L * L := Nat.mul_comm _ _
  rw [h3] at h1
  generalize (N + L - 1) / L * L = q at h1 ⊢
  generalize (N + L - 1) % L = r at h1 h2
  omega

theorem lt_of_le_ceil (N L p : Nat) (hL : 1 ≤ L) (hp : 1 ≤ p) (hle : p ≤ (N + L - 1) / L) :
    (p - 1) * L < N := by
  have h1 := Nat.div_add_mod (N + L - 1) L
  have h3 : L * ((N + L - 1) / L) = (N + L - 1) / L * L := Nat.mul_comm _ _
  rw [h3] at h1
  have h4 : (p - 1) * L + L ≤ (N + L - 1) / L * L := by
    have : (p - 1 + 1) * L ≤ (N + L - 1) / L * L := Nat.mul_le_mul_right L (by omega)
    rw [Nat.add_mul, Nat.one_mul] at this
    exact this
  generalize (N + L - 1) / L * L = q at h1 h4
  generalize (N + L - 1) % L = r at h1
  generalize (p - 1) * L = a at h4 ⊢
  omega

theorem pages_cover (items : List HistoryRecord) (L : Nat) (hL : 1 ≤ L) :
    (List.range ((items.length + L - 1) / L)).flatMap
        (fun i => promptsOf ⟨200, paginate items (i + 1) L⟩) = items ∧
    (∀ p, 1 ≤ p → p ≤ (items.length + L - 1) / L →
      promptsOf ⟨200, paginate items p L⟩ ≠ [] ∧
      (promptsOf ⟨200, paginate items p L⟩).length ≤ L) ∧
    (∀ p, (items.length + L - 1) / L < p → promptsOf ⟨200, paginate items p L⟩ = []) := by
  refine ⟨?_, ?_, ?_⟩
  · have hfun : (fun i => promptsOf ⟨200, paginate items (i + 1) L⟩) =
        fun i => (items.drop (i * L)).take L := by
      funext i
      rw [paginate_prompts items (i + 1) L (by omega)]
      simp
    rw [hfun, windows_concat]
    exact List.take_of_length_le (ceil_mul_ge items.length L hL)
  · intro p hp hle
    rw [paginate_prompts items p L hp]
    have hlt := lt_of_le_ceil items.length L p hL hp hle
    constructor
    · intro hnil
      have hlen := congrArg List.length hnil
      simp only [List.length_take, List.length_drop, List.length_nil] at hlen
      omega
    · simp only [List.length_take]
      omega
  · intro p hp
    have hp1 : 1 ≤ p := Nat.lt_of_le_of_lt (Nat.zero_le _) hp
    rw [paginate_prompts items p L hp1]
    have hge : items.length ≤ (p - 1) * L := by
      have h1 := ceil_mul_ge items.length L hL
      have h2 : (items.length + L - 1) / L * L ≤ (p - 1) * L :=
        Nat.mul_le_mul_right L (by omega)
      omega
    rw [List.drop_of_length_le hge]
    simp

theorem getSearch_eq (env : RequestEnv) (h results : List HistoryRecord) (q : JsString)
    (p L : Nat) (hq : isBlank (some q) = false)
    (hres : searchFilter env (env.toLowerCase q) h = .ok results) :
    getSearch env h { q := some q, page := some p, limit := some L } =
      ⟨⟨200, paginate results p L⟩, h, []⟩ := by
  simp [getSearch, hq, hres]

/-- C30. For every history, category filter and page size `L ≥ 1`, with `N` the number of
filtered records, `GET /history` reports `ceil(N / L)` pages on every page; the `prompts` of
pages 1 to `ceil(N / L)` concatenated in order are exactly the filtered sequence, each of
these pages is non-empty and has at most `L` records, and every later page is empty. The same
holds for `GET /search` with the records matching the search term as the sequence. -/
theorem pagination_covers_exactly_once (env : RequestEnv) (h results : List HistoryRecord)
    (c : Option String) (q : JsString) (L : Nat) (hL : 1 ≤ L) :
    ((∀ p, pagesOf (getHistory h { page := some p, limit := some L, category := c }).response =
        some (((filteredBy c h).length + L - 1) / L)) ∧
      (List.range (((filteredBy c h).length + L - 1) / L)).flatMap
        (fun i => promptsOf
          (getHistory h { page := some (i + 1), limit := some L, category := c }).response) =
        filteredBy c h ∧
      (∀ p, 1 ≤ p → p ≤ ((filteredBy c h).length + L - 1) / L →
        promptsOf (getHistory h { page := some p, limit := some L, category := c }).response ≠
          [] ∧
        (promptsOf (getHistory h
          { page := some p, limit := some L, category := c }).response).length ≤ L) ∧
      (∀ p, ((filteredBy c h).length + L - 1) / L < p →
        promptsOf (getHistory h { page := some p, limit := some L, category := c }).response =
          [])) ∧
    (isBlank (some q) = false → searchFilter env (env.toLowerCase q) h = .ok results →
      (∀ p, pagesOf (getSearch env h { q := some q, page := some p, limit := some L }).response =
        some ((results.length + L - 1) / L)) ∧
      (List.range ((results.length + L - 1) / L)).flatMap
        (fun i => promptsOf
          (getSearch env h { q := some q, page := some (i + 1), limit := some L }).response) =
        results ∧
      (∀ p, 1 ≤ p → p ≤ (results.length + L - 1) / L →
        promptsOf (getSearch env h { q := some q, page := some p, limit := some L }).response ≠
          [] ∧
        (promptsOf (getSearch env h
          { q := some q, page := some p, limit := some L }).response).length ≤ L) ∧
      (∀ p, (results.length + L - 1) / L < p →
        promptsOf (getSearch env h { q := some q, page := some p, limit := some L }).response =
          [])) := by
  have hpc : ∀ n, pageCount n L = some ((n + L - 1) / L) := by
    intro n
    unfold pageCount
    rw [if_neg (by omega)]
  constructor
  · simp only [getHistory_eq]
    obtain ⟨h1, h2, h3⟩ := pages_cover (filteredBy c h) L hL
    exact ⟨fun p => (paginate_pages _ p L).trans (hpc _), h1, h2, h3⟩
  · intro hq hres
    simp only [getSearch_eq env h results q _ L hq hres]
    obtain ⟨h1, h2, h3⟩ := pages_cover results L hL
    exact ⟨fun p => (paginate_pages _ p L).trans (hpc _), h1, h2, h3⟩

/-- Instance of C30: a history of three records listed two per page has two pages, the first
with two records and the second with one, and the third page is empty. -/
theorem pagination_covers_exactly_once_witness :
    pagesOf (getHistory [catRecord, { catRecord with id := "2" }, { catRecord with id := "1" }]
      { page := some 1, limit := some 2, category := none }).response = some 2 ∧
    (List.range 2).flatMap
      (fun i => promptsOf
        (getHistory [catRecord, { catRecord with id := "2" }, { catRecord with id := "1" }]
          { page := some (i + 1), limit := some 2, category := none }).response) =
      [catRecord, { catRecord with id := "2" }, { catRecord with id := "1" }] ∧
    promptsOf (getHistory [catRecord, { catRecord with id := "2" }, { catRecord with id := "1" }]
      { page := some 3, limit := some 2, category := none }).response = [] :=
  have h := (pagination_covers_exactly_once envGeminiUp
    [catRecord, { catRecord with id := "2" }, { catRecord with id := "1" }] [] none [] 2
    (by decide)).1
  ⟨h.1 1, h.2.1, h.2.2.2 3 (by decide)⟩

/-! ## `JSON.parse` builds objects with pairwise distinct keys -/

theorem setProp_keys (ms : List (JsString × JsValue)) (k : JsString) (v : JsValue) :
    (setProp ms k v).map Prod.fst =
      if k ∈ ms.map Prod.fst then ms.map Prod.fst else ms.map Prod.fst ++ [k] := by
  induction ms with
  | nil => simp [setProp]
  | cons m ms ih =>
    obtain ⟨k1, v1⟩ := m
    by_cases h1 : k1 = k
    · subst h1
      simp [setProp]
    · have h2 : ¬ k = k1 := fun h => h1 h.symm
      simp only [setProp, if_neg h1, List.map_cons, ih, List.mem_cons, h2, false_or]
      split_ifs <;> simp

theorem setProp_nodup (ms : List (JsString × JsValue)) (k : JsString) (v : JsValue)
    (h : (ms.map Prod.fst).Nodup) : ((setProp ms k v).map Prod.fst).Nodup := by
  rw [setProp_keys]
  split_ifs with hk
  · exact h
  · rw [List.nodup_append]
    refine ⟨h, List.nodup_singleton k, ?_⟩
    intro a ha hb
    simp only [List.mem_singleton] at hb
    subst hb
    exact hk ha

theorem setProp_distinctKeysMembers (ms : List (JsString × JsValue)) (k : JsString)
    (v : JsValue) (h : distinctKeysMembers ms = true) (hv : distinctKeys v = true) :
    distinctKeysMembers (setProp ms k v) = true := by
  induction ms with
  | nil => simp [setProp, distinctKeysMembers, hv]
  | cons m ms ih =>
    obtain ⟨k1, v1⟩ := m
    simp only [distinctKeysMembers, Bool.and_eq_true] at h
    by_cases h1 : k1 = k
    · simp [setProp, h1, distinctKeysMembers, hv, h.2]
    · simp [setProp, h1, distinctKeysMembers, h.1, ih h.2]

theorem foldl_setProp_distinct (kvs init : List (JsString × JsValue))
    (hn : (init.map Prod.fst).Nodup) (hi : distinctKeysMembers init = true)
    (hk : distinctKeysMembers kvs = true) :
    ((kvs.foldl (fun o kv => setProp o kv.1 kv.2) init).map Prod.fst).Nodup ∧
      distinctKeysMembers (kvs.foldl (fun o kv => setProp o kv.1 kv.2) init) = true := by
  induction kvs generalizing init with
  | nil => exact ⟨hn, hi⟩
  | cons kv kvs ih =>
    obtain ⟨k, v⟩ := kv
    simp only [distinctKeysMembers, Bool.and_eq_true] at hk
    simp only [List.foldl_cons]
    exact ih _ (setProp_nodup init k v hn) (setProp_distinctKeysMembers init k v hi hk.1) hk.2

theorem distinctKeys_obj_of_foldl (kvs : List (JsString × JsValue))
    (hk : distinctKeysMembers kvs = true) :
    distinctKeys (.obj (kvs.foldl (fun o kv => setProp o kv.1 kv.2) [])) = true := by
  obtain ⟨h1, h2⟩ := foldl_setProp_distinct kvs [] (by simp) rfl hk
  simp [distinctKeys, h1, h2]

namespace JSON

theorem parseNumber_distinct (s r : JsString) (v : JsValue)
    (h : parseNumber s = some (v, r)) : distinctKeys v = true := by
  unfold parseNumber at h
  simp only at h
  split_ifs at h
  split at h
  · cases h
  · split at h
    · cases h
    · cases h; rfl

theorem parseKeyword_value (kw s r : JsString) (v v2 : JsValue)
    (h : parseKeyword kw v s = some (v2, r)) : v2 = v := by
  unfold parseKeyword at h
  split_ifs at h
  cases h
  rfl

theorem parseValue_distinct_step (n : Nat)
    (ihE : ∀ s vs r, parseElements n s = some (vs, r) → distinctKeysList vs = true)
    (ihM : ∀ s ms r, parseMembers n s = some (ms, r) → distinctKeysMembers ms = true)
    (s : JsString) (v : JsValue) (r : JsString) (h : parseValue (n + 1) s = some (v, r)) :
    distinctKeys v = true := by
  simp only [parseValue] at h
  split at h
  · cases h
  · next c rest heq =>
    by_cases h123 : c = 123
    · simp only [h123, if_true] at h
      split at h
      · cases h
      · next d rest1 heq2 =>
        by_cases h125 : d = 125
        · simp only [h125, if_true] at h
          cases h
          rfl
        · simp only [h125, if_false] at h
          split at h
          · next ms r1 hrec =>
            cases h
            exact distinctKeys_obj_of_foldl ms (ihM _ _ _ hrec)
          · cases h
    · simp only [h123, if_false] at h
      by_cases h91 : c = 91
      · simp only [h91, if_true] at h
        split at h
        · cases h
        · next d rest1 heq2 =>
          by_cases h93 : d = 93
          · simp only [h93, if_true] at h
            cases h
            rfl
          · simp only [h93, if_false] at h
            split at h
            · next xs r1 hrec =>
              cases h
              simp only [distinctKeys]
              exact ihE _ _ _ hrec
            · cases h
      · simp only [h91, if_false] at h
        split_ifs at h with h34 h116 h102 h110
        · split at h
          · cases h; rfl
          · cases h
        · rw [parseKeyword_value _ _ _ _ _ h]; rfl
        · rw [parseKeyword_value _ _ _ _ _ h]; rfl
        · rw [parseKeyword_value _ _ _ _ _ h]; rfl
        · exact parseNumber_distinct _ _ _ h

theorem parseElements_distinct_step (n : Nat)
    (ihV : ∀ s v r, parseValue n s = some (v, r) → distinctKeys v = true)
    (ihE : ∀ s vs r, parseElements n s = some (vs, r) → distinctKeysList vs = true)
    (s : JsString) (vs : List JsValue) (r : JsString)
    (h : parseElements (n + 1) s = some (vs, r)) : distinctKeysList vs = true := by
  simp only [parseElements] at h
  split at h
  · cases h
  · next v rest hv =>
    have hvd := ihV _ _ _ hv
    split at h
    · cases h
    · next c rest1 heq =>
      by_cases h93 : c = 93
      · simp only [h93, if_true] at h
        cases h
        simp [distinctKeysList, hvd]
      · simp only [h93, if_false] at h
        by_cases h44 : c = 44
        · simp only [h44, if_true] at h
          split at h
          · next vs1 r1 hrec =>
            cases h
            simp [distinctKeysList, hvd, ihE _ _ _ hrec]
          · cases h
        · simp only [h44, if_false] at h
          cases h

theorem parseMembers_distinct_step (n : Nat)
    (ihV : ∀ s v r, parseValue n s = some (v, r) → distinctKeys v = true)
    (ihM : ∀ s ms r, parseMembers n s = some (ms, r) → distinctKeysMembers ms = true)
    (s : JsString) (ms : List (JsString × JsValue)) (r : JsString)
    (h : parseMembers (n + 1) s = some (ms, r)) : distinctKeysMembers ms = true := by
  simp only [parseMembers] at h
  split at h
  · cases h
  · next q rest heq =>
    by_cases h34 : q = 34
    · simp only [h34, if_true] at h
      split at h
      · cases h
      · next k rest1 hk =>
        split at h
        · cases h
        · next colon rest2 heq1 =>
          by_cases h58 : colon = 58
          · simp only [h58, if_true] at h
            split at h
            · cases h
            · next v rest3 hv =>
              have hvd := ihV _ _ _ hv
              split at h
              · cases h
              · next c rest4 heq3 =>
                by_cases h125 : c = 125
                · simp only [h125, if_true] at h
                  cases h
                  simp [distinctKeysMembers, hvd]
                · simp only [h125, if_false] at h
                  by_cases h44 : c = 44
                  · simp only [h44, if_true] at h
                    split at h
                    · next ms1 r1 hrec =>
                      cases h
                      simp [distinctKeysMembers, hvd, ihM _ _ _ hrec]
                    · cases h
                  · simp only [h44, if_false] at h
                    cases h
          · simp only [h58, if_false] at h
            cases h
    · simp only [h34, if_false] at h
      cases h

theorem parse_distinct_aux (n : Nat) :
    (∀ s v r, parseValue n s = some (v, r) → distinctKeys v = true) ∧
    (∀ s vs r, parseElements n s = some (vs, r) → distinctKeysList vs = true) ∧
    (∀ s ms r, parseMembers n s = some (ms, r) → distinctKeysMembers ms = true) := by
  induction n with
  | zero =>
    refine ⟨?_, ?_, ?_⟩ <;> intro s v r h
    · simp [parseValue] at h
    · simp [parseElements] at h
    · simp [parseMembers] at h
  | succ n ih =>
    obtain ⟨ihV, ihE, ihM⟩ := ih
    exact ⟨parseValue_distinct_step n ihE ihM, parseElements_distinct_step n ihV ihE,
      parseMembers_distinct_step n ihV ihM⟩

/-- Every object inside a value returned by `JSON.parse` has pairwise distinct keys. -/
theorem parse_distinctKeys (text : JsString) (v : JsValue) (h : parse text = some v) :
    distinctKeys v = true := by
  unfold parse at h
  split at h
  · next v1 rest hv =>
    split_ifs at h
    cases h
    exact (parse_distinct_aux _).1 _ _ _ hv
  · cases h

end JSON

/-! ## The phrase objects of a result -/

theorem getOwn_eq_none_of_not_mem (ps : List (JsString × JsValue)) (k : JsString)
    (h : k ∉ ps.map Prod.fst) : getOwn ps k = none := by
  induction ps with
  | nil => rfl
  | cons p ps ih =>
    obtain ⟨k1, v1⟩ := p
    simp only [List.map_cons, List.mem_cons, not_or] at h
    have h1 : ¬ k1 = k := fun e => h.1 e.symm
    simp [getOwn, h1, ih h.2]

theorem getOwn_foldl_setProp_nodup (ps init : List (JsString × JsValue)) (k : JsString)
    (hn : (ps.map Prod.fst).Nodup) :
    getOwn (ps.foldl (fun o kv => setProp o kv.1 kv.2) init) k =
      match getOwn ps k with
      | some v => some v
      | none => getOwn init k := by
  induction ps generalizing init with
  | nil => rfl
  | cons p ps ih =>
    obtain ⟨k1, v1⟩ := p
    simp only [List.map_cons, List.nodup_cons] at hn
    simp only [List.foldl_cons]
    by_cases h1 : k1 = k
    · subst h1
      have hnone := getOwn_eq_none_of_not_mem ps k1 hn.1
      rw [getOwn_foldl_setProp ps _ k1 hnone, getOwn_setProp]
      simp [getOwn]
    · rw [ih _ hn.2, getOwn_setProp, if_neg h1]
      simp [getOwn, h1]

theorem distinctKeys_of_getOwn (ms : List (JsString × JsValue)) (k : JsString) (x : JsValue)
    (h : distinctKeysMembers ms = true) (hx : getOwn ms k = some x) :
    distinctKeys x = true := by
  induction ms with
  | nil => simp [getOwn] at hx
  | cons m ms ih =>
    obtain ⟨k1, v1⟩ := m
    simp only [distinctKeysMembers, Bool.and_eq_true] at h
    by_cases h1 : k1 = k
    · simp only [getOwn, h1, if_true, Option.some.injEq] at hx
      rw [← hx]
      exact h.1
    · simp only [getOwn, h1, if_false] at hx
      exact ih h.2 hx

theorem distinctKeys_of_getElem? (xs : List JsValue) (i : Nat) (x : JsValue)
    (h : distinctKeysList xs = true) (hx : xs[i]? = some x) : distinctKeys x = true := by
  induction xs generalizing i with
  | nil => simp at hx
  | cons y ys ih =>
    simp only [distinctKeysList, Bool.and_eq_true] at h
    cases i with
    | zero =>
      simp only [List.getElem?_cons_zero, Option.some.injEq] at hx
      rw [← hx]
      exact h.1
    | succ j =>
      simp only [List.getElem?_cons_succ] at hx
      exact ih j h.2 hx

theorem phrases_nodup_of_parse (raw : JsString) (ms : List (JsString × JsValue))
    (xs : List JsValue) (i : Nat) (ps : List (JsString × JsValue))
    (hparse : JSON.parse raw = some (.obj ms))
    (hk : getOwn ms (utf16 "keyPhrases") = some (.arr xs))
    (hi : xs[i]? = some (.obj ps)) : (ps.map Prod.fst).Nodup := by
  have h1 := JSON.parse_distinctKeys raw _ hparse
  simp only [distinctKeys, Bool.and_eq_true] at h1
  have h2 := distinctKeys_of_getOwn ms _ _ h1.2 hk
  simp only [distinctKeys] at h2
  have h3 := distinctKeys_of_getElem? xs i _ h2 hi
  simp only [distinctKeys, Bool.and_eq_true, decide_eq_true_eq] at h3
  exact h3.1

theorem getElem?_mapWithId (xs : List JsValue) (i : Nat) :
    (List.zipWith withId (List.range xs.length) xs)[i]? = xs[i]?.map (withId i) := by
  rw [List.getElem?_zipWith]
  by_cases hi : i < xs.length
  · rw [List.getElem?_range hi]
    cases hx : xs[i]? with
    | none => rfl
    | some x => rfl
  · have h1 : xs[i]? = none := by
      rw [List.getElem?_eq_none_iff]; omega
    have h2 : (List.range xs.length)[i]? = none := by
      rw [List.getElem?_eq_none_iff]; simp; omega
    rw [h1, h2]
    rfl

theorem getOwn_withId (i : Nat) (ps : List (JsString × JsValue)) (k : JsString)
    (hn : (ps.map Prod.fst).Nodup) :
    propOfKey k (withId i (.obj ps)) =
      match getOwn ps k with
      | some v => some v
      | none => if k = utf16 "id" then some (JsValue.ofNat (i + 1)) else none := by
  simp only [propOfKey, withId, spreadProps]
  rw [getOwn_foldl_setProp_nodup ps _ k hn]
  cases getOwn ps k with
  | some v => rfl
  | none =>
    simp only [getOwn]
    by_cases hk : utf16 "id" = k
    · simp [hk]
    · have hk2 : ¬ k = utf16 "id" := fun e => hk e.symm
      simp [hk, hk2]

theorem mapWithId_passedThrough (raw : JsString) (ms : List (JsString × JsValue))
    (xs : List JsValue) (hparse : JSON.parse raw = some (.obj ms))
    (hk : getOwn ms (utf16 "keyPhrases") = some (.arr xs)) :
    PassedThrough xs (List.zipWith withId (List.range xs.length) xs) := by
  refine ⟨mapWithId_length xs, ?_⟩
  intro i ps hi
  have hn := phrases_nodup_of_parse raw ms xs i ps hparse hk hi
  refine ⟨withId i (.obj ps), ?_, ?_, ?_⟩
  · rw [getElem?_mapWithId, hi]
    rfl
  · intro k v hv
    rw [getOwn_withId i ps k hn, hv]
  · intro k hne
    rw [getOwn_withId i ps k hn]
    cases getOwn ps k with
    | some v => rfl
    | none => simp [hne]

theorem idOf_eq_propOfKey (q : JsValue) : idOf q = propOfKey (utf16 "id") q := by
  cases q <;> rfl

theorem mapWithId_idRule (raw : JsString) (ms : List (JsString × JsValue))
    (xs : List JsValue) (hparse : JSON.parse raw = some (.obj ms))
    (hk : getOwn ms (utf16 "keyPhrases") = some (.arr xs)) :
    IdRule xs (List.zipWith withId (List.range xs.length) xs) := by
  intro i ps hi
  have hn := phrases_nodup_of_parse raw ms xs i ps hparse hk hi
  refine ⟨withId i (.obj ps), ?_, ?_⟩
  · rw [getElem?_mapWithId, hi]
    rfl
  · rw [idOf_eq_propOfKey, getOwn_withId i ps _ hn]
    cases getOwn ps (utf16 "id") with
    | some v => rfl
    | none => simp

theorem positions_nodup (n : Nat) : (positions n).Nodup := by
  unfold positions
  apply List.Nodup.map
  · intro i j hij
    simp only [JsValue.ofNat, Option.some.injEq, JsValue.num.injEq, add_left_inj, true_and,
      and_true] at hij
    exact hij
  · exact List.nodup_range n

/-- C25. For a response that parses as a JSON object whose `keyPhrases` is an array, both
parsers, on their success path, return one key phrase per input phrase in input order, and
the key phrase for an input object has every field of that object with the same value and,
apart from `id`, no other field. Offsets and texts are not inspected. The success path of
`parseInteractiveResponse` requires in addition a truthy `translated`. -/
theorem phrases_pass_through (svc : Service) (now : String)
    (raw originalText translatedText : JsString) (ms : List (JsString × JsValue))
    (tv : JsValue) (xs : List JsValue) (hparse : JSON.parse raw = some (.obj ms))
    (hk : getOwn ms (utf16 "keyPhrases") = some (.arr xs)) :
    (getOwn ms (utf16 "translated") = some tv → truthy (some tv) = true →
      ∃ r ks, parseInteractiveResponse svc now raw originalText = .ok r ∧
        r.keyPhrases = some ks ∧ PassedThrough xs ks) ∧
    (∃ r ks, parsePhraseAnalysisResponse svc now raw originalText translatedText = .ok r ∧
        r.keyPhrases = some ks ∧ PassedThrough xs ks) := by
  constructor
  · intro ht htt
    refine ⟨{ original := originalText, translated := tv,
              keyPhrases := some (List.zipWith withId (List.range xs.length) xs),
              language := "zh-CN", provider := svc.defaultProvider, timestamp := now },
      List.zipWith withId (List.range xs.length) xs, ?_, rfl,
      mapWithId_passedThrough raw ms xs hparse hk⟩
    exact parseInteractiveResponse_of_body_ok svc now raw originalText _
      (parseInteractiveBody_success svc now raw originalText ms tv xs hparse ht htt hk)
  · refine ⟨{ original := originalText, translated := .str translatedText,
              keyPhrases := some (List.zipWith withId (List.range xs.length) xs),
              language := "zh-CN", provider := svc.defaultProvider, timestamp := now },
      List.zipWith withId (List.range xs.length) xs, ?_, rfl,
      mapWithId_passedThrough raw ms xs hparse hk⟩
    exact parsePhraseAnalysisResponse_of_body_ok svc now raw originalText translatedText _
      (parsePhraseAnalysisBody_success svc now raw originalText translatedText ms xs hparse hk)

/-- C27. For a response that parses as a JSON object whose `keyPhrases` is an array, on the
success path of both parsers the id of the result phrase at 0-based index `i` is the input
phrase object's own `id` when it has one and `i + 1` otherwise; when no input phrase has an
`id` of its own the result ids are exactly `1, ..., n`, hence pairwise distinct. -/
theorem id_rule (svc : Service) (now : String)
    (raw originalText translatedText : JsString) (ms : List (JsString × JsValue))
    (tv : JsValue) (xs : List JsValue) (hparse : JSON.parse raw = some (.obj ms))
    (hk : getOwn ms (utf16 "keyPhrases") = some (.arr xs)) :
    (getOwn ms (utf16 "translated") = some tv → truthy (some tv) = true →
      ∃ r ks, parseInteractiveResponse svc now raw originalText = .ok r ∧
        r.keyPhrases = some ks ∧ ks.length = xs.length ∧ IdRule xs ks ∧
        ((∀ x ∈ xs, ∃ ps, x = .obj ps ∧ getOwn ps (utf16 "id") = none) →
          ks.map idOf = positions xs.length ∧ (ks.map idOf).Nodup)) ∧
    (∃ r ks, parsePhraseAnalysisResponse svc now raw originalText translatedText = .ok r ∧
        r.keyPhrases = some ks ∧ ks.length = xs.length ∧ IdRule xs ks ∧
        ((∀ x ∈ xs, ∃ ps, x = .obj ps ∧ getOwn ps (utf16 "id") = none) →
          ks.map idOf = positions xs.length ∧ (ks.map idOf).Nodup)) := by
  have hids : (∀ x ∈ xs, ∃ ps, x = .obj ps ∧ getOwn ps (utf16 "id") = none) →
      (List.zipWith withId (List.range xs.length) xs).map idOf = positions xs.length ∧
        ((List.zipWith withId (List.range xs.length) xs).map idOf).Nodup := by
    intro hno
    have h1 := mapWithId_ids xs hno
    exact ⟨h1, by rw [h1]; exact positions_nodup _⟩
  constructor
  · intro ht htt
    refine ⟨{ original := originalText, translated := tv,
              keyPhrases := some (List.zipWith withId (List.range xs.length) xs),
              language := "zh-CN", provider := svc.defaultProvider, timestamp := now },
      List.zipWith withId (List.range xs.length) xs, ?_, rfl, mapWithId_length xs,
      mapWithId_idRule raw ms xs hparse hk, hids⟩
    exact parseInteractiveResponse_of_body_ok svc now raw originalText _
      (parseInteractiveBody_success svc now raw originalText ms tv xs hparse ht htt hk)
  · refine ⟨{ original := originalText, translated := .str translatedText,
              keyPhrases := some (List.zipWith withId (List.range xs.length) xs),
              language := "zh-CN", provider := svc.defaultProvider, timestamp := now },
      List.zipWith withId (List.range xs.length) xs, ?_, rfl, mapWithId_length xs,
      mapWithId_idRule raw ms xs hparse hk, hids⟩
    exact parsePhraseAnalysisResponse_of_body_ok svc now raw originalText translatedText _
      (parsePhraseAnalysisBody_success svc now raw originalText translatedText ms xs hparse hk)

set_option maxRecDepth 100000 in
/-- Instance of C25: the scenario response, whose phrase has offsets that do not match its
text. -/
theorem phrases_pass_through_witness :
    JSON.parse scenarioResponse = some (.obj scenarioParsed) ∧
    (∃ r ks, parseInteractiveResponse svcBoth sampleNow scenarioResponse scenarioOriginal =
        .ok r ∧ r.keyPhrases = some ks ∧ PassedThrough [scenarioInputPhrase] ks) ∧
    (∃ r ks, parsePhraseAnalysisResponse svcBoth sampleNow scenarioResponse scenarioOriginal
        scenarioTranslated = .ok r ∧
      r.keyPhrases = some ks ∧ PassedThrough [scenarioInputPhrase] ks) :=
  have hparse : JSON.parse scenarioResponse = some (.obj scenarioParsed) := by decide
  have h := phrases_pass_through svcBoth sampleNow scenarioResponse scenarioOriginal
    scenarioTranslated scenarioParsed (.str scenarioTranslated) [scenarioInputPhrase] hparse
    (by decide)
  ⟨hparse, h.1 (by decide) (by decide), h.2⟩

set_option maxRecDepth 100000 in
/-- Instance of C27: a response whose only phrase has the `id` 7 of its own. -/
theorem id_rule_witness :
    JSON.parse rawModelId = some (.obj modelIdParsed) ∧
    (∃ r ks, parseInteractiveResponse svcBoth sampleNow rawModelId scenarioOriginal = .ok r ∧
      r.keyPhrases = some ks ∧ ks.length = 1 ∧
      IdRule [.obj [(utf16 "id", .num false 7 0), (utf16 "en", .str (utf16 "a"))]] ks) ∧
    (parseInteractiveResponse svcBoth sampleNow rawModelId scenarioOriginal).map
      (fun r => r.keyPhrases.map (List.map idOf)) = .ok (some [some (.num false 7 0)]) :=
  have hparse : JSON.parse rawModelId = some (.obj modelIdParsed) := by decide
  have h := (id_rule svcBoth sampleNow rawModelId scenarioOriginal (utf16 "x") modelIdParsed
    (.str (utf16 "x")) [.obj [(utf16 "id", .num false 7 0), (utf16 "en", .str (utf16 "a"))]]
    hparse (by decide)).1 (by decide) (by decide)
  ⟨hparse, h.elim fun r hr => hr.elim fun ks hks => ⟨r, ks, hks.1, hks.2.1, hks.2.2.1,
    hks.2.2.2.1⟩, by rfl⟩

end TranslateService
